import Mathlib

/-!
Verification development for the yescode-tui interactive terminal client.

The definitions below are a shallow embedding of the Go source:
* the `api` package's data records and the HTTP client's `get`/`put`
  retry behaviour (attempt counting with the transport modelled as an
  oracle from attempt number to an optional error), and
* the `tui` package's Bubble Tea `Model` together with its `Update`
  message handlers, translated handler by handler.

Modelling conventions:
* Go `int` becomes `Int`; Go `float64` fields (balances, rate
  multipliers) become `Rat` — no claim depends on floating-point
  rounding, the values are only stored and displayed.
* Go errors become `String` (the message).
* nil pointers become `Option`.
* The `providerData` map becomes a function `Int → Option ProviderState`;
  `ensureProviderState` for a non-zero absent key inserts a fresh zero
  value, and for key `0` returns a detached fresh value without inserting,
  exactly as the source does.
* Cosmetic-only fields of the Go `Model` (spinner, help widget, key map,
  profile viewport) are omitted: no handler decision or emitted command
  depends on them.  The spinner passthrough line at the end of `Update`
  is likewise omitted.
* A Go `tea.Cmd` return value becomes `List Cmd`, with `[]` standing for
  the `nil` command; every place the source compares a command against
  `nil` the compared value is `nil` exactly when the list is empty.
-/

namespace YC

/-! ## Data model (api package) -/

structure PlanInfo where
  name : String := ""
  price : Rat := 0
  isActive : Bool := false
  dailyBalance : Rat := 0
  weeklyLimit : Rat := 0
  monthlySpendLimit : Rat := 0
deriving DecidableEq, Repr, Inhabited

structure Profile where
  email : String := ""
  username : String := ""
  balance : Rat := 0
  subscriptionBalance : Rat := 0
  payAsYouGoBalance : Rat := 0
  balancePreference : String := ""
  subscriptionExpiry : String := ""
  currentWeekSpend : Rat := 0
  currentMonthSpend : Rat := 0
  subscriptionPlan : PlanInfo := {}
deriving DecidableEq, Repr, Inhabited

structure ProviderInfo where
  id : Int := 0
  displayName : String := ""
  type : String := ""
  description : String := ""
deriving DecidableEq, Repr, Inhabited

structure ProviderBucket where
  provider : ProviderInfo := {}
  rateMultiplier : Rat := 0
  isDefault : Bool := false
  source : String := ""
deriving DecidableEq, Repr, Inhabited

structure ProvidersResponse where
  hasPaygBalance : Bool := false
  hasSubscription : Bool := false
  providers : List ProviderBucket := []
deriving DecidableEq, Repr, Inhabited

structure ProviderAlternative where
  id : Int := 0
  displayName : String := ""
  type : String := ""
  rateMultiplier : Rat := 0
  description : String := ""
deriving DecidableEq, Repr, Inhabited

structure AlternativeOption where
  isSelf : Bool := false
  alternative : ProviderAlternative := {}
deriving DecidableEq, Repr, Inhabited

structure ProviderSelection where
  providerID : Int := 0
  selectedAlternativeID : Int := 0
  selectedAlternative : ProviderAlternative := {}
deriving DecidableEq, Repr, Inhabited

/-! ## API client retry behaviour (part_004: `Client.get` / `Client.put`)

The transport (`c.do`) is modelled as an oracle `env : Nat → Option String`
mapping the zero-based attempt number to `none` (success) or `some e`
(the error of that attempt).  Each client call returns the surfaced
result together with the number of `do` invocations it performed. -/

/-- `Client.get`'s retry loop body: iterate over the remaining attempt
indices (`for attempt := 0; attempt < 2; attempt++`), returning success
as soon as one attempt succeeds, else remembering the last error. -/
def goGetLoop (env : Nat → Option String) : Option String → Nat → List Nat →
    Option String × Nat
  | lastErr, calls, [] => (lastErr, calls)
  | _, calls, a :: rest =>
    match env a with
    | none => (none, calls + 1)
    | some e => goGetLoop env (some e) (calls + 1) rest

/-- `Client.get`: up to two attempts (`attempt < 2`), result of the last. -/
def clientGet (env : Nat → Option String) : Option String × Nat :=
  goGetLoop env none 0 [0, 1]

/-- `Client.put`: a single `do` invocation, its result surfaced directly. -/
def clientPut (env : Nat → Option String) : Option String × Nat :=
  (env 0, 1)

/-- `Client.GetProfile` — a read-only fetch, built on `Client.get`. -/
def getProfileCall (env : Nat → Option String) : Option String × Nat := clientGet env

/-- `Client.GetAvailableProviders` — read-only, built on `Client.get`. -/
def getProvidersCall (env : Nat → Option String) : Option String × Nat := clientGet env

/-- `Client.GetProviderAlternatives` — read-only, built on `Client.get`. -/
def getAlternativesCall (env : Nat → Option String) : Option String × Nat := clientGet env

/-- `Client.GetProviderSelection` — read-only, built on `Client.get`. -/
def getSelectionCall (env : Nat → Option String) : Option String × Nat := clientGet env

/-- `Client.SwitchProvider` — a mutating PUT, built on `Client.put`. -/
def switchProviderCall (env : Nat → Option String) : Option String × Nat := clientPut env

/-- `Client.UpdateBalancePreference` — a mutating PUT, built on `Client.put`. -/
def updatePreferenceCall (env : Nat → Option String) : Option String × Nat := clientPut env

/-! ## TUI state machine (part_002) -/

inductive FocusArea
  | focusProviders
  | focusAlternatives
deriving DecidableEq, Repr, Inhabited

/-- Go `tabIndex` is an `int`; the three tabs. -/
def tabProfile : Int := 0
def tabProviders : Int := 1
def tabBalancePreference : Int := 2

/-- `statusClearDelay = 2 * time.Second` (stored in seconds). -/
def statusClearDelay : Nat := 2
/-- `errorClearDelay = 3 * time.Second` (stored in seconds). -/
def errorClearDelay : Nat := 3

/-- `getUILayout`: Y of the tab header row. -/
def tabHeaderY : Int := 4
/-- `getUILayout`: Y where the content area starts. -/
def contentStartY : Int := 6
/-- `getUILayout`: Y offset of panel inner content (border + padding). -/
def panelInnerOffsetY : Int := 2

/-- Asynchronous operations the model can schedule (the `tea.Cmd`
constructors of the source, identified by the message they produce). -/
inductive Cmd
  | loadProfile
  | loadProviders
  | loadAlternatives (providerID : Int)
  | loadSelection (providerID : Int)
  | switchProvider (providerID : Int) (alternativeID : Int)
  | updatePreference (preference : String)
  | clearStatusAfter (seconds : Nat)
  | profileRefreshTick
  | quit
deriving DecidableEq, Repr

/-- Per-provider cache entry (`providerState`); field defaults are the Go
zero values a fresh `&providerState{}` carries. -/
structure ProviderState where
  alternatives : List AlternativeOption := []
  selection : Option ProviderSelection := none
  alternativesLoaded : Bool := false
  selectionLoaded : Bool := false
  loadingAlternatives : Bool := false
  loadingSelection : Bool := false
  switching : Bool := false
  lastError : Option String := none
deriving DecidableEq, Repr, Inhabited

/-- The Bubble Tea `Model` (state-machine-relevant fields). -/
structure Model where
  profile : Option Profile := none
  providers : List ProviderBucket := []
  providerIdx : Int := 0
  altIdx : Int := 0
  balancePreferenceIdx : Int := 0
  focus : FocusArea := .focusProviders
  currentTab : Int := tabProfile
  ready : Bool := false
  status : String := ""
  err : Option String := none
  width : Int := 0
  height : Int := 0
  providerData : Int → Option ProviderState := fun _ => none
  preferenceSwitching : Bool := false
  providersLoaded : Bool := false
  loadingProviders : Bool := false
  loadingProfile : Bool := false
  manualRefreshingProfile : Bool := false
  showHelpDialog : Bool := false

/-- Messages delivered to `Update` (input events and the asynchronous
completion messages of the source). -/
inductive Msg
  | key (k : String)
  | wheelUp
  | wheelDown
  | leftClick (x y : Int)
  | windowSize (w h : Int)
  | profileLoaded (profile : Profile)
  | providersLoaded (response : ProvidersResponse)
  | alternativesLoaded (providerID : Int) (alternatives : List AlternativeOption)
  | selectionLoaded (providerID : Int) (selection : ProviderSelection)
  | switchCompleted (providerID : Int) (selection : ProviderSelection)
  | preferenceUpdated (preference : String)
  | preferenceFailed (e : String)
  | providerLoadFailed (providerID : Int) (target : String) (e : String)
  | errMsg (e : String)
  | clearStatus
  | profileRefreshTick
deriving DecidableEq, Repr

/-- Does `sub` occur at the very start of `s`? -/
def charsStartWith : List Char → List Char → Bool
  | [], _ => true
  | _ :: _, [] => false
  | a :: as, b :: bs => a = b && charsStartWith as bs

/-- Does `sub` occur anywhere in `s`? -/
def charsContain (sub : List Char) : List Char → Bool
  | [] => charsStartWith sub []
  | c :: rest => charsStartWith sub (c :: rest) || charsContain sub rest

/-- Go `strings.Contains s sub`: `sub` occurs as a substring of `s`. -/
def goContains (s sub : String) : Bool :=
  charsContain sub.data s.data

/-- `clampIndex` from the source, verbatim on `Int`. -/
def clampIndex (idx length : Int) : Int :=
  if idx < 0 then 0
  else if idx ≥ length then length - 1
  else idx

/-- Go slice indexing (used only where the source has bounds-checked the
index; out-of-range access yields the zero value here, a panic in Go). -/
def listGetI {α : Type} [Inhabited α] (l : List α) (i : Int) : α :=
  l.getD i.toNat default

/-- `describePreference` from the source. -/
def describePreference (pref : String) : String :=
  if pref = "subscription_first" then "优先订阅"
  else if pref = "payg_only" then "仅按需付费"
  else if pref = "" then "未知"
  else pref

/-- Point update of the provider cache map. -/
def updMap (f : Int → Option ProviderState) (k : Int) (v : ProviderState) :
    Int → Option ProviderState :=
  fun x => if x = k then some v else f x

/-- Read a cache entry as `ensureProviderState` observes it: id `0` and
absent ids read as the fresh zero value. -/
def getMap (pd : Int → Option ProviderState) (id : Int) : ProviderState :=
  if id = 0 then {} else (pd id).getD {}

/-- The map-insertion side effect of `ensureProviderState`: a non-zero
absent key gains a fresh entry; key `0` stays detached. -/
def ensureMap (pd : Int → Option ProviderState) (id : Int) :
    Int → Option ProviderState :=
  if id = 0 then pd
  else if (pd id).isSome then pd
  else updMap pd id {}

/-- Write back mutations made through the `ensureProviderState` pointer:
for key `0` the pointer targets a detached entry, so writes are lost. -/
def setMap (pd : Int → Option ProviderState) (id : Int) (s : ProviderState) :
    Int → Option ProviderState :=
  if id = 0 then pd
  else updMap pd id s

namespace Model

/-- Reading a provider's cache entry. -/
def getPS (m : Model) (id : Int) : ProviderState :=
  getMap m.providerData id

/-- `ensureProviderState`'s insertion side effect on the model. -/
def ensurePS (m : Model) (id : Int) : Model :=
  { m with providerData := ensureMap m.providerData id }

/-- Write back a mutated cache entry. -/
def setPS (m : Model) (id : Int) (s : ProviderState) : Model :=
  { m with providerData := setMap m.providerData id s }

/-- `findAlternativeIndex`: first index whose alternative id matches, else `-1`. -/
def findAlternativeIndex (alts : List AlternativeOption) (id : Int) : Int :=
  match alts.findIdx? (fun alt => alt.alternative.id = id) with
  | some i => (i : Int)
  | none => -1

/-- `currentProviderID`. -/
def currentProviderID (m : Model) : Int :=
  if m.providers.length = 0 then 0
  else (listGetI m.providers (clampIndex m.providerIdx m.providers.length)).provider.id

/-- Tail of `syncAltIdx` after the selection-match attempt. -/
def syncAltIdxTail (m : Model) (s : ProviderState) : Model :=
  if s.alternatives.length = 0 then { m with altIdx := 0 }
  else { m with altIdx := clampIndex m.altIdx s.alternatives.length }

/-- `syncAltIdx`. -/
def syncAltIdx (m : Model) (providerID : Int) : Model :=
  if providerID = 0 ∨ providerID ≠ m.currentProviderID then m
  else
    let m := m.ensurePS providerID
    let s := m.getPS providerID
    match s.selection with
    | some sel =>
      if 0 < s.alternatives.length then
        let idx := findAlternativeIndex s.alternatives sel.selectedAlternativeID
        if 0 ≤ idx then { m with altIdx := idx }
        else syncAltIdxTail m s
      else syncAltIdxTail m s
    | none => syncAltIdxTail m s

/-- `syncBalancePreferenceIdx`. -/
def syncBalancePreferenceIdx (m : Model) : Model :=
  match m.profile with
  | none => { m with balancePreferenceIdx := 0 }
  | some p =>
    if p.balancePreference = "payg_only" then { m with balancePreferenceIdx := 1 }
    else { m with balancePreferenceIdx := 0 }

/-- `queueProviderDetailLoad`. -/
def queueProviderDetailLoad (m : Model) (providerID : Int) : Model × List Cmd :=
  if providerID = 0 then (m, [])
  else
    let m := m.ensurePS providerID
    let s := m.getPS providerID
    let issueAlts := ¬s.alternativesLoaded ∧ ¬s.loadingAlternatives
    let s := if issueAlts then { s with loadingAlternatives := true } else s
    let cmds : List Cmd := if issueAlts then [.loadAlternatives providerID] else []
    let issueSel := ¬s.selectionLoaded ∧ ¬s.loadingSelection
    let s := if issueSel then { s with loadingSelection := true } else s
    let cmds := if issueSel then cmds ++ [.loadSelection providerID] else cmds
    let loading := issueAlts ∨ issueSel
    let m := m.setPS providerID s
    let m := if loading then
      { m with status := "加载提供商 " ++ toString providerID ++ " 详情中..." } else m
    let m := if s.alternativesLoaded ∧ s.selectionLoaded then m.syncAltIdx providerID else m
    (m, cmds)

/-- `ensureProvidersLoaded`. -/
def ensureProvidersLoaded (m : Model) : Model × List Cmd :=
  if m.providersLoaded ∨ m.loadingProviders then (m, [])
  else ({ m with loadingProviders := true, status := "加载提供商列表中..." },
        [.loadProviders])

/-- `moveSelection`. -/
def moveSelection (m : Model) (delta : Int) : Model × List Cmd :=
  if m.providers = [] then (m, [])
  else if m.focus = .focusProviders then
    let m := { m with providerIdx := clampIndex (m.providerIdx + delta) m.providers.length }
    let m := m.syncAltIdx m.currentProviderID
    m.queueProviderDetailLoad m.currentProviderID
  else
    let pid := m.currentProviderID
    let m := m.ensurePS pid
    let s := m.getPS pid
    if s.alternatives = [] then (m, [])
    else ({ m with altIdx := clampIndex (m.altIdx + delta) s.alternatives.length }, [])

/-- `refreshProfile`. -/
def refreshProfile (m : Model) : Model × List Cmd :=
  ({ m with loadingProfile := true, manualRefreshingProfile := true }, [.loadProfile])

/-- `refreshCurrentProvider`. -/
def refreshCurrentProvider (m : Model) : Model × List Cmd :=
  if m.providers = [] then (m, [])
  else
    let pid := m.currentProviderID
    let m := m.ensurePS pid
    let s := m.getPS pid
    let s := { s with alternativesLoaded := false, loadingAlternatives := false,
                      selectionLoaded := false, loadingSelection := false }
    let m := m.setPS pid s
    m.queueProviderDetailLoad m.currentProviderID

/-- `switchSelection`. -/
def switchSelection (m : Model) : Model × List Cmd :=
  if m.providers = [] then (m, [])
  else
    let pid := m.currentProviderID
    let m := m.ensurePS pid
    let s := m.getPS pid
    if s.switching ∨ s.loadingAlternatives ∨ s.alternatives = [] then (m, [])
    else if m.altIdx ≥ s.alternatives.length then (m, [])
    else
      let target := (listGetI s.alternatives m.altIdx).alternative
      if s.selection.map (·.selectedAlternativeID) = some target.id then
        ({ m with status := "已在使用 " ++ target.displayName }, [])
      else
        let m := m.setPS pid { s with switching := true }
        ({ m with status := "切换到 " ++ target.displayName ++ " 中..." },
         [.switchProvider m.currentProviderID target.id])

/-- `toggleBalancePreference`. -/
def toggleBalancePreference (m : Model) : Model × List Cmd :=
  match m.profile with
  | none => (m, [])
  | some p =>
    if m.preferenceSwitching then (m, [])
    else
      let target := if m.balancePreferenceIdx = 0 then "subscription_first" else "payg_only"
      if target = p.balancePreference then (m, [])
      else
        ({ m with preferenceSwitching := true,
                  status := "切换余额偏好到 " ++ describePreference target ++ "..." },
         [.updatePreference target])

/-- `handleWindowResize`. -/
def handleWindowResize (m : Model) (w h : Int) : Model :=
  { m with width := w, height := h }

/-- `handleProfileLoaded`. -/
def handleProfileLoaded (m : Model) (p : Profile) : Model :=
  { m with profile := some p, loadingProfile := false,
           manualRefreshingProfile := false, status := "" }

/-- `handleProfileRefreshTick`. -/
def handleProfileRefreshTick (m : Model) : List Cmd :=
  (if m.currentTab = tabProfile then [Cmd.loadProfile] else []) ++ [.profileRefreshTick]

/-- `handleProvidersLoaded`. -/
def handleProvidersLoaded (m : Model) (r : ProvidersResponse) : Model × List Cmd :=
  let m := { m with providers := r.providers, providersLoaded := true,
                    loadingProviders := false }
  let m := if m.providerIdx ≥ m.providers.length then { m with providerIdx := 0 } else m
  let m := if goContains m.status "加载提供商列表中" then { m with status := "" } else m
  if 0 < m.providers.length then m.queueProviderDetailLoad m.currentProviderID
  else (m, [])

/-- `handleAlternativesLoaded`. -/
def handleAlternativesLoaded (m : Model) (providerID : Int)
    (alternatives : List AlternativeOption) : Model :=
  let m := m.ensurePS providerID
  let s := m.getPS providerID
  let s := { s with alternatives := alternatives, alternativesLoaded := true,
                    loadingAlternatives := false, lastError := none }
  let m := m.setPS providerID s
  let m := m.syncAltIdx providerID
  if s.alternativesLoaded ∧ s.selectionLoaded ∧ goContains m.status "加载提供商" then
    { m with status := "" }
  else m

/-- `handleSelectionLoaded`. -/
def handleSelectionLoaded (m : Model) (providerID : Int)
    (selection : ProviderSelection) : Model :=
  let m := m.ensurePS providerID
  let s := m.getPS providerID
  let s := { s with selection := some selection, selectionLoaded := true,
                    loadingSelection := false, lastError := none }
  let m := m.setPS providerID s
  let m := m.syncAltIdx providerID
  if s.alternativesLoaded ∧ s.selectionLoaded ∧ goContains m.status "加载提供商" then
    { m with status := "" }
  else m

/-- `handleSwitchCompleted`. -/
def handleSwitchCompleted (m : Model) (providerID : Int)
    (selection : ProviderSelection) : Model × List Cmd :=
  let m := m.ensurePS providerID
  let s := m.getPS providerID
  let s := { s with selection := some selection, selectionLoaded := true,
                    switching := false, lastError := none }
  let m := m.setPS providerID s
  let m := m.syncAltIdx providerID
  ({ m with status := "已切换到 " ++ selection.selectedAlternative.displayName },
   [.clearStatusAfter statusClearDelay])

/-- `handlePreferenceUpdated`. -/
def handlePreferenceUpdated (m : Model) (preference : String) : Model × List Cmd :=
  let m := match m.profile with
    | some p => { m with profile := some { p with balancePreference := preference } }
    | none => m
  let m := { m with preferenceSwitching := false }
  let m := m.syncBalancePreferenceIdx
  ({ m with status := "余额偏好已切换为 " ++ describePreference preference },
   [.clearStatusAfter statusClearDelay])

/-- `handlePreferenceFailed`. -/
def handlePreferenceFailed (m : Model) (e : String) : Model × List Cmd :=
  ({ m with preferenceSwitching := false, err := some e,
            status := "余额偏好切换失败: " ++ e },
   [.clearStatusAfter errorClearDelay])

/-- `handleProviderLoadFailed`. -/
def handleProviderLoadFailed (m : Model) (providerID : Int) (target : String)
    (e : String) : Model × List Cmd :=
  let m := m.ensurePS providerID
  let s := m.getPS providerID
  let s :=
    if target = "alternatives" then { s with loadingAlternatives := false }
    else if target = "selection" then { s with loadingSelection := false }
    else if target = "switch" then { s with switching := false }
    else s
  let s := { s with lastError := some e }
  let m := m.setPS providerID s
  ({ m with err := some e, status := "提供商 " ++ toString providerID ++ ": " ++ e },
   [.clearStatusAfter errorClearDelay])

/-- `handleError`. -/
def handleError (m : Model) (e : String) : Model × List Cmd :=
  let m := { m with err := some e, status := e }
  let m := if m.loadingProviders then { m with loadingProviders := false } else m
  let m := if m.loadingProfile then
    { m with loadingProfile := false, manualRefreshingProfile := false } else m
  (m, [.clearStatusAfter errorClearDelay])

/-- `handleClearStatus`. -/
def handleClearStatus (m : Model) : Model :=
  { m with status := "", err := none }

/-- `handleQuitAndHelp` (Esc and `?`). -/
def handleQuitAndHelp (m : Model) (k : String) : Model × List Cmd :=
  if k = "esc" then
    if m.showHelpDialog then ({ m with showHelpDialog := false }, [])
    else (m, [.quit])
  else if k = "?" ∨ k = "？" then
    ({ m with showHelpDialog := !m.showHelpDialog }, [])
  else (m, [])

/-- `handleTabChanged`. -/
def handleTabChanged (m : Model) : Model × List Cmd :=
  if m.currentTab = tabProviders then
    ({ m with focus := .focusProviders } : Model).ensureProvidersLoaded
  else if m.currentTab = tabBalancePreference then (m.syncBalancePreferenceIdx, [])
  else (m, [])

/-- `switchToNextTab`. -/
def switchToNextTab (m : Model) : Model × List Cmd :=
  ({ m with currentTab := (m.currentTab + 1) % 3 } : Model).handleTabChanged

/-- `switchToPrevTab`. -/
def switchToPrevTab (m : Model) : Model × List Cmd :=
  ({ m with currentTab := (m.currentTab - 1 + 3) % 3 } : Model).handleTabChanged

/-- `handleTabSwitch`. -/
def handleTabSwitch (m : Model) (k : String) : Model × List Cmd :=
  if k = "1" then ({ m with currentTab := tabProfile }, [])
  else if k = "2" then
    ({ m with currentTab := tabProviders, focus := .focusProviders } : Model).ensureProvidersLoaded
  else if k = "3" then
    (({ m with currentTab := tabBalancePreference } : Model).syncBalancePreferenceIdx, [])
  else if k = "tab" then m.switchToNextTab
  else if k = "shift+tab" then m.switchToPrevTab
  else (m, [])

/-- `handleFocusSwitch`. -/
def handleFocusSwitch (m : Model) (k : String) : Model :=
  if m.currentTab ≠ tabProviders then m
  else if k = "left" ∨ k = "h" then { m with focus := .focusProviders }
  else if k = "right" ∨ k = "l" then
    ({ m with focus := .focusAlternatives } : Model).syncAltIdx m.currentProviderID
  else m

/-- `handleRefresh`. -/
def handleRefresh (m : Model) (k : String) : Model × List Cmd :=
  if k ≠ "r" then (m, [])
  else if m.currentTab = tabProfile then m.refreshProfile
  else if m.currentTab = tabProviders then m.refreshCurrentProvider
  else (m, [])

/-- `handleEnter`. -/
def handleEnter (m : Model) (k : String) : Model × List Cmd :=
  if k ≠ "enter" then (m, [])
  else if m.currentTab = tabProviders then
    if m.focus = .focusAlternatives then m.switchSelection else (m, [])
  else if m.currentTab = tabBalancePreference then m.toggleBalancePreference
  else (m, [])

/-- `handleNavigation` (the profile-tab branch scrolls the viewport only,
which is not modelled, so it is the identity there). -/
def handleNavigation (m : Model) (k : String) : Model × List Cmd :=
  let delta : Int := if k = "up" ∨ k = "k" then -1 else if k = "down" ∨ k = "j" then 1 else 0
  if delta = 0 then (m, [])
  else if m.currentTab = tabProfile then (m, [])
  else if m.currentTab = tabBalancePreference then
    ({ m with balancePreferenceIdx := clampIndex (m.balancePreferenceIdx + delta) 2 }, [])
  else m.moveSelection delta

/-- `handleKey`: the sequential dispatch of the source, where each stage's
mutations persist and a non-nil command short-circuits the rest. -/
def handleKey (m : Model) (k : String) : Model × List Cmd :=
  if k = "ctrl+c" then (m, [.quit])
  else
    let r := m.handleQuitAndHelp k
    if r.2 ≠ [] then r
    else
      let r := r.1.handleTabSwitch k
      if r.2 ≠ [] then r
      else
        let m := r.1.handleFocusSwitch k
        let r := m.handleRefresh k
        if r.2 ≠ [] then r
        else
          let r := r.1.handleEnter k
          if r.2 ≠ [] then r
          else r.1.handleNavigation k

/-- `handleMouseWheel`. -/
def handleMouseWheel (m : Model) (delta : Int) : Model × List Cmd :=
  if m.currentTab = tabProfile then (m, [])
  else if m.currentTab = tabProviders ∨ m.currentTab = tabBalancePreference then
    m.moveSelection delta
  else (m, [])

/-- `handleTabClick`: the click boundaries are the rendered widths of the
first two tab labels (text width + 4 cells padding + 1 cell margin;
CJK glyphs occupy two cells): `1. 用户资料` → 16, `2. 提供商` → 14. -/
def tab1End : Int := 16
def tab2End : Int := 30

def handleTabClick (m : Model) (x : Int) : Model × List Cmd :=
  if x < tab1End then ({ m with currentTab := tabProfile }, [])
  else if x < tab2End then
    ({ m with currentTab := tabProviders, focus := .focusProviders } : Model).ensureProvidersLoaded
  else
    (({ m with currentTab := tabBalancePreference } : Model).syncBalancePreferenceIdx, [])

/-- `handleProvidersClick`. -/
def handleProvidersClick (m : Model) (x contentY : Int) : Model × List Cmd :=
  if m.providers = [] then (m, [])
  else
    let listItemY := contentY - panelInnerOffsetY
    if x < m.width / 2 then
      let m := { m with focus := FocusArea.focusProviders }
      if 0 ≤ listItemY ∧ listItemY < m.providers.length then
        let m := { m with providerIdx := listItemY }
        m.queueProviderDetailLoad m.currentProviderID
      else (m, [])
    else
      let m := { m with focus := FocusArea.focusAlternatives }
      let pid := m.currentProviderID
      let m := m.ensurePS pid
      let s := m.getPS pid
      if s.alternativesLoaded then
        if 0 ≤ listItemY ∧ listItemY < s.alternatives.length then
          let m := { m with altIdx := listItemY }
          m.switchSelection
        else (m.syncAltIdx m.currentProviderID, [])
      else (m, [])

/-- `handleBalancePreferenceClick`: the click row determines the target
option (rows 0–2 → option 0, rows 4–6 → option 1, otherwise no-op); a
click on a different option than the current one moves the cursor there
and toggles. -/
def handleBalancePreferenceClick (m : Model) (contentY : Int) : Model × List Cmd :=
  if 0 ≤ contentY ∧ contentY ≤ 2 then
    if m.balancePreferenceIdx ≠ 0 then
      ({ m with balancePreferenceIdx := 0 } : Model).toggleBalancePreference
    else (m, [])
  else if 4 ≤ contentY ∧ contentY ≤ 6 then
    if m.balancePreferenceIdx ≠ 1 then
      ({ m with balancePreferenceIdx := 1 } : Model).toggleBalancePreference
    else (m, [])
  else (m, [])

/-- `handleContentClick`. -/
def handleContentClick (m : Model) (x y : Int) : Model × List Cmd :=
  let contentY := y - contentStartY
  if m.currentTab = tabProviders then m.handleProvidersClick x contentY
  else if m.currentTab = tabBalancePreference then m.handleBalancePreferenceClick contentY
  else (m, [])

/-- The left-press part of `handleMouse` (wheel events arrive as their own
messages; non-left buttons and non-press actions are filtered out before
reaching the model). -/
def handleMouseClick (m : Model) (x y : Int) : Model × List Cmd :=
  if y = tabHeaderY then m.handleTabClick x
  else if y ≥ contentStartY then m.handleContentClick x y
  else (m, [])

end Model

/-- `Update`: dispatch on the message (spinner passthrough omitted). -/
def update (m : Model) : Msg → Model × List Cmd
  | .key k => m.handleKey k
  | .wheelUp => m.handleMouseWheel (-1)
  | .wheelDown => m.handleMouseWheel 1
  | .leftClick x y => m.handleMouseClick x y
  | .windowSize w h => (m.handleWindowResize w h, [])
  | .profileLoaded p => (m.handleProfileLoaded p, [])
  | .providersLoaded r => m.handleProvidersLoaded r
  | .alternativesLoaded pid alts => (m.handleAlternativesLoaded pid alts, [])
  | .selectionLoaded pid sel => (m.handleSelectionLoaded pid sel, [])
  | .switchCompleted pid sel => m.handleSwitchCompleted pid sel
  | .preferenceUpdated pref => m.handlePreferenceUpdated pref
  | .preferenceFailed e => m.handlePreferenceFailed e
  | .providerLoadFailed pid target e => m.handleProviderLoadFailed pid target e
  | .errMsg e => m.handleError e
  | .clearStatus => (m.handleClearStatus, [])
  | .profileRefreshTick => (m, m.handleProfileRefreshTick)

/-- `NewModel`'s initial state. -/
def initModel : Model :=
  { focus := .focusProviders, ready := true, loadingProfile := true }

/-! ## Honest event semantics

Completion messages are only ever produced by commands the model itself
scheduled.  A system state pairs the model with the multiset of in-flight
commands; delivering a completion message consumes a matching pending
command, and delivering an input event is always possible. -/

structure Sys where
  model : Model
  pending : List Cmd

/-- Which pending command a completion message consumes (`none` for input
events, which need no pending request). -/
def msgConsumes : Msg → Option (Cmd → Bool)
  | .key _ | .wheelUp | .wheelDown | .leftClick _ _ | .windowSize _ _ => none
  | .profileLoaded _ => some fun c => c = .loadProfile
  | .providersLoaded _ => some fun c => c = .loadProviders
  | .alternativesLoaded pid _ => some fun c => c = .loadAlternatives pid
  | .selectionLoaded pid _ => some fun c => c = .loadSelection pid
  | .switchCompleted pid _ =>
    some fun c => match c with | .switchProvider p _ => p = pid | _ => false
  | .preferenceUpdated _ =>
    some fun c => match c with | .updatePreference _ => true | _ => false
  | .preferenceFailed _ =>
    some fun c => match c with | .updatePreference _ => true | _ => false
  | .providerLoadFailed pid target _ =>
    some fun c =>
      if target = "alternatives" then c = .loadAlternatives pid
      else if target = "selection" then c = .loadSelection pid
      else if target = "switch" then
        match c with | .switchProvider p _ => p = pid | _ => false
      else false
  | .errMsg _ => some fun c => c = .loadProfile ∨ c = .loadProviders
  | .clearStatus =>
    some fun c => match c with | .clearStatusAfter _ => true | _ => false
  | .profileRefreshTick => some fun c => c = .profileRefreshTick

/-- Remove the first pending command satisfying `p`; `none` if absent. -/
def consume1 (p : Cmd → Bool) : List Cmd → Option (List Cmd)
  | [] => none
  | c :: rest => if p c then some rest else (consume1 p rest).map (c :: ·)

/-- One event step of the system. -/
def stepSys (s : Sys) (e : Msg) : Option Sys :=
  match msgConsumes e with
  | none =>
    let r := update s.model e
    some ⟨r.1, s.pending ++ r.2⟩
  | some p =>
    (consume1 p s.pending).map fun rest =>
      let r := update s.model e
      ⟨r.1, rest ++ r.2⟩

/-- Run a list of events; `none` if some completion event had no matching
in-flight request. -/
def runSys (s : Sys) : List Msg → Option Sys
  | [] => some s
  | e :: es => (stepSys s e).bind fun s1 => runSys s1 es

/-- `Init`: the first scheduled commands (spinner tick omitted). -/
def initSys : Sys := ⟨initModel, [.loadProfile, .profileRefreshTick]⟩

/-- Run events against the model alone, collecting every issued command. -/
def runModel (m : Model) : List Msg → Model × List Cmd
  | [] => (m, [])
  | e :: es =>
    let r := update m e
    let rest := runModel r.1 es
    (rest.1, r.2 ++ rest.2)

/-- The network-mutation commands (PUT requests). -/
def isMutation : Cmd → Bool
  | .switchProvider _ _ => true
  | .updatePreference _ => true
  | _ => false

/-- Navigation-only input events: tab switches, cursor moves, wheel scrolls. -/
def navKeys : List String :=
  ["tab", "shift+tab", "1", "2", "3", "up", "down", "k", "j", "left", "right", "h", "l"]

def NavMsg : Msg → Prop
  | .key k => k ∈ navKeys
  | .wheelUp => True
  | .wheelDown => True
  | _ => False

/-! ## Rendering abstractions (for the profile tab) -/

/-- What `renderProfileTab` shows in the content area. -/
inductive ProfileView
  | loadingPlaceholder
  | empty
  | content (p : Profile)
deriving DecidableEq, Repr

/-- The branch structure of `renderProfileTab`: a loading placeholder only
when no profile is cached and no manual refresh is underway; otherwise the
cached profile's content. -/
def profileTabContent (m : Model) : ProfileView :=
  if m.profile = none ∧ ¬m.manualRefreshingProfile then .loadingPlaceholder
  else
    match m.profile with
    | none => .empty
    | some p => .content p

/-- What the status line of `View` shows. -/
inductive StatusLine
  | refreshing
  | message (s : String)
  | empty
deriving DecidableEq, Repr

/-- The branch structure of the status area in `View`. -/
def statusLine (m : Model) : StatusLine :=
  if m.manualRefreshingProfile ∧ m.currentTab = tabProfile then .refreshing
  else if m.status ≠ "" then .message m.status
  else .empty

/-- The four provider-scoped completion messages and the provider id they
carry. -/
def scopedProviderID : Msg → Option Int
  | .alternativesLoaded pid _ => some pid
  | .selectionLoaded pid _ => some pid
  | .switchCompleted pid _ => some pid
  | .providerLoadFailed pid _ _ => some pid
  | _ => none


/-! ## Concrete fixtures used by witnesses -/

def sampleAlt101 : AlternativeOption :=
  { isSelf := true, alternative := { id := 101, displayName := "Origin" } }

def sampleAlt102 : AlternativeOption :=
  { alternative := { id := 102, displayName := "Faster" } }

def sampleSel101 : ProviderSelection :=
  { providerID := 3, selectedAlternativeID := 101,
    selectedAlternative := sampleAlt101.alternative }

def sampleSel102 : ProviderSelection :=
  { providerID := 3, selectedAlternativeID := 102,
    selectedAlternative := sampleAlt102.alternative }

def sampleBucket3 : ProviderBucket := { provider := { id := 3, displayName := "G3" } }

def sampleBucket5 : ProviderBucket := { provider := { id := 5, displayName := "G5" } }

def sampleDetail : ProviderState :=
  { alternatives := [sampleAlt101, sampleAlt102], selection := some sampleSel101,
    alternativesLoaded := true, selectionLoaded := true }

/-- A model on the providers tab, alternatives list focused, group 3 fully
loaded with selection 101. -/
def sampleModel : Model :=
  { initModel with
    providers := [sampleBucket3], currentTab := tabProviders,
    focus := .focusAlternatives, providersLoaded := true, loadingProfile := false,
    providerData := updMap (fun _ => none) 3 sampleDetail }

def sampleProfile : Profile :=
  { username := "u", email := "u@example.com",
    balancePreference := "subscription_first" }

/-- A model on the profile tab with a cached profile. -/
def profileModel : Model :=
  { initModel with profile := some sampleProfile, loadingProfile := false }


def sampleResp1 : ProvidersResponse := { providers := [sampleBucket3] }

def sampleResp2 : ProvidersResponse := { providers := [sampleBucket3, sampleBucket5] }

/-- The final system state of a trace (the initial state if the trace is
not deliverable). -/
def sysAfter (msgs : List Msg) : Sys := (runSys initSys msgs).getD initSys

/-- Trace: load providers [3], load group 3's details, focus the
alternatives list, move to alternative 102, confirm (switch in flight),
refresh the provider (re-fetch in flight), then the switch completes. -/
def c1Trace : List Msg :=
  [.key "2", .providersLoaded sampleResp1,
   .alternativesLoaded 3 [sampleAlt101, sampleAlt102],
   .selectionLoaded 3 sampleSel101, .key "right", .key "down", .key "enter",
   .key "r", .switchCompleted 3 sampleSel102]

/-- Trace: start loading group 3's details, then manually refresh the
provider while both fetches are still in flight. -/
def c2Trace : List Msg :=
  [.key "2", .providersLoaded sampleResp1, .key "r"]

/-- A refresh-free prefix of the above: the provider list and the two
detail fetches are requested but the manual refresh never happens. -/
def c2SafeTrace : List Msg := [.key "2", .providersLoaded sampleResp1]

/-- Group 3 with only the alternatives loaded. -/
def altOnlyDetail : ProviderState := { sampleDetail with selectionLoaded := false }

def altOnlyModel : Model :=
  { sampleModel with providerData := updMap (fun _ => none) 3 altOnlyDetail }

/-- Group 3 with only the selection loaded. -/
def selOnlyDetail : ProviderState := { sampleDetail with alternativesLoaded := false }

def selOnlyModel : Model :=
  { sampleModel with providerData := updMap (fun _ => none) 3 selOnlyDetail }

/-- Trace: load providers [3, 5] and group 3's details, move the
alternative cursor to 1, then click the provider list on group 5, whose
details are not loaded. -/
def c4Trace : List Msg :=
  [.key "2", .providersLoaded sampleResp2,
   .alternativesLoaded 3 [sampleAlt101, sampleAlt102],
   .selectionLoaded 3 sampleSel101, .key "right", .key "down",
   .windowSize 100 40, .leftClick 5 9]

/-- The cursor bounds: provider cursor within the provider list (and `0`
when it is empty), preference cursor one of the two options, alternative
cursor non-negative. -/
def CursorInv (m : Model) : Prop :=
  0 ≤ m.providerIdx ∧
  (m.providers ≠ [] → m.providerIdx < (m.providers.length : Int)) ∧
  (m.providers = [] → m.providerIdx = 0) ∧
  (m.balancePreferenceIdx = 0 ∨ m.balancePreferenceIdx = 1) ∧
  0 ≤ m.altIdx


/-! ## Pending-request bookkeeping -/

/-- Is `c` a switch request for provider `id`? -/
def swCntP (id : Int) : Cmd → Bool
  | .switchProvider p _ => p = id
  | _ => false

/-- Is `c` the alternatives fetch for provider `id`? -/
def altCntP (id : Int) : Cmd → Bool := fun c => c = .loadAlternatives id

/-- Is `c` the selection fetch for provider `id`? -/
def selCntP (id : Int) : Cmd → Bool := fun c => c = .loadSelection id

/-- Number of in-flight switch requests for provider `id`. -/
def pendSwitch (id : Int) (l : List Cmd) : Nat := l.countP (swCntP id)

/-- Number of in-flight alternative fetches for provider `id`. -/
def pendAlt (id : Int) (l : List Cmd) : Nat := l.countP (altCntP id)

/-- Number of in-flight selection fetches for provider `id`. -/
def pendSel (id : Int) (l : List Cmd) : Nat := l.countP (selCntP id)

/-- One model step issues at most one switch per provider, and only while
its switching flag goes from clear to set; otherwise the flag is kept. -/
def SwitchStep (m m' : Model) (cs : List Cmd) : Prop :=
  ∀ id, (List.countP (swCntP id) cs = 0 ∧
          (m'.getPS id).switching = (m.getPS id).switching) ∨
        (List.countP (swCntP id) cs = 1 ∧ (m.getPS id).switching = false ∧
          (m'.getPS id).switching = true)

/-- One model step issues at most one alternatives fetch and one selection
fetch per provider, each gated by the corresponding loading flag. -/
def FetchStep (m m' : Model) (cs : List Cmd) : Prop :=
  ∀ id,
    ((List.countP (altCntP id) cs = 0 ∧
        (m'.getPS id).loadingAlternatives = (m.getPS id).loadingAlternatives) ∨
     (List.countP (altCntP id) cs = 1 ∧
        (m.getPS id).loadingAlternatives = false ∧
        (m'.getPS id).loadingAlternatives = true)) ∧
    ((List.countP (selCntP id) cs = 0 ∧
        (m'.getPS id).loadingSelection = (m.getPS id).loadingSelection) ∨
     (List.countP (selCntP id) cs = 1 ∧
        (m.getPS id).loadingSelection = false ∧
        (m'.getPS id).loadingSelection = true))

/-- The loading and loaded flags for the alternatives sub-resource are
never simultaneously set. -/
def AltInvG (m : Model) : Prop :=
  ∀ id, (m.getPS id).loadingAlternatives = true →
    (m.getPS id).alternativesLoaded = false

/-- At most one switch in flight per provider group, gated by the
switching flag. -/
def SwitchInvS (sys : Sys) : Prop :=
  ∀ id, pendSwitch id sys.pending ≤ 1 ∧
    ((sys.model.getPS id).switching = false → pendSwitch id sys.pending = 0)

/-- The in-flight fetches per (provider, sub-resource) mirror the loading
flags exactly (so there is at most one of each). -/
def FetchInvS (sys : Sys) : Prop :=
  ∀ id, pendAlt id sys.pending =
          (if (sys.model.getPS id).loadingAlternatives then 1 else 0) ∧
        pendSel id sys.pending =
          (if (sys.model.getPS id).loadingSelection then 1 else 0)

/-- The provider id a pending command is scoped to, if any. -/
def cmdProviderID : Cmd → Option Int
  | .loadAlternatives pid => some pid
  | .loadSelection pid => some pid
  | .switchProvider pid _ => some pid
  | _ => none

/-- Ids of a provider list. -/
def providerIds (l : List ProviderBucket) : List Int := l.map (fun b => b.provider.id)

/-- All provider ids ever delivered by a provider-list fetch in a trace. -/
def everIds : List Msg → List Int
  | [] => []
  | .providersLoaded r :: es => providerIds r.providers ++ everIds es
  | _ :: es => everIds es

/-- Domain invariant: cache keys and the ids of pending provider-scoped
requests are non-zero ids that appeared in a fetched provider list, and
the current provider list's ids are all known. -/
def DomInvS (sys : Sys) (E : List Int) : Prop :=
  (∀ k, sys.model.providerData k ≠ none → k ≠ 0 ∧ k ∈ E) ∧
  (∀ c ∈ sys.pending, ∀ id, cmdProviderID c = some id → id ≠ 0 ∧ id ∈ E) ∧
  (∀ id ∈ providerIds sys.model.providers, id ∈ E)

/-- One model step only inserts cache entries for the current provider
list's non-zero ids, only issues provider-scoped requests for such ids,
and keeps the provider list. -/
def DomStep (m m2 : Model) (cs : List Cmd) : Prop :=
  (∀ k, m2.providerData k ≠ none →
     m.providerData k ≠ none ∨ (k ≠ 0 ∧ k ∈ providerIds m.providers)) ∧
  (∀ c ∈ cs, ∀ id, cmdProviderID c = some id →
     id ≠ 0 ∧ id ∈ providerIds m.providers) ∧
  m2.providers = m.providers

/-! ## Basic lemmas about the cache map and index clamping -/

theorem getMap_zero (pd : Int → Option ProviderState) : getMap pd 0 = {} := rfl

theorem setMap_zero (pd : Int → Option ProviderState) (s : ProviderState) :
    setMap pd 0 s = pd := by
  unfold setMap; simp

theorem ensureMap_zero (pd : Int → Option ProviderState) : ensureMap pd 0 = pd := by
  unfold ensureMap; simp

theorem ensureMap_ne (pd : Int → Option ProviderState) (pid g : Int) (h : g ≠ pid) :
    ensureMap pd pid g = pd g := by
  unfold ensureMap updMap
  split_ifs <;> simp [h]

theorem setMap_ne (pd : Int → Option ProviderState) (pid g : Int) (s : ProviderState)
    (h : g ≠ pid) : setMap pd pid s g = pd g := by
  unfold setMap
  split
  · rfl
  · simp [updMap, h]

@[simp] theorem getMap_ensureMap (pd : Int → Option ProviderState) (pid k : Int) :
    getMap (ensureMap pd pid) k = getMap pd k := by
  unfold getMap ensureMap updMap
  split_ifs with hk h0 hs
  · rfl
  · rfl
  · rfl
  · rw [Option.not_isSome_iff_eq_none] at hs
    by_cases hkp : k = pid
    · subst hkp; simp [hs]
    · simp [hkp]

theorem getMap_setMap_same (pd : Int → Option ProviderState) (pid : Int)
    (s : ProviderState) (h : pid ≠ 0) : getMap (setMap pd pid s) pid = s := by
  unfold getMap setMap updMap
  simp [h]

theorem getMap_setMap_ne (pd : Int → Option ProviderState) (pid k : Int)
    (s : ProviderState) (h : k ≠ pid) : getMap (setMap pd pid s) k = getMap pd k := by
  unfold getMap setMap updMap
  split
  · rfl
  · by_cases h0 : pid = 0
    · simp [h0]
    · simp [h0, h]

theorem setMap_apply_ne_zero (pd : Int → Option ProviderState) (pid : Int)
    (s : ProviderState) (h : pid ≠ 0) : setMap pd pid s pid = some s := by
  unfold setMap updMap
  simp [h]

theorem clampIndex_nonneg (i len : Int) (h : 0 < len) : 0 ≤ clampIndex i len := by
  unfold clampIndex
  split_ifs <;> omega

theorem clampIndex_lt (i len : Int) (h : 0 < len) : clampIndex i len < len := by
  unfold clampIndex
  split_ifs <;> omega

@[simp] theorem getPS_ensurePS (m : Model) (pid k : Int) :
    (m.ensurePS pid).getPS k = m.getPS k := by
  unfold Model.getPS Model.ensurePS
  simp

@[simp] theorem ensurePS_providers (m : Model) (pid : Int) :
    (m.ensurePS pid).providers = m.providers := rfl
@[simp] theorem ensurePS_providerIdx (m : Model) (pid : Int) :
    (m.ensurePS pid).providerIdx = m.providerIdx := rfl
@[simp] theorem ensurePS_altIdx (m : Model) (pid : Int) :
    (m.ensurePS pid).altIdx = m.altIdx := rfl
@[simp] theorem ensurePS_balancePreferenceIdx (m : Model) (pid : Int) :
    (m.ensurePS pid).balancePreferenceIdx = m.balancePreferenceIdx := rfl
@[simp] theorem ensurePS_currentTab (m : Model) (pid : Int) :
    (m.ensurePS pid).currentTab = m.currentTab := rfl
@[simp] theorem ensurePS_focus (m : Model) (pid : Int) :
    (m.ensurePS pid).focus = m.focus := rfl
@[simp] theorem ensurePS_status (m : Model) (pid : Int) :
    (m.ensurePS pid).status = m.status := rfl
@[simp] theorem ensurePS_profile (m : Model) (pid : Int) :
    (m.ensurePS pid).profile = m.profile := rfl
@[simp] theorem ensurePS_preferenceSwitching (m : Model) (pid : Int) :
    (m.ensurePS pid).preferenceSwitching = m.preferenceSwitching := rfl
@[simp] theorem ensurePS_providersLoaded (m : Model) (pid : Int) :
    (m.ensurePS pid).providersLoaded = m.providersLoaded := rfl
@[simp] theorem ensurePS_loadingProviders (m : Model) (pid : Int) :
    (m.ensurePS pid).loadingProviders = m.loadingProviders := rfl
@[simp] theorem ensurePS_loadingProfile (m : Model) (pid : Int) :
    (m.ensurePS pid).loadingProfile = m.loadingProfile := rfl
@[simp] theorem ensurePS_manualRefreshingProfile (m : Model) (pid : Int) :
    (m.ensurePS pid).manualRefreshingProfile = m.manualRefreshingProfile := rfl
@[simp] theorem ensurePS_width (m : Model) (pid : Int) :
    (m.ensurePS pid).width = m.width := rfl
@[simp] theorem ensurePS_currentProviderID (m : Model) (pid : Int) :
    (m.ensurePS pid).currentProviderID = m.currentProviderID := rfl

@[simp] theorem setPS_providers (m : Model) (pid : Int) (s : ProviderState) :
    (m.setPS pid s).providers = m.providers := rfl
@[simp] theorem setPS_providerIdx (m : Model) (pid : Int) (s : ProviderState) :
    (m.setPS pid s).providerIdx = m.providerIdx := rfl
@[simp] theorem setPS_altIdx (m : Model) (pid : Int) (s : ProviderState) :
    (m.setPS pid s).altIdx = m.altIdx := rfl
@[simp] theorem setPS_balancePreferenceIdx (m : Model) (pid : Int) (s : ProviderState) :
    (m.setPS pid s).balancePreferenceIdx = m.balancePreferenceIdx := rfl
@[simp] theorem setPS_currentTab (m : Model) (pid : Int) (s : ProviderState) :
    (m.setPS pid s).currentTab = m.currentTab := rfl
@[simp] theorem setPS_focus (m : Model) (pid : Int) (s : ProviderState) :
    (m.setPS pid s).focus = m.focus := rfl
@[simp] theorem setPS_status (m : Model) (pid : Int) (s : ProviderState) :
    (m.setPS pid s).status = m.status := rfl
@[simp] theorem setPS_profile (m : Model) (pid : Int) (s : ProviderState) :
    (m.setPS pid s).profile = m.profile := rfl
@[simp] theorem setPS_preferenceSwitching (m : Model) (pid : Int) (s : ProviderState) :
    (m.setPS pid s).preferenceSwitching = m.preferenceSwitching := rfl
@[simp] theorem setPS_providersLoaded (m : Model) (pid : Int) (s : ProviderState) :
    (m.setPS pid s).providersLoaded = m.providersLoaded := rfl
@[simp] theorem setPS_loadingProviders (m : Model) (pid : Int) (s : ProviderState) :
    (m.setPS pid s).loadingProviders = m.loadingProviders := rfl
@[simp] theorem setPS_loadingProfile (m : Model) (pid : Int) (s : ProviderState) :
    (m.setPS pid s).loadingProfile = m.loadingProfile := rfl
@[simp] theorem setPS_manualRefreshingProfile (m : Model) (pid : Int) (s : ProviderState) :
    (m.setPS pid s).manualRefreshingProfile = m.manualRefreshingProfile := rfl
@[simp] theorem setPS_width (m : Model) (pid : Int) (s : ProviderState) :
    (m.setPS pid s).width = m.width := rfl
@[simp] theorem setPS_currentProviderID (m : Model) (pid : Int) (s : ProviderState) :
    (m.setPS pid s).currentProviderID = m.currentProviderID := rfl

@[simp] theorem ensurePS_providerData (m : Model) (pid : Int) :
    (m.ensurePS pid).providerData = ensureMap m.providerData pid := rfl
@[simp] theorem setPS_providerData (m : Model) (pid : Int) (s : ProviderState) :
    (m.setPS pid s).providerData = setMap m.providerData pid s := rfl

@[simp] theorem getPS_mk (profile providers providerIdx altIdx balancePreferenceIdx
    focus currentTab ready status err width height providerData preferenceSwitching
    providersLoaded loadingProviders loadingProfile manualRefreshingProfile
    showHelpDialog) (id : Int) :
    (Model.mk profile providers providerIdx altIdx balancePreferenceIdx focus
      currentTab ready status err width height providerData preferenceSwitching
      providersLoaded loadingProviders loadingProfile manualRefreshingProfile
      showHelpDialog).getPS id = getMap providerData id := rfl


theorem getPS_zero (m : Model) : m.getPS 0 = {} := rfl

theorem getPS_setPS_same (m : Model) (pid : Int) (s : ProviderState) (h : pid ≠ 0) :
    (m.setPS pid s).getPS pid = s := by
  unfold Model.getPS Model.setPS
  exact getMap_setMap_same _ _ _ h

theorem getPS_setPS_ne (m : Model) (pid k : Int) (s : ProviderState) (h : k ≠ pid) :
    (m.setPS pid s).getPS k = m.getPS k := by
  unfold Model.getPS Model.setPS
  exact getMap_setMap_ne _ _ _ _ h

/-! ## Key dispatch lemmas -/

/-- `currentProviderID` only depends on the provider list and cursor. -/
theorem currentProviderID_congr (m m' : Model)
    (hp : m'.providers = m.providers) (hi : m'.providerIdx = m.providerIdx) :
    m'.currentProviderID = m.currentProviderID := by
  unfold Model.currentProviderID
  rw [hp, hi]

/-- Pressing Enter on the providers tab with focus on the alternatives
list runs exactly `switchSelection`. -/
theorem handleKey_enter (m : Model) (htab : m.currentTab = tabProviders)
    (hfoc : m.focus = .focusAlternatives) :
    m.handleKey "enter" = m.switchSelection := by
  unfold Model.handleKey Model.handleQuitAndHelp Model.handleTabSwitch
    Model.handleFocusSwitch Model.handleRefresh Model.handleEnter Model.handleNavigation
  simp [htab, hfoc, tabProviders, tabProfile, tabBalancePreference]
  rcases hr : m.switchSelection with ⟨m1, cs⟩
  cases cs <;> simp

/-- Pressing `r` on the profile tab runs exactly `refreshProfile`. -/
theorem handleKey_r_profile (m : Model) (htab : m.currentTab = tabProfile) :
    m.handleKey "r" = m.refreshProfile := by
  unfold Model.handleKey Model.handleQuitAndHelp Model.handleTabSwitch
    Model.handleFocusSwitch Model.handleRefresh Model.refreshProfile
  simp [htab, tabProviders, tabProfile, tabBalancePreference]

/-- Pressing `r` on the providers tab runs exactly `refreshCurrentProvider`. -/
theorem handleKey_r_providers (m : Model) (htab : m.currentTab = tabProviders) :
    m.handleKey "r" = m.refreshCurrentProvider := by
  unfold Model.handleKey Model.handleQuitAndHelp Model.handleTabSwitch
    Model.handleFocusSwitch Model.handleRefresh Model.handleEnter Model.handleNavigation
  simp [htab, tabProviders, tabProfile, tabBalancePreference]
  rcases hr : m.refreshCurrentProvider with ⟨m1, cs⟩
  cases cs <;> simp

/-! ## switchSelection spec lemmas -/

/-- If a switch is already in flight for the focused group, Confirm
issues nothing. -/
theorem switchSelection_nil_of_switching (m : Model)
    (h : (m.getPS m.currentProviderID).switching = true) :
    (m.switchSelection).2 = [] := by
  unfold Model.switchSelection
  split
  · rfl
  · simp [h]

/-- `switchSelection` never changes the tab, the focus, the provider list
or the provider cursor. -/
theorem switchSelection_preserves (m : Model) :
    (m.switchSelection).1.currentTab = m.currentTab ∧
    (m.switchSelection).1.focus = m.focus ∧
    (m.switchSelection).1.providers = m.providers ∧
    (m.switchSelection).1.providerIdx = m.providerIdx := by
  simp only [Model.switchSelection, Model.ensurePS, Model.setPS]
  split_ifs <;> exact ⟨rfl, rfl, rfl, rfl⟩

/-- If Confirm issued any command, the switching flag of the focused
group's cache entry is now set. -/
theorem switchSelection_sets_switching (m : Model)
    (h : (m.switchSelection).2 ≠ []) :
    ((m.switchSelection).1.getPS m.currentProviderID).switching = true := by
  by_cases hprov : m.providers = []
  · simp [Model.switchSelection, hprov] at h
  by_cases hsw : (m.getPS m.currentProviderID).switching = true
  · exact absurd (switchSelection_nil_of_switching m hsw) h
  by_cases hla : (m.getPS m.currentProviderID).loadingAlternatives = true
  · simp [Model.switchSelection, hprov, hla] at h
  by_cases hne : (m.getPS m.currentProviderID).alternatives = []
  · simp [Model.switchSelection, hprov, hne] at h
  have hpid : m.currentProviderID ≠ 0 := by
    intro h0
    rw [h0, getPS_zero] at hne
    exact hne rfl
  by_cases hidx : m.altIdx ≥ ((m.getPS m.currentProviderID).alternatives.length : Int)
  · simp [Model.switchSelection, hprov, hsw, hla, hne, hidx] at h
  have hgs : ∀ pd s, getMap (setMap pd m.currentProviderID s) m.currentProviderID = s :=
    fun pd s => getMap_setMap_same pd _ s hpid
  rcases hsel : (m.getPS m.currentProviderID).selection with _ | sel
  · simp [Model.switchSelection, hprov, hsw, hla, hne, hidx, hsel, hgs]
  by_cases heq : sel.selectedAlternativeID =
      (listGetI (m.getPS m.currentProviderID).alternatives m.altIdx).alternative.id
  · simp [Model.switchSelection, hprov, hsw, hla, hne, hidx, hsel, heq] at h
  · simp [Model.switchSelection, hprov, hsw, hla, hne, hidx, hsel, heq, hgs]

/-! ## Frame lemmas for provider-scoped handlers -/

/-- `syncAltIdx` for a non-focused provider id is a no-op. -/
theorem syncAltIdx_of_ne (m : Model) (pid : Int) (h : pid ≠ m.currentProviderID) :
    m.syncAltIdx pid = m := by
  unfold Model.syncAltIdx
  rw [if_pos (Or.inr h)]

/-- `syncAltIdx` never touches cache entries of other ids. -/
theorem syncAltIdx_providerData_ne (m : Model) (pid g : Int) (h : g ≠ pid) :
    (m.syncAltIdx pid).providerData g = m.providerData g := by
  have he : ∀ pd, ensureMap pd pid g = pd g := fun pd => ensureMap_ne pd pid g h
  simp only [Model.syncAltIdx, Model.syncAltIdxTail]
  split_ifs
  · rfl
  all_goals
    rcases ((m.ensurePS pid).getPS pid).selection with _ | sel <;>
      simp only [] <;> (try split_ifs) <;> simp [he]

/-- `syncAltIdx` does not change the provider list or cursor. -/
theorem syncAltIdx_nav (m : Model) (pid : Int) :
    (m.syncAltIdx pid).providers = m.providers ∧
    (m.syncAltIdx pid).providerIdx = m.providerIdx ∧
    (m.syncAltIdx pid).currentProviderID = m.currentProviderID := by
  simp only [Model.syncAltIdx, Model.syncAltIdxTail]
  split_ifs
  · exact ⟨rfl, rfl, rfl⟩
  all_goals
    rcases ((m.ensurePS pid).getPS pid).selection with _ | sel <;>
      simp only [] <;> (try split_ifs) <;> exact ⟨rfl, rfl, rfl⟩

theorem setPS_syncAltIdx_altIdx (m : Model) (pid : Int) (s : ProviderState)
    (hne : pid ≠ m.currentProviderID) :
    (((m.ensurePS pid).setPS pid s).syncAltIdx pid).altIdx = m.altIdx := by
  rw [syncAltIdx_of_ne _ _ (by simpa using hne)]
  simp

theorem handleAlternativesLoaded_frame (m : Model) (pid g : Int)
    (alts : List AlternativeOption) (hg : g ≠ pid) :
    (m.handleAlternativesLoaded pid alts).providerData g = m.providerData g := by
  have he : ∀ pd, ensureMap pd pid g = pd g := fun pd => ensureMap_ne pd pid g hg
  have hs : ∀ pd s, setMap pd pid s g = pd g := fun pd s => setMap_ne pd pid g s hg
  have hy : ∀ mm : Model, (mm.syncAltIdx pid).providerData g = mm.providerData g :=
    fun mm => syncAltIdx_providerData_ne mm pid g hg
  simp only [Model.handleAlternativesLoaded]
  split_ifs <;> simp [hy, hs, he]

theorem handleAlternativesLoaded_altIdx (m : Model) (pid : Int)
    (alts : List AlternativeOption) (hne : pid ≠ m.currentProviderID) :
    (m.handleAlternativesLoaded pid alts).altIdx = m.altIdx := by
  have hAlt : ∀ s : ProviderState,
      (((m.ensurePS pid).setPS pid s).syncAltIdx pid).altIdx = m.altIdx :=
    fun s => setPS_syncAltIdx_altIdx m pid s hne
  simp only [Model.handleAlternativesLoaded]
  split_ifs <;> simp [hAlt]

theorem handleSelectionLoaded_frame (m : Model) (pid g : Int)
    (sel : ProviderSelection) (hg : g ≠ pid) :
    (m.handleSelectionLoaded pid sel).providerData g = m.providerData g := by
  have he : ∀ pd, ensureMap pd pid g = pd g := fun pd => ensureMap_ne pd pid g hg
  have hs : ∀ pd s, setMap pd pid s g = pd g := fun pd s => setMap_ne pd pid g s hg
  have hy : ∀ mm : Model, (mm.syncAltIdx pid).providerData g = mm.providerData g :=
    fun mm => syncAltIdx_providerData_ne mm pid g hg
  simp only [Model.handleSelectionLoaded]
  split_ifs <;> simp [hy, hs, he]

theorem handleSelectionLoaded_altIdx (m : Model) (pid : Int)
    (sel : ProviderSelection) (hne : pid ≠ m.currentProviderID) :
    (m.handleSelectionLoaded pid sel).altIdx = m.altIdx := by
  have hAlt : ∀ s : ProviderState,
      (((m.ensurePS pid).setPS pid s).syncAltIdx pid).altIdx = m.altIdx :=
    fun s => setPS_syncAltIdx_altIdx m pid s hne
  simp only [Model.handleSelectionLoaded]
  split_ifs <;> simp [hAlt]

theorem handleSwitchCompleted_frame (m : Model) (pid g : Int)
    (sel : ProviderSelection) (hg : g ≠ pid) :
    (m.handleSwitchCompleted pid sel).1.providerData g = m.providerData g := by
  have he : ∀ pd, ensureMap pd pid g = pd g := fun pd => ensureMap_ne pd pid g hg
  have hs : ∀ pd s, setMap pd pid s g = pd g := fun pd s => setMap_ne pd pid g s hg
  have hy : ∀ mm : Model, (mm.syncAltIdx pid).providerData g = mm.providerData g :=
    fun mm => syncAltIdx_providerData_ne mm pid g hg
  simp only [Model.handleSwitchCompleted]
  simp [hy, hs, he]

theorem handleSwitchCompleted_altIdx (m : Model) (pid : Int)
    (sel : ProviderSelection) (hne : pid ≠ m.currentProviderID) :
    (m.handleSwitchCompleted pid sel).1.altIdx = m.altIdx := by
  have hAlt : ∀ s : ProviderState,
      (((m.ensurePS pid).setPS pid s).syncAltIdx pid).altIdx = m.altIdx :=
    fun s => setPS_syncAltIdx_altIdx m pid s hne
  simp only [Model.handleSwitchCompleted]
  simp [hAlt]

theorem handleProviderLoadFailed_frame (m : Model) (pid g : Int)
    (target e : String) (hg : g ≠ pid) :
    (m.handleProviderLoadFailed pid target e).1.providerData g = m.providerData g := by
  have he : ∀ pd, ensureMap pd pid g = pd g := fun pd => ensureMap_ne pd pid g hg
  have hs : ∀ pd s, setMap pd pid s g = pd g := fun pd s => setMap_ne pd pid g s hg
  simp only [Model.handleProviderLoadFailed]
  split_ifs <;> simp [hs, he]

theorem handleProviderLoadFailed_altIdx (m : Model) (pid : Int) (target e : String) :
    (m.handleProviderLoadFailed pid target e).1.altIdx = m.altIdx := by
  simp only [Model.handleProviderLoadFailed]
  split_ifs <;> rfl

/-! ## C6: async results only touch their own provider's entry -/

/-- C6: every asynchronous completion message scoped to a provider id `G`
(alternatives loaded, selection loaded, switch completed, or a failure)
leaves the cache entry of every other provider unchanged, and does not
move the alternative cursor when `G` is not the focused provider group. -/
theorem c6_scoped_results_frame (m : Model) (e : Msg) (G : Int)
    (h : scopedProviderID e = some G) :
    (∀ g, g ≠ G → (update m e).1.providerData g = m.providerData g) ∧
    (G ≠ m.currentProviderID → (update m e).1.altIdx = m.altIdx) := by
  cases e
  case alternativesLoaded pid alts =>
    obtain rfl : pid = G := by simpa [scopedProviderID] using h
    exact ⟨fun g hg => handleAlternativesLoaded_frame m pid g alts hg,
           fun hne => handleAlternativesLoaded_altIdx m pid alts hne⟩
  case selectionLoaded pid sel =>
    obtain rfl : pid = G := by simpa [scopedProviderID] using h
    exact ⟨fun g hg => handleSelectionLoaded_frame m pid g sel hg,
           fun hne => handleSelectionLoaded_altIdx m pid sel hne⟩
  case switchCompleted pid sel =>
    obtain rfl : pid = G := by simpa [scopedProviderID] using h
    exact ⟨fun g hg => handleSwitchCompleted_frame m pid g sel hg,
           fun hne => handleSwitchCompleted_altIdx m pid sel hne⟩
  case providerLoadFailed pid target err =>
    obtain rfl : pid = G := by simpa [scopedProviderID] using h
    exact ⟨fun g hg => handleProviderLoadFailed_frame m pid g target err hg,
           fun _ => handleProviderLoadFailed_altIdx m pid target err⟩
  all_goals simp [scopedProviderID] at h

/-- Witness for C6: a failure for group 5 leaves group 3's entry and the
alternative cursor (focused on group 3) unchanged. -/
theorem c6_scoped_results_frame_witness :
    (update sampleModel (Msg.providerLoadFailed 5 "alternatives" "err")).1.providerData 3 =
      sampleModel.providerData 3 ∧
    (update sampleModel (Msg.providerLoadFailed 5 "alternatives" "err")).1.altIdx =
      sampleModel.altIdx := by
  have h := c6_scoped_results_frame sampleModel
    (Msg.providerLoadFailed 5 "alternatives" "err") 5 rfl
  exact ⟨h.1 3 (by decide), h.2 (by decide)⟩

/-! ## C3: Confirm twice issues exactly one switch -/

/-- C3: invoking Confirm on the alternatives list and then invoking it
again immediately (no intervening completion event) issues exactly one
switch request: if the first Confirm issued a switch, the second Confirm
returns no command because the switch-in-flight flag gates re-issue. -/
theorem c3_confirm_twice_issues_one_switch (m : Model) (g a : Int)
    (htab : m.currentTab = tabProviders)
    (hfoc : m.focus = FocusArea.focusAlternatives)
    (h1 : (update m (Msg.key "enter")).2 = [Cmd.switchProvider g a]) :
    (update (update m (Msg.key "enter")).1 (Msg.key "enter")).2 = [] := by
  have hu : update m (Msg.key "enter") = m.switchSelection := by
    rw [show update m (Msg.key "enter") = m.handleKey "enter" from rfl,
      handleKey_enter m htab hfoc]
  rw [hu] at h1 ⊢
  have hne : (m.switchSelection).2 ≠ [] := by rw [h1]; simp
  have hsw := switchSelection_sets_switching m hne
  obtain ⟨hct, hfo, hpr, hpi⟩ := switchSelection_preserves m
  have hcur : (m.switchSelection).1.currentProviderID = m.currentProviderID :=
    currentProviderID_congr _ _ hpr hpi
  rw [show update (m.switchSelection).1 (Msg.key "enter") =
      (m.switchSelection).1.handleKey "enter" from rfl,
    handleKey_enter (m.switchSelection).1 (by rw [hct, htab]) (by rw [hfo, hfoc])]
  apply switchSelection_nil_of_switching
  rw [hcur]
  exact hsw

/-- Witness for C3: with group 3's alternatives loaded, selection 101 and
the cursor on alternative 102, the first Confirm issues the switch and the
second returns no command. -/
theorem c3_confirm_twice_issues_one_switch_witness :
    (update ({ sampleModel with altIdx := 1 }) (Msg.key "enter")).2 =
      [Cmd.switchProvider 3 102] ∧
    (update (update { sampleModel with altIdx := 1 } (Msg.key "enter")).1
      (Msg.key "enter")).2 = [] :=
  ⟨by decide,
   c3_confirm_twice_issues_one_switch _ 3 102 rfl rfl (by decide)⟩

/-! ## C5: Confirm on the active alternative vs. a different one -/

/-- C5: Confirm on the alternatives list (alternatives loaded, no switch
in flight, cursor in range): if the targeted alternative is already the
current selection, the status becomes the informational already-active
message and no command is issued; otherwise a switch request for the
current provider id and the targeted alternative id is issued. -/
theorem c5_confirm_already_active_or_switch (m : Model) (sel : ProviderSelection)
    (htab : m.currentTab = tabProviders)
    (hfoc : m.focus = FocusArea.focusAlternatives)
    (hprov : m.providers ≠ [])
    (hsw : (m.getPS m.currentProviderID).switching = false)
    (hla : (m.getPS m.currentProviderID).loadingAlternatives = false)
    (hne : (m.getPS m.currentProviderID).alternatives ≠ [])
    (hidx : m.altIdx < ((m.getPS m.currentProviderID).alternatives.length : Int))
    (hsel : (m.getPS m.currentProviderID).selection = some sel) :
    (sel.selectedAlternativeID =
        (listGetI (m.getPS m.currentProviderID).alternatives m.altIdx).alternative.id →
      (update m (Msg.key "enter")).2 = [] ∧
      (update m (Msg.key "enter")).1.status = "已在使用 " ++
        (listGetI (m.getPS m.currentProviderID).alternatives m.altIdx).alternative.displayName) ∧
    (sel.selectedAlternativeID ≠
        (listGetI (m.getPS m.currentProviderID).alternatives m.altIdx).alternative.id →
      (update m (Msg.key "enter")).2 =
        [Cmd.switchProvider m.currentProviderID
          (listGetI (m.getPS m.currentProviderID).alternatives m.altIdx).alternative.id]) := by
  have hu : update m (Msg.key "enter") = m.switchSelection := by
    rw [show update m (Msg.key "enter") = m.handleKey "enter" from rfl,
      handleKey_enter m htab hfoc]
  rw [hu]
  have hidx' : ¬ m.altIdx ≥ ((m.getPS m.currentProviderID).alternatives.length : Int) :=
    not_le.mpr hidx
  constructor
  · intro heq
    constructor <;>
      simp [Model.switchSelection, hprov, hsw, hla, hne, hidx', hsel, heq]
  · intro heq
    simp [Model.switchSelection, hprov, hsw, hla, hne, hidx', hsel, heq]

/-- Witness for C5: cursor on the already-active alternative 101 produces
the already-active status and no command; cursor on 102 issues the switch. -/
theorem c5_confirm_already_active_or_switch_witness :
    (update sampleModel (Msg.key "enter")).2 = [] ∧
    (update sampleModel (Msg.key "enter")).1.status = "已在使用 Origin" ∧
    (update { sampleModel with altIdx := 1 } (Msg.key "enter")).2 =
      [Cmd.switchProvider 3 102] := by
  have h1 := (c5_confirm_already_active_or_switch sampleModel sampleSel101
    rfl rfl (by decide) (by decide) (by decide) (by decide) (by decide)
    (by decide)).1 (by decide)
  have h2 := (c5_confirm_already_active_or_switch
    { sampleModel with altIdx := 1 } sampleSel101
    rfl rfl (by decide) (by decide) (by decide) (by decide) (by decide)
    (by decide)).2 (by decide)
  refine ⟨h1.1, ?_, ?_⟩
  · rw [h1.2]; decide
  · rw [h2]; decide

/-! ## C8: manual profile refresh keeps the cached profile visible -/

/-- C8: pressing refresh on the profile tab sets the manual-refresh flag
(distinct from the periodic tick, which changes no state), re-fetches the
profile, and leaves the cached profile snapshot unchanged, so the content
area still renders the previous profile while the status line shows the
refresh indicator. -/
theorem c8_manual_refresh_keeps_profile (m : Model) (p : Profile)
    (htab : m.currentTab = tabProfile) (hp : m.profile = some p) :
    (update m (Msg.key "r")).1.profile = some p ∧
    (update m (Msg.key "r")).1.manualRefreshingProfile = true ∧
    (update m (Msg.key "r")).1.loadingProfile = true ∧
    (update m (Msg.key "r")).2 = [Cmd.loadProfile] ∧
    profileTabContent (update m (Msg.key "r")).1 = ProfileView.content p ∧
    statusLine (update m (Msg.key "r")).1 = StatusLine.refreshing ∧
    (update m Msg.profileRefreshTick).1 = m := by
  have hu : update m (Msg.key "r") = m.refreshProfile := by
    rw [show update m (Msg.key "r") = m.handleKey "r" from rfl,
      handleKey_r_profile m htab]
  rw [hu]
  refine ⟨by simp [Model.refreshProfile, hp], rfl, rfl, rfl, ?_, ?_, rfl⟩
  · simp [Model.refreshProfile, profileTabContent, hp]
  · simp [Model.refreshProfile, statusLine, htab]

/-- Witness for C8 at a concrete profile-tab model. -/
theorem c8_manual_refresh_keeps_profile_witness :
    (update profileModel (Msg.key "r")).1.profile = some sampleProfile ∧
    (update profileModel (Msg.key "r")).2 = [Cmd.loadProfile] ∧
    profileTabContent (update profileModel (Msg.key "r")).1 =
      ProfileView.content sampleProfile ∧
    statusLine (update profileModel (Msg.key "r")).1 = StatusLine.refreshing := by
  have h := c8_manual_refresh_keeps_profile profileModel sampleProfile rfl rfl
  exact ⟨h.1, h.2.2.2.1, h.2.2.2.2.1, h.2.2.2.2.2.1⟩

/-! ## Cursor bounds invariant (C4) -/

theorem cursorInv_congr (m' m : Model) (h1 : m'.providers = m.providers)
    (h2 : m'.providerIdx = m.providerIdx)
    (h3 : m'.balancePreferenceIdx = m.balancePreferenceIdx)
    (h4 : m'.altIdx = m.altIdx) (h : CursorInv m) : CursorInv m' := by
  unfold CursorInv at *
  rw [h1, h2, h3, h4]
  exact h

theorem syncAltIdx_pref (m : Model) (pid : Int) :
    (m.syncAltIdx pid).balancePreferenceIdx = m.balancePreferenceIdx := by
  simp only [Model.syncAltIdx, Model.syncAltIdxTail]
  split_ifs
  · rfl
  all_goals
    rcases ((m.ensurePS pid).getPS pid).selection with _ | sel <;>
      simp only [] <;> (try split_ifs) <;> rfl

theorem syncAltIdxTail_altIdx_nonneg (m : Model) (s : ProviderState) :
    (m.syncAltIdxTail s).altIdx = m.altIdx ∨ 0 ≤ (m.syncAltIdxTail s).altIdx := by
  unfold Model.syncAltIdxTail
  split_ifs with h0
  · exact Or.inr (by simp)
  · refine Or.inr ?_
    have hpos : 0 < (s.alternatives.length : Int) := by omega
    simpa using clampIndex_nonneg m.altIdx _ hpos

theorem syncAltIdx_altIdx_nonneg (m : Model) (pid : Int) :
    (m.syncAltIdx pid).altIdx = m.altIdx ∨ 0 ≤ (m.syncAltIdx pid).altIdx := by
  simp only [Model.syncAltIdx]
  split_ifs with h0
  · exact Or.inl rfl
  all_goals
    rcases hsel : ((m.ensurePS pid).getPS pid).selection with _ | sel <;>
      simp only [] <;> (try split_ifs) <;>
      first
        | exact Or.inr (by assumption)
        | exact syncAltIdxTail_altIdx_nonneg _ _

theorem cursorInv_syncAltIdx (m : Model) (pid : Int) (h : CursorInv m) :
    CursorInv (m.syncAltIdx pid) := by
  obtain ⟨c1, c2, c3, c4, c5⟩ := h
  obtain ⟨hp, hi, _⟩ := syncAltIdx_nav m pid
  have hb := syncAltIdx_pref m pid
  unfold CursorInv
  rw [hp, hi, hb]
  refine ⟨c1, c2, c3, c4, ?_⟩
  rcases syncAltIdx_altIdx_nonneg m pid with ha | ha
  · rw [ha]; exact c5
  · exact ha

theorem cursorInv_ensureProvidersLoaded (m : Model) (h : CursorInv m) :
    CursorInv (m.ensureProvidersLoaded).1 := by
  unfold Model.ensureProvidersLoaded
  split_ifs <;> exact cursorInv_congr _ m rfl rfl rfl rfl h

theorem cursorInv_queueProviderDetailLoad (m : Model) (pid : Int) (h : CursorInv m) :
    CursorInv (m.queueProviderDetailLoad pid).1 := by
  simp only [Model.queueProviderDetailLoad]
  split_ifs <;>
    first
      | exact h
      | exact cursorInv_congr _ m rfl rfl rfl rfl h
      | exact cursorInv_syncAltIdx _ _ (cursorInv_congr _ m rfl rfl rfl rfl h)

theorem cursorInv_syncBalancePreferenceIdx (m : Model) (h : CursorInv m) :
    CursorInv m.syncBalancePreferenceIdx := by
  obtain ⟨c1, c2, c3, c4, c5⟩ := h
  unfold Model.syncBalancePreferenceIdx
  rcases m.profile with _ | p
  · exact ⟨c1, c2, c3, Or.inl rfl, c5⟩
  · simp only []
    split_ifs <;> first
      | exact ⟨c1, c2, c3, Or.inr rfl, c5⟩
      | exact ⟨c1, c2, c3, Or.inl rfl, c5⟩

theorem cursorInv_moveSelection (m : Model) (delta : Int) (h : CursorInv m) :
    CursorInv (m.moveSelection delta).1 := by
  obtain ⟨c1, c2, c3, c4, c5⟩ := h
  simp only [Model.moveSelection]
  split_ifs with hprov hfoc halt
  · exact ⟨c1, c2, c3, c4, c5⟩
  · have hlen : 0 < (m.providers.length : Int) := by
      have := List.length_pos.mpr hprov
      omega
    refine cursorInv_queueProviderDetailLoad _ _ (cursorInv_syncAltIdx _ _ ?_)
    exact ⟨clampIndex_nonneg _ _ hlen, fun _ => clampIndex_lt _ _ hlen,
      fun hc => absurd hc hprov, c4, c5⟩
  · exact cursorInv_congr _ m rfl rfl rfl rfl ⟨c1, c2, c3, c4, c5⟩
  · have hlen : 0 < (((m.ensurePS m.currentProviderID).getPS
        m.currentProviderID).alternatives.length : Int) := by
      have := List.length_pos.mpr halt
      omega
    exact ⟨c1, c2, c3, c4, clampIndex_nonneg _ _ hlen⟩

theorem cursorInv_refreshProfile (m : Model) (h : CursorInv m) :
    CursorInv (m.refreshProfile).1 :=
  cursorInv_congr _ m rfl rfl rfl rfl h

theorem cursorInv_refreshCurrentProvider (m : Model) (h : CursorInv m) :
    CursorInv (m.refreshCurrentProvider).1 := by
  simp only [Model.refreshCurrentProvider]
  split_ifs
  · exact h
  · exact cursorInv_queueProviderDetailLoad _ _ (cursorInv_congr _ m rfl rfl rfl rfl h)

theorem cursorInv_switchSelection (m : Model) (h : CursorInv m) :
    CursorInv (m.switchSelection).1 := by
  obtain ⟨hct, hfo, hpr, hpi⟩ := switchSelection_preserves m
  refine cursorInv_congr _ m hpr hpi ?_ ?_ h <;>
    · simp only [Model.switchSelection, Model.ensurePS, Model.setPS]
      split_ifs <;> rfl

theorem cursorInv_toggleBalancePreference (m : Model) (h : CursorInv m) :
    CursorInv (m.toggleBalancePreference).1 := by
  unfold Model.toggleBalancePreference
  rcases m.profile with _ | p
  · exact h
  · simp only []
    split_ifs <;> exact cursorInv_congr _ m rfl rfl rfl rfl h

theorem cursorInv_handleTabChanged (m : Model) (h : CursorInv m) :
    CursorInv (m.handleTabChanged).1 := by
  unfold Model.handleTabChanged
  split_ifs
  · exact cursorInv_ensureProvidersLoaded _ (cursorInv_congr _ m rfl rfl rfl rfl h)
  · exact cursorInv_syncBalancePreferenceIdx _ h
  · exact h

theorem cursorInv_handleTabSwitch (m : Model) (k : String) (h : CursorInv m) :
    CursorInv (m.handleTabSwitch k).1 := by
  unfold Model.handleTabSwitch Model.switchToNextTab Model.switchToPrevTab
  split_ifs
  · exact cursorInv_congr _ m rfl rfl rfl rfl h
  · exact cursorInv_ensureProvidersLoaded _ (cursorInv_congr _ m rfl rfl rfl rfl h)
  · exact cursorInv_syncBalancePreferenceIdx _ (cursorInv_congr _ m rfl rfl rfl rfl h)
  · exact cursorInv_handleTabChanged _ (cursorInv_congr _ m rfl rfl rfl rfl h)
  · exact cursorInv_handleTabChanged _ (cursorInv_congr _ m rfl rfl rfl rfl h)
  · exact h

theorem cursorInv_handleFocusSwitch (m : Model) (k : String) (h : CursorInv m) :
    CursorInv (m.handleFocusSwitch k) := by
  unfold Model.handleFocusSwitch
  split_ifs
  · exact h
  · exact cursorInv_congr _ m rfl rfl rfl rfl h
  · exact cursorInv_syncAltIdx _ _ (cursorInv_congr _ m rfl rfl rfl rfl h)
  · exact h

theorem cursorInv_handleRefresh (m : Model) (k : String) (h : CursorInv m) :
    CursorInv (m.handleRefresh k).1 := by
  unfold Model.handleRefresh
  split_ifs
  · exact h
  · exact cursorInv_refreshProfile _ h
  · exact cursorInv_refreshCurrentProvider _ h
  · exact h

theorem cursorInv_handleEnter (m : Model) (k : String) (h : CursorInv m) :
    CursorInv (m.handleEnter k).1 := by
  unfold Model.handleEnter
  split_ifs
  · exact h
  · exact cursorInv_switchSelection _ h
  · exact h
  · exact cursorInv_toggleBalancePreference _ h
  · exact h

theorem cursorInv_handleNavigation (m : Model) (k : String) (h : CursorInv m) :
    CursorInv (m.handleNavigation k).1 := by
  obtain ⟨c1, c2, c3, c4, c5⟩ := h
  simp only [Model.handleNavigation]
  split_ifs <;>
    first
      | exact ⟨c1, c2, c3, c4, c5⟩
      | exact cursorInv_moveSelection _ _ ⟨c1, c2, c3, c4, c5⟩
      | (refine ⟨c1, c2, c3, ?_, c5⟩
         simp only [clampIndex]
         rcases c4 with c4 | c4 <;> split_ifs <;> omega)

theorem cursorInv_handleQuitAndHelp (m : Model) (k : String) (h : CursorInv m) :
    CursorInv (m.handleQuitAndHelp k).1 := by
  unfold Model.handleQuitAndHelp
  split_ifs <;> first
    | exact h
    | exact cursorInv_congr _ m rfl rfl rfl rfl h

theorem cursorInv_handleKey (m : Model) (k : String) (h : CursorInv m) :
    CursorInv (m.handleKey k).1 := by
  simp only [Model.handleKey]
  split_ifs <;>
    first
      | exact h
      | exact cursorInv_handleQuitAndHelp _ _ h
      | exact cursorInv_handleTabSwitch _ _ (cursorInv_handleQuitAndHelp _ _ h)
      | exact cursorInv_handleRefresh _ _ (cursorInv_handleFocusSwitch _ _
          (cursorInv_handleTabSwitch _ _ (cursorInv_handleQuitAndHelp _ _ h)))
      | exact cursorInv_handleEnter _ _ (cursorInv_handleRefresh _ _
          (cursorInv_handleFocusSwitch _ _ (cursorInv_handleTabSwitch _ _
            (cursorInv_handleQuitAndHelp _ _ h))))
      | exact cursorInv_handleNavigation _ _ (cursorInv_handleEnter _ _
          (cursorInv_handleRefresh _ _ (cursorInv_handleFocusSwitch _ _
            (cursorInv_handleTabSwitch _ _ (cursorInv_handleQuitAndHelp _ _ h)))))

theorem cursorInv_handleMouseWheel (m : Model) (delta : Int) (h : CursorInv m) :
    CursorInv (m.handleMouseWheel delta).1 := by
  unfold Model.handleMouseWheel
  split_ifs
  · exact h
  · exact cursorInv_moveSelection _ _ h
  · exact h

theorem cursorInv_handleTabClick (m : Model) (x : Int) (h : CursorInv m) :
    CursorInv (m.handleTabClick x).1 := by
  unfold Model.handleTabClick
  split_ifs
  · exact cursorInv_congr _ m rfl rfl rfl rfl h
  · exact cursorInv_ensureProvidersLoaded _ (cursorInv_congr _ m rfl rfl rfl rfl h)
  · exact cursorInv_syncBalancePreferenceIdx _ (cursorInv_congr _ m rfl rfl rfl rfl h)

theorem cursorInv_handleProvidersClick (m : Model) (x contentY : Int)
    (h : CursorInv m) : CursorInv (m.handleProvidersClick x contentY).1 := by
  obtain ⟨c1, c2, c3, c4, c5⟩ := h
  simp only [Model.handleProvidersClick]
  split_ifs with hprov hside hin hload hin2
  · exact ⟨c1, c2, c3, c4, c5⟩
  · refine cursorInv_queueProviderDetailLoad _ _ ?_
    exact ⟨hin.1, fun _ => hin.2, fun hc => absurd hc hprov, c4, c5⟩
  · exact cursorInv_congr _ m rfl rfl rfl rfl ⟨c1, c2, c3, c4, c5⟩
  · exact cursorInv_switchSelection _ ⟨c1, c2, c3, c4, hin2.1⟩
  · exact cursorInv_syncAltIdx _ _ (cursorInv_congr _ m rfl rfl rfl rfl ⟨c1, c2, c3, c4, c5⟩)
  · exact cursorInv_congr _ m rfl rfl rfl rfl ⟨c1, c2, c3, c4, c5⟩

theorem cursorInv_handleBalancePreferenceClick (m : Model) (contentY : Int)
    (h : CursorInv m) : CursorInv (m.handleBalancePreferenceClick contentY).1 := by
  obtain ⟨c1, c2, c3, c4, c5⟩ := h
  simp only [Model.handleBalancePreferenceClick]
  split_ifs <;>
    first
      | exact ⟨c1, c2, c3, c4, c5⟩
      | exact cursorInv_toggleBalancePreference _ ⟨c1, c2, c3, Or.inl rfl, c5⟩
      | exact cursorInv_toggleBalancePreference _ ⟨c1, c2, c3, Or.inr rfl, c5⟩

theorem cursorInv_handleContentClick (m : Model) (x y : Int) (h : CursorInv m) :
    CursorInv (m.handleContentClick x y).1 := by
  unfold Model.handleContentClick
  split_ifs
  · exact cursorInv_handleProvidersClick _ _ _ h
  · exact cursorInv_handleBalancePreferenceClick _ _ h
  · exact h

theorem cursorInv_handleMouseClick (m : Model) (x y : Int) (h : CursorInv m) :
    CursorInv (m.handleMouseClick x y).1 := by
  unfold Model.handleMouseClick
  split_ifs
  · exact cursorInv_handleTabClick _ _ h
  · exact cursorInv_handleContentClick _ _ _ h
  · exact h

theorem cursorInv_handleProvidersLoaded (m : Model) (r : ProvidersResponse)
    (h : CursorInv m) : CursorInv (m.handleProvidersLoaded r).1 := by
  obtain ⟨c1, c2, c3, c4, c5⟩ := h
  simp only [Model.handleProvidersLoaded]
  split_ifs with h1 h2 h3 h4 h5 h6 h7 <;>
    (try refine cursorInv_queueProviderDetailLoad _ _ ?_) <;>
    refine ⟨?_, ?_, ?_, ?_, ?_⟩ <;> (try simp) <;>
    first
      | omega
      | exact c4
      | exact c5
      | (intro hne; have hlp := List.length_pos.mpr hne; omega)
      | (intro hc; simp [hc] at h1; omega)

theorem cursorInv_handleProfileLoaded (m : Model) (p : Profile) (h : CursorInv m) :
    CursorInv (m.handleProfileLoaded p) :=
  cursorInv_congr _ m rfl rfl rfl rfl h

theorem cursorInv_handleAlternativesLoaded (m : Model) (pid : Int)
    (alts : List AlternativeOption) (h : CursorInv m) :
    CursorInv (m.handleAlternativesLoaded pid alts) := by
  simp only [Model.handleAlternativesLoaded]
  split_ifs <;>
    first
      | exact cursorInv_syncAltIdx _ _ (cursorInv_congr _ m rfl rfl rfl rfl h)
      | exact cursorInv_congr _ _ rfl rfl rfl rfl
          (cursorInv_syncAltIdx _ _ (cursorInv_congr _ m rfl rfl rfl rfl h))

theorem cursorInv_handleSelectionLoaded (m : Model) (pid : Int)
    (sel : ProviderSelection) (h : CursorInv m) :
    CursorInv (m.handleSelectionLoaded pid sel) := by
  simp only [Model.handleSelectionLoaded]
  split_ifs <;>
    first
      | exact cursorInv_syncAltIdx _ _ (cursorInv_congr _ m rfl rfl rfl rfl h)
      | exact cursorInv_congr _ _ rfl rfl rfl rfl
          (cursorInv_syncAltIdx _ _ (cursorInv_congr _ m rfl rfl rfl rfl h))

theorem cursorInv_handleSwitchCompleted (m : Model) (pid : Int)
    (sel : ProviderSelection) (h : CursorInv m) :
    CursorInv (m.handleSwitchCompleted pid sel).1 := by
  simp only [Model.handleSwitchCompleted]
  exact cursorInv_congr _ _ rfl rfl rfl rfl
    (cursorInv_syncAltIdx _ _ (cursorInv_congr _ m rfl rfl rfl rfl h))

theorem cursorInv_handlePreferenceUpdated (m : Model) (pref : String)
    (h : CursorInv m) : CursorInv (m.handlePreferenceUpdated pref).1 := by
  simp only [Model.handlePreferenceUpdated]
  rcases m.profile with _ | p <;>
    simp only [] <;>
    exact cursorInv_congr _ _ rfl rfl rfl rfl
      (cursorInv_syncBalancePreferenceIdx _ (cursorInv_congr _ m rfl rfl rfl rfl h))

theorem cursorInv_handlePreferenceFailed (m : Model) (e : String) (h : CursorInv m) :
    CursorInv (m.handlePreferenceFailed e).1 :=
  cursorInv_congr _ m rfl rfl rfl rfl h

theorem cursorInv_handleProviderLoadFailed (m : Model) (pid : Int)
    (target e : String) (h : CursorInv m) :
    CursorInv (m.handleProviderLoadFailed pid target e).1 := by
  simp only [Model.handleProviderLoadFailed]
  split_ifs <;> exact cursorInv_congr _ m rfl rfl rfl rfl h

theorem cursorInv_handleError (m : Model) (e : String) (h : CursorInv m) :
    CursorInv (m.handleError e).1 := by
  simp only [Model.handleError]
  split_ifs <;> exact cursorInv_congr _ m rfl rfl rfl rfl h

/-- Every event of `Update` preserves the cursor bounds. -/
theorem cursorInv_update (m : Model) (e : Msg) (h : CursorInv m) :
    CursorInv (update m e).1 := by
  cases e
  case key k => exact cursorInv_handleKey _ _ h
  case wheelUp => exact cursorInv_handleMouseWheel _ _ h
  case wheelDown => exact cursorInv_handleMouseWheel _ _ h
  case leftClick x y => exact cursorInv_handleMouseClick _ _ _ h
  case windowSize w hh => exact cursorInv_congr _ m rfl rfl rfl rfl h
  case profileLoaded p => exact cursorInv_handleProfileLoaded _ _ h
  case providersLoaded r => exact cursorInv_handleProvidersLoaded _ _ h
  case alternativesLoaded pid alts => exact cursorInv_handleAlternativesLoaded _ _ _ h
  case selectionLoaded pid sel => exact cursorInv_handleSelectionLoaded _ _ _ h
  case switchCompleted pid sel => exact cursorInv_handleSwitchCompleted _ _ _ h
  case preferenceUpdated pref => exact cursorInv_handlePreferenceUpdated _ _ h
  case preferenceFailed e => exact cursorInv_handlePreferenceFailed _ _ h
  case providerLoadFailed pid t e => exact cursorInv_handleProviderLoadFailed _ _ _ _ h
  case errMsg e => exact cursorInv_handleError _ _ h
  case clearStatus => exact cursorInv_congr _ m rfl rfl rfl rfl h
  case profileRefreshTick => exact h

theorem cursorInv_initModel : CursorInv initModel := by
  refine ⟨le_refl 0, ?_, fun _ => rfl, Or.inl rfl, le_refl 0⟩
  intro hne
  exact absurd rfl hne

/-- The model component of a successful system step is the `Update` model. -/
theorem stepSys_model (s : Sys) (e : Msg) (s1 : Sys) (h : stepSys s e = some s1) :
    s1.model = (update s.model e).1 := by
  unfold stepSys at h
  cases hc : msgConsumes e with
  | none =>
    simp only [hc, Option.some.injEq] at h
    rw [← h]
  | some p =>
    simp only [hc] at h
    rcases hcons : consume1 p s.pending with _ | rest <;> rw [hcons] at h
    · simp at h
    · simp only [Option.map_some', Option.some.injEq] at h
      rw [← h]

/-- The cursor bounds hold along every honest trace. -/
theorem cursorInv_runSys (msgs : List Msg) (s0 s : Sys) (h0 : CursorInv s0.model)
    (hr : runSys s0 msgs = some s) : CursorInv s.model := by
  induction msgs generalizing s0 with
  | nil =>
    simp only [runSys, Option.some.injEq] at hr
    rwa [← hr]
  | cons e es ih =>
    simp only [runSys] at hr
    cases hstep : stepSys s0 e <;> rw [hstep] at hr
    · simp at hr
    · simp only [Option.some_bind] at hr
      refine ih _ ?_ hr
      rw [stepSys_model s0 e _ hstep]
      exact cursorInv_update _ _ h0

theorem findIdx?_lt_length_aux {α : Type} (p : α → Bool) (l : List α) (i k : Nat)
    (h : l.findIdx? p i = some k) : k < i + l.length := by
  induction l generalizing i k with
  | nil => simp [List.findIdx?] at h
  | cons a as ih =>
    simp only [List.findIdx?] at h
    by_cases hp : p a
    · rw [if_pos hp] at h
      injection h with h'
      simp only [List.length_cons]
      omega
    · rw [if_neg hp] at h
      have := ih (i + 1) k h
      simp only [List.length_cons]
      omega

theorem findIdx?_lt_length {α : Type} (p : α → Bool) (l : List α) (k : Nat)
    (h : l.findIdx? p = some k) : k < l.length := by
  have := findIdx?_lt_length_aux p l 0 k h
  omega

theorem findAlternativeIndex_bounds (alts : List AlternativeOption) (i : Int) :
    Model.findAlternativeIndex alts i = -1 ∨
    (0 ≤ Model.findAlternativeIndex alts i ∧
      Model.findAlternativeIndex alts i < (alts.length : Int)) := by
  unfold Model.findAlternativeIndex
  cases hf : alts.findIdx? (fun alt => alt.alternative.id = i) with
  | none => exact Or.inl rfl
  | some k =>
    right
    have := findIdx?_lt_length _ _ _ hf
    constructor
    · show (0 : Int) ≤ (k : Int)
      omega
    · show ((k : Nat) : Int) < (alts.length : Int)
      exact_mod_cast this

/-- `syncAltIdx` on the focused provider leaves the alternative cursor
clamped into the entry's alternatives list (or `0` when it is empty). -/
theorem syncAltIdx_altIdx_spec (m : Model) (pid : Int) (hpid : pid ≠ 0)
    (hcur : pid = m.currentProviderID) :
    ((m.getPS pid).alternatives = [] → (m.syncAltIdx pid).altIdx = 0) ∧
    ((m.getPS pid).alternatives ≠ [] → 0 ≤ (m.syncAltIdx pid).altIdx ∧
      (m.syncAltIdx pid).altIdx < ((m.getPS pid).alternatives.length : Int)) := by
  simp only [Model.syncAltIdx, Model.syncAltIdxTail, getPS_ensurePS]
  rw [if_neg (by push_neg; exact ⟨hpid, hcur⟩)]
  constructor
  · intro he
    rcases hsel : (m.getPS pid).selection with _ | sel <;> simp [hsel, he]
  · intro hne
    have hlen : 0 < ((m.getPS pid).alternatives.length : Int) := by
      have := List.length_pos.mpr hne
      omega
    rcases hsel : (m.getPS pid).selection with _ | sel <;> simp only [hsel]
    · rw [if_neg (by omega)]
      exact ⟨clampIndex_nonneg _ _ hlen, clampIndex_lt _ _ hlen⟩
    · rw [if_pos (by exact_mod_cast hlen)]
      rcases findAlternativeIndex_bounds (m.getPS pid).alternatives
          sel.selectedAlternativeID with hb | hb
      · rw [if_neg (by omega)]
        rw [if_neg (by omega)]
        exact ⟨clampIndex_nonneg _ _ hlen, clampIndex_lt _ _ hlen⟩
      · rw [if_pos hb.1]
        exact hb

/-- The alternative cursor written by `handleAlternativesLoaded` is the one
`syncAltIdx` computes on the updated entry. -/
theorem handleAlternativesLoaded_altIdx_eq (m : Model) (pid : Int)
    (alts : List AlternativeOption) :
    (m.handleAlternativesLoaded pid alts).altIdx =
      (((m.ensurePS pid).setPS pid
        { (m.ensurePS pid).getPS pid with
          alternatives := alts, alternativesLoaded := true,
          loadingAlternatives := false, lastError := none }).syncAltIdx pid).altIdx := by
  simp only [Model.handleAlternativesLoaded]
  split_ifs <;> rfl

/-- When the alternatives for the focused group load, the alternative
cursor is re-clamped to the new list (and reset to `0` if it is empty). -/
theorem handleAlternativesLoaded_clamps (m : Model) (alts : List AlternativeOption)
    (hpid : m.currentProviderID ≠ 0) :
    (alts = [] → (m.handleAlternativesLoaded m.currentProviderID alts).altIdx = 0) ∧
    (alts ≠ [] → 0 ≤ (m.handleAlternativesLoaded m.currentProviderID alts).altIdx ∧
      (m.handleAlternativesLoaded m.currentProviderID alts).altIdx <
        (alts.length : Int)) := by
  rw [handleAlternativesLoaded_altIdx_eq]
  have hget2 : (((m.ensurePS m.currentProviderID).setPS m.currentProviderID
      { (m.ensurePS m.currentProviderID).getPS m.currentProviderID with
        alternatives := alts, alternativesLoaded := true,
        loadingAlternatives := false, lastError := none }).getPS
        m.currentProviderID).alternatives = alts := by
    rw [getPS_setPS_same _ _ _ hpid]
  obtain ⟨spec1, spec2⟩ := syncAltIdx_altIdx_spec
    ((m.ensurePS m.currentProviderID).setPS m.currentProviderID
      { (m.ensurePS m.currentProviderID).getPS m.currentProviderID with
        alternatives := alts, alternativesLoaded := true,
        loadingAlternatives := false, lastError := none })
    m.currentProviderID hpid (by simp)
  constructor
  · intro he
    apply spec1
    rw [hget2]
    exact he
  · intro hne
    have := spec2 (by rw [hget2]; exact hne)
    rwa [hget2] at this

/-! ## C9: retry policy of the API client -/

/-- C9: read-only fetches (`Client.get`) retry exactly once — at most two
transport attempts, success surfacing immediately and a first-attempt
failure surfacing the second attempt's result — while mutating operations
(`Client.put`, used by SwitchProvider and UpdateBalancePreference) perform
a single attempt whose result is surfaced immediately; all six exported
operations route through `get` or `put` accordingly. -/
theorem c9_get_retries_once_put_never (env : Nat → Option String) (e : String) :
    (env 0 = none → clientGet env = (none, 1)) ∧
    (env 0 = some e → clientGet env = (env 1, 2)) ∧
    clientPut env = (env 0, 1) ∧
    getProfileCall env = clientGet env ∧
    getProvidersCall env = clientGet env ∧
    getAlternativesCall env = clientGet env ∧
    getSelectionCall env = clientGet env ∧
    switchProviderCall env = (env 0, 1) ∧
    updatePreferenceCall env = (env 0, 1) := by
  refine ⟨?_, ?_, rfl, rfl, rfl, rfl, rfl, rfl, rfl⟩
  · intro h0
    unfold clientGet goGetLoop
    rw [h0]
  · intro h0
    unfold clientGet goGetLoop
    rw [h0]
    cases h1 : env 1 <;> simp [goGetLoop, h1]

/-- Witness for C9 at a concrete transport oracle (first attempt fails,
second succeeds). -/
theorem c9_get_retries_once_put_never_witness :
    clientGet (fun n => if n = 0 then some "boom" else none) = (none, 2) ∧
    clientPut (fun n => if n = 0 then some "boom" else none) = (some "boom", 1) := by
  have h := c9_get_retries_once_put_never
    (fun n => if n = 0 then some "boom" else none) "boom"
  refine ⟨?_, h.2.2.1⟩
  have := h.2.1 (by decide)
  simpa using this

/-! ## C4: cursor bounds -/

/-- C4 (amended): in every reachable state the provider-list cursor is
within `[0, length-1]` of the provider list (and `0` when the list is
empty), the preference cursor is one of the two options, and the
alternative cursor is non-negative; the alternative cursor is moreover
re-clamped into the governing list (reset to `0` when empty) whenever the
focused group's alternatives load.  The unamended upper bound for the
alternative cursor fails right after a provider-list mouse click selects a
group whose details are not yet loaded (see the counterexample). -/
theorem c4_cursor_bounds_amended (msgs : List Msg) (s : Sys)
    (hr : runSys initSys msgs = some s) :
    (0 ≤ s.model.providerIdx ∧
     (s.model.providers ≠ [] →
        s.model.providerIdx < (s.model.providers.length : Int)) ∧
     (s.model.providers = [] → s.model.providerIdx = 0) ∧
     (s.model.balancePreferenceIdx = 0 ∨ s.model.balancePreferenceIdx = 1) ∧
     0 ≤ s.model.altIdx) ∧
    (∀ (m : Model) (alts : List AlternativeOption), m.currentProviderID ≠ 0 →
      (alts = [] → (m.handleAlternativesLoaded m.currentProviderID alts).altIdx = 0) ∧
      (alts ≠ [] → 0 ≤ (m.handleAlternativesLoaded m.currentProviderID alts).altIdx ∧
        (m.handleAlternativesLoaded m.currentProviderID alts).altIdx <
          (alts.length : Int))) :=
  ⟨cursorInv_runSys msgs initSys s cursorInv_initModel hr,
   fun m alts hpid => handleAlternativesLoaded_clamps m alts hpid⟩

set_option maxHeartbeats 1000000 in
/-- Witness for C4 on a concrete trace and a concrete load event. -/
theorem c4_cursor_bounds_amended_witness :
    0 ≤ (sysAfter c4Trace).model.providerIdx ∧
    0 ≤ (sysAfter c4Trace).model.altIdx ∧
    (sampleModel.handleAlternativesLoaded sampleModel.currentProviderID []).altIdx = 0 := by
  have h := c4_cursor_bounds_amended c4Trace (sysAfter c4Trace) rfl
  exact ⟨h.1.1, h.1.2.2.2.2, (h.2 sampleModel [] (by decide)).1 rfl⟩

set_option maxHeartbeats 1000000 in
/-- C4 counterexample: after clicking the provider list onto group 5,
whose details are not loaded, the governing alternatives list is empty but
the alternative cursor still reads `1` (not reset to `0`, out of range). -/
theorem c4_cursor_counterexample :
    (runSys initSys c4Trace).isSome = true ∧
    ((sysAfter c4Trace).model.getPS
      ((sysAfter c4Trace).model.currentProviderID)).alternatives = [] ∧
    (sysAfter c4Trace).model.altIdx = 1 := by
  refine ⟨?_, ?_, ?_⟩ <;> decide

/-! ## C7: navigation issues no mutations -/

theorem ensureProvidersLoaded_no_mutation (m : Model) :
    ∀ c ∈ (m.ensureProvidersLoaded).2, isMutation c = false := by
  unfold Model.ensureProvidersLoaded
  split_ifs <;> simp [isMutation]

theorem queueProviderDetailLoad_no_mutation (m : Model) (pid : Int) :
    ∀ c ∈ (m.queueProviderDetailLoad pid).2, isMutation c = false := by
  simp only [Model.queueProviderDetailLoad]
  split_ifs <;> simp [isMutation]

theorem moveSelection_no_mutation (m : Model) (delta : Int) :
    ∀ c ∈ (m.moveSelection delta).2, isMutation c = false := by
  simp only [Model.moveSelection]
  split_ifs <;>
    first
      | exact queueProviderDetailLoad_no_mutation _ _
      | simp

theorem refreshCurrentProvider_no_mutation (m : Model) :
    ∀ c ∈ (m.refreshCurrentProvider).2, isMutation c = false := by
  simp only [Model.refreshCurrentProvider]
  split_ifs <;>
    first
      | exact queueProviderDetailLoad_no_mutation _ _
      | simp

theorem handleTabChanged_no_mutation (m : Model) :
    ∀ c ∈ (m.handleTabChanged).2, isMutation c = false := by
  unfold Model.handleTabChanged
  split_ifs <;>
    first
      | exact ensureProvidersLoaded_no_mutation _
      | simp

theorem handleTabSwitch_no_mutation (m : Model) (k : String) :
    ∀ c ∈ (m.handleTabSwitch k).2, isMutation c = false := by
  unfold Model.handleTabSwitch Model.switchToNextTab Model.switchToPrevTab
  split_ifs <;>
    first
      | exact ensureProvidersLoaded_no_mutation _
      | exact handleTabChanged_no_mutation _
      | simp

theorem handleQuitAndHelp_no_mutation (m : Model) (k : String) :
    ∀ c ∈ (m.handleQuitAndHelp k).2, isMutation c = false := by
  unfold Model.handleQuitAndHelp
  split_ifs <;> simp [isMutation]

theorem handleRefresh_no_mutation (m : Model) (k : String) :
    ∀ c ∈ (m.handleRefresh k).2, isMutation c = false := by
  unfold Model.handleRefresh Model.refreshProfile
  split_ifs <;>
    first
      | exact refreshCurrentProvider_no_mutation _
      | simp [isMutation]

theorem handleEnter_nil_of_ne (m : Model) (k : String) (hk : k ≠ "enter") :
    (m.handleEnter k).2 = [] := by
  unfold Model.handleEnter
  rw [if_pos hk]

theorem handleNavigation_no_mutation (m : Model) (k : String) :
    ∀ c ∈ (m.handleNavigation k).2, isMutation c = false := by
  simp only [Model.handleNavigation]
  split_ifs <;>
    first
      | exact moveSelection_no_mutation _ _
      | simp

/-- Any key other than Enter issues no mutation command. -/
theorem handleKey_no_mutation (m : Model) (k : String) (hk : k ≠ "enter") :
    ∀ c ∈ (m.handleKey k).2, isMutation c = false := by
  by_cases hcc : k = "ctrl+c"
  · subst hcc
    intro c hc
    simp only [Model.handleKey, if_pos rfl] at hc
    simp at hc
    subst hc
    rfl
  · simp only [Model.handleKey, if_neg hcc]
    split_ifs <;>
      first
        | exact handleQuitAndHelp_no_mutation _ _
        | exact handleTabSwitch_no_mutation _ _
        | exact handleRefresh_no_mutation _ _
        | (intro c hc
           exact absurd hc (by simp [handleEnter_nil_of_ne _ _ hk]))
        | exact handleNavigation_no_mutation _ _

theorem handleMouseWheel_no_mutation (m : Model) (delta : Int) :
    ∀ c ∈ (m.handleMouseWheel delta).2, isMutation c = false := by
  unfold Model.handleMouseWheel
  split_ifs <;>
    first
      | exact moveSelection_no_mutation _ _
      | simp

/-- A navigation-only event issues no mutation command. -/
theorem nav_no_mutation_step (m : Model) (e : Msg) (hnav : NavMsg e) :
    ∀ c ∈ (update m e).2, isMutation c = false := by
  cases e with
  | key k =>
    have hk : k ≠ "enter" := by
      intro h
      rw [h] at hnav
      simp [NavMsg, navKeys] at hnav
    exact handleKey_no_mutation m k hk
  | wheelUp => exact handleMouseWheel_no_mutation m (-1)
  | wheelDown => exact handleMouseWheel_no_mutation m 1
  | _ => exact absurd hnav (by simp [NavMsg])

/-- C7: a sequence of navigation-only events (tab switches, cursor moves,
wheel scrolls — no Confirm, no click) never issues a network mutation
(`SwitchSelection` or `UpdatePreference`); only read-only fetches may be
scheduled. -/
theorem c7_navigation_issues_no_mutation (m : Model) (msgs : List Msg)
    (hnav : ∀ e ∈ msgs, NavMsg e) :
    ∀ c ∈ (runModel m msgs).2, isMutation c = false := by
  induction msgs generalizing m with
  | nil => simp [runModel]
  | cons e es ih =>
    simp only [runModel]
    intro c hc
    rw [List.mem_append] at hc
    rcases hc with hc | hc
    · exact nav_no_mutation_step m e (hnav e (by simp)) c hc
    · exact ih (update m e).1 (fun e' he' => hnav e' (by simp [he'])) c hc

/-- Witness for C7 on a concrete navigation-only trace. -/
theorem c7_navigation_issues_no_mutation_witness :
    (runModel sampleModel [Msg.key "2", Msg.wheelDown, Msg.key "down"]).2.all
      (fun c => !(isMutation c)) = true := by
  rw [List.all_eq_true]
  intro c hc
  have h := c7_navigation_issues_no_mutation sampleModel
    [Msg.key "2", Msg.wheelDown, Msg.key "down"] (by simp [NavMsg, navKeys]) c hc
  simp [h]

/-! ## Pending-list accounting -/

theorem consume1_decomp (p : Cmd → Bool) (l l2 : List Cmd)
    (h : consume1 p l = some l2) :
    ∃ la c lb, l = la ++ c :: lb ∧ l2 = la ++ lb ∧ p c = true := by
  induction l generalizing l2 with
  | nil => simp [consume1] at h
  | cons a as ih =>
    simp only [consume1] at h
    by_cases hp : p a
    · rw [if_pos hp] at h
      injection h with h1
      exact ⟨[], a, as, rfl, by simpa using h1.symm, hp⟩
    · rw [if_neg hp] at h
      rcases hc : consume1 p as with _ | rest
      · rw [hc] at h; simp at h
      · rw [hc] at h
        simp only [Option.map_some', Option.some.injEq] at h
        obtain ⟨la, c, lb, e1, e2, hpc⟩ := ih rest hc
        exact ⟨a :: la, c, lb, by simp [e1], by simp [← h, e2], hpc⟩

theorem consume1_countP_drop (p q : Cmd → Bool) (l l2 : List Cmd)
    (h : consume1 p l = some l2) (hq : ∀ c, p c = true → q c = false) :
    l2.countP q = l.countP q := by
  obtain ⟨la, c, lb, e1, e2, hpc⟩ := consume1_decomp p l l2 h
  subst e1 e2
  simp [List.countP_append, List.countP_cons, hq c hpc]

theorem consume1_countP_pick (p q : Cmd → Bool) (l l2 : List Cmd)
    (h : consume1 p l = some l2) (hq : ∀ c, p c = true → q c = true) :
    l.countP q = l2.countP q + 1 := by
  obtain ⟨la, c, lb, e1, e2, hpc⟩ := consume1_decomp p l l2 h
  subst e1 e2
  simp [List.countP_append, List.countP_cons, hq c hpc]
  try omega

theorem consume1_exists_true (p : Cmd → Bool) (l l2 : List Cmd)
    (h : consume1 p l = some l2) : ∃ c, p c = true ∧ c ∈ l := by
  obtain ⟨la, c, lb, e1, _, hpc⟩ := consume1_decomp p l l2 h
  exact ⟨c, hpc, by simp [e1]⟩

theorem consume1_sub (p : Cmd → Bool) (l l2 : List Cmd)
    (h : consume1 p l = some l2) : ∀ c ∈ l2, c ∈ l := by
  obtain ⟨la, c0, lb, e1, e2, _⟩ := consume1_decomp p l l2 h
  subst e1 e2
  intro c hc
  rcases List.mem_append.mp hc with h1 | h1
  · exact List.mem_append.mpr (Or.inl h1)
  · exact List.mem_append.mpr (Or.inr (List.mem_cons_of_mem _ h1))

/-! ## Cache-entry frame helpers -/

theorem getPS_congr_pd (ma mb : Model) (h : ma.providerData = mb.providerData)
    (k : Int) : ma.getPS k = mb.getPS k := by
  unfold Model.getPS; rw [h]

theorem setPS_zero_model (m : Model) (s : ProviderState) : m.setPS 0 s = m := by
  unfold Model.setPS
  rw [setMap_zero]

theorem ensurePS_zero_model (m : Model) : m.ensurePS 0 = m := by
  unfold Model.ensurePS
  rw [ensureMap_zero]

theorem syncAltIdx_getPS (m : Model) (pid k : Int) :
    (m.syncAltIdx pid).getPS k = m.getPS k := by
  simp only [Model.syncAltIdx, Model.syncAltIdxTail]
  split_ifs
  · rfl
  all_goals
    rcases ((m.ensurePS pid).getPS pid).selection with _ | sel <;>
      simp only [] <;> (try split_ifs) <;>
        simp [Model.getPS]

/-! ## The alternatives flags invariant: model-side preservation -/

theorem altInvG_of_pd (ma mb : Model) (h : ma.providerData = mb.providerData)
    (hb : AltInvG mb) : AltInvG ma := by
  intro id
  rw [getPS_congr_pd ma mb h id]
  exact hb id

theorem altInvG_ensurePS (m : Model) (pid : Int) (h : AltInvG m) :
    AltInvG (m.ensurePS pid) := by
  intro id
  rw [getPS_ensurePS]
  exact h id

theorem altInvG_syncAltIdx (m : Model) (pid : Int) (h : AltInvG m) :
    AltInvG (m.syncAltIdx pid) := by
  intro id
  rw [syncAltIdx_getPS]
  exact h id

theorem altInvG_setPS (m : Model) (pid : Int) (s : ProviderState) (h : AltInvG m)
    (hs : s.loadingAlternatives = true → s.alternativesLoaded = false) :
    AltInvG (m.setPS pid s) := by
  intro id
  by_cases hid : id = pid
  · subst hid
    by_cases h0 : id = 0
    · intro hla
      rw [h0, setPS_zero_model] at hla ⊢
      exact h 0 hla
    · rw [getPS_setPS_same _ _ _ h0]
      exact hs
  · rw [getPS_setPS_ne _ _ _ _ hid]
    exact h id

/-! ## Alternatives-flag invariant: handler chain -/

theorem altInvG_status (m : Model) (st : String) (h : AltInvG m) :
    AltInvG { m with status := st } := altInvG_of_pd _ m rfl h

theorem altInvG_queueProviderDetailLoad (m : Model) (pid : Int) (h : AltInvG m) :
    AltInvG (m.queueProviderDetailLoad pid).1 := by
  simp only [Model.queueProviderDetailLoad, getPS_ensurePS]
  split_ifs with h0 hA hS hL hSync
  all_goals try exact h
  all_goals (try apply altInvG_syncAltIdx)
  all_goals (try apply altInvG_status)
  all_goals
    refine altInvG_setPS _ _ _ (altInvG_ensurePS _ _ h) ?_
  all_goals intro hla
  all_goals simp at hla ⊢
  all_goals first
    | simpa using hA.1
    | exact h pid hla

theorem altInvG_ensureProvidersLoaded (m : Model) (h : AltInvG m) :
    AltInvG (m.ensureProvidersLoaded).1 := by
  unfold Model.ensureProvidersLoaded
  split_ifs
  · exact h
  · exact altInvG_of_pd _ _ rfl h

theorem altInvG_syncBalancePreferenceIdx (m : Model) (h : AltInvG m) :
    AltInvG m.syncBalancePreferenceIdx := by
  unfold Model.syncBalancePreferenceIdx
  rcases m.profile with _ | p
  · exact altInvG_of_pd _ _ rfl h
  · simp only []
    split_ifs <;> exact altInvG_of_pd _ _ rfl h

theorem altInvG_moveSelection (m : Model) (d : Int) (h : AltInvG m) :
    AltInvG (m.moveSelection d).1 := by
  simp only [Model.moveSelection]
  split_ifs
  · exact h
  · exact altInvG_queueProviderDetailLoad _ _
      (altInvG_syncAltIdx _ _ (altInvG_of_pd _ _ rfl h))
  · exact altInvG_ensurePS _ _ h
  · exact altInvG_of_pd _ _ rfl (altInvG_ensurePS _ _ h)

theorem altInvG_refreshProfile (m : Model) (h : AltInvG m) :
    AltInvG (m.refreshProfile).1 :=
  altInvG_of_pd _ _ rfl h

theorem altInvG_refreshCurrentProvider (m : Model) (h : AltInvG m) :
    AltInvG (m.refreshCurrentProvider).1 := by
  simp only [Model.refreshCurrentProvider, getPS_ensurePS]
  split_ifs
  · exact h
  · refine altInvG_queueProviderDetailLoad _ _
      (altInvG_setPS _ _ _ (altInvG_ensurePS _ _ h) ?_)
    intro hla
    simp at hla

theorem altInvG_switchSelection (m : Model) (h : AltInvG m) :
    AltInvG (m.switchSelection).1 := by
  simp only [Model.switchSelection, getPS_ensurePS]
  split_ifs
  · exact h
  · exact altInvG_ensurePS _ _ h
  · exact altInvG_ensurePS _ _ h
  · exact altInvG_of_pd _ _ rfl (altInvG_ensurePS _ _ h)
  · refine altInvG_of_pd _ _ rfl
      (altInvG_setPS _ _ _ (altInvG_ensurePS _ _ h) ?_)
    intro hla
    simp at hla ⊢
    exact h m.currentProviderID hla

theorem altInvG_toggleBalancePreference (m : Model) (h : AltInvG m) :
    AltInvG (m.toggleBalancePreference).1 := by
  unfold Model.toggleBalancePreference
  rcases m.profile with _ | p
  · exact h
  · simp only []
    split_ifs <;> first | exact h | exact altInvG_of_pd _ _ rfl h

theorem altInvG_handleProvidersLoaded (m : Model) (r : ProvidersResponse)
    (h : AltInvG m) : AltInvG (m.handleProvidersLoaded r).1 := by
  simp only [Model.handleProvidersLoaded]
  split_ifs <;>
    first
    | exact altInvG_queueProviderDetailLoad _ _ (altInvG_of_pd _ _ rfl h)
    | exact altInvG_of_pd _ _ rfl h

theorem altInvG_handleAlternativesLoaded (m : Model) (pid : Int)
    (alts : List AlternativeOption) (h : AltInvG m) :
    AltInvG (m.handleAlternativesLoaded pid alts) := by
  simp only [Model.handleAlternativesLoaded, getPS_ensurePS]
  split_ifs
  all_goals
    refine altInvG_of_pd _ _ rfl (altInvG_syncAltIdx _ _
      (altInvG_setPS _ _ _ (altInvG_ensurePS _ _ h) ?_))
  all_goals intro hla
  all_goals simp at hla

theorem altInvG_handleSelectionLoaded (m : Model) (pid : Int)
    (sel : ProviderSelection) (h : AltInvG m) :
    AltInvG (m.handleSelectionLoaded pid sel) := by
  simp only [Model.handleSelectionLoaded, getPS_ensurePS]
  split_ifs
  all_goals
    refine altInvG_of_pd _ _ rfl (altInvG_syncAltIdx _ _
      (altInvG_setPS _ _ _ (altInvG_ensurePS _ _ h) ?_))
  all_goals intro hla
  all_goals simp at hla ⊢
  all_goals exact h pid hla

theorem altInvG_handleSwitchCompleted (m : Model) (pid : Int)
    (sel : ProviderSelection) (h : AltInvG m) :
    AltInvG (m.handleSwitchCompleted pid sel).1 := by
  simp only [Model.handleSwitchCompleted, getPS_ensurePS]
  refine altInvG_of_pd _ _ rfl (altInvG_syncAltIdx _ _
    (altInvG_setPS _ _ _ (altInvG_ensurePS _ _ h) ?_))
  intro hla
  simp at hla ⊢
  exact h pid hla

theorem altInvG_handlePreferenceUpdated (m : Model) (pref : String)
    (h : AltInvG m) : AltInvG (m.handlePreferenceUpdated pref).1 := by
  simp only [Model.handlePreferenceUpdated]
  rcases m.profile with _ | p <;>
    exact altInvG_of_pd _ _ rfl
      (altInvG_syncBalancePreferenceIdx _ (altInvG_of_pd _ _ rfl h))

theorem altInvG_handleProviderLoadFailed (m : Model) (pid : Int)
    (target e : String) (h : AltInvG m) :
    AltInvG (m.handleProviderLoadFailed pid target e).1 := by
  simp only [Model.handleProviderLoadFailed, getPS_ensurePS]
  split_ifs
  all_goals
    refine altInvG_of_pd _ _ rfl
      (altInvG_setPS _ _ _ (altInvG_ensurePS _ _ h) ?_)
  all_goals intro hla
  all_goals simp at hla ⊢
  all_goals exact h pid hla

theorem altInvG_handleError (m : Model) (e : String) (h : AltInvG m) :
    AltInvG (m.handleError e).1 := by
  simp only [Model.handleError]
  split_ifs <;> exact altInvG_of_pd _ _ rfl h

theorem altInvG_handleQuitAndHelp (m : Model) (k : String) (h : AltInvG m) :
    AltInvG (m.handleQuitAndHelp k).1 := by
  unfold Model.handleQuitAndHelp
  split_ifs <;> first | exact h | exact altInvG_of_pd _ _ rfl h

theorem altInvG_handleTabChanged (m : Model) (h : AltInvG m) :
    AltInvG (m.handleTabChanged).1 := by
  unfold Model.handleTabChanged
  split_ifs
  · exact altInvG_ensureProvidersLoaded _ (altInvG_of_pd _ _ rfl h)
  · exact altInvG_syncBalancePreferenceIdx _ h
  · exact h

theorem altInvG_switchToNextTab (m : Model) (h : AltInvG m) :
    AltInvG (m.switchToNextTab).1 :=
  altInvG_handleTabChanged _ (altInvG_of_pd _ _ rfl h)

theorem altInvG_switchToPrevTab (m : Model) (h : AltInvG m) :
    AltInvG (m.switchToPrevTab).1 :=
  altInvG_handleTabChanged _ (altInvG_of_pd _ _ rfl h)

theorem altInvG_handleTabSwitch (m : Model) (k : String) (h : AltInvG m) :
    AltInvG (m.handleTabSwitch k).1 := by
  unfold Model.handleTabSwitch
  split_ifs <;>
    first
    | exact altInvG_of_pd _ _ rfl h
    | exact altInvG_ensureProvidersLoaded _ (altInvG_of_pd _ _ rfl h)
    | exact altInvG_syncBalancePreferenceIdx _ (altInvG_of_pd _ _ rfl h)
    | exact altInvG_switchToNextTab _ h
    | exact altInvG_switchToPrevTab _ h
    | exact h

theorem altInvG_handleFocusSwitch (m : Model) (k : String) (h : AltInvG m) :
    AltInvG (m.handleFocusSwitch k) := by
  unfold Model.handleFocusSwitch
  split_ifs <;>
    first
    | exact h
    | exact altInvG_of_pd _ _ rfl h
    | exact altInvG_syncAltIdx _ _ (altInvG_of_pd _ _ rfl h)

theorem altInvG_handleRefresh (m : Model) (k : String) (h : AltInvG m) :
    AltInvG (m.handleRefresh k).1 := by
  unfold Model.handleRefresh
  split_ifs <;>
    first
    | exact h
    | exact altInvG_refreshProfile _ h
    | exact altInvG_refreshCurrentProvider _ h

theorem altInvG_handleEnter (m : Model) (k : String) (h : AltInvG m) :
    AltInvG (m.handleEnter k).1 := by
  unfold Model.handleEnter
  split_ifs <;>
    first
    | exact h
    | exact altInvG_switchSelection _ h
    | exact altInvG_toggleBalancePreference _ h

theorem altInvG_handleNavigation (m : Model) (k : String) (h : AltInvG m) :
    AltInvG (m.handleNavigation k).1 := by
  simp only [Model.handleNavigation]
  split_ifs <;>
    first
    | exact h
    | exact altInvG_of_pd _ _ rfl h
    | exact altInvG_moveSelection _ _ h

theorem altInvG_handleKey (m : Model) (k : String) (h : AltInvG m) :
    AltInvG (m.handleKey k).1 := by
  simp only [Model.handleKey]
  split_ifs <;>
    first
    | exact h
    | exact altInvG_handleQuitAndHelp _ _ h
    | exact altInvG_handleTabSwitch _ _ (altInvG_handleQuitAndHelp _ _ h)
    | exact altInvG_handleRefresh _ _ (altInvG_handleFocusSwitch _ _
        (altInvG_handleTabSwitch _ _ (altInvG_handleQuitAndHelp _ _ h)))
    | exact altInvG_handleEnter _ _ (altInvG_handleRefresh _ _
        (altInvG_handleFocusSwitch _ _
          (altInvG_handleTabSwitch _ _ (altInvG_handleQuitAndHelp _ _ h))))
    | exact altInvG_handleNavigation _ _ (altInvG_handleEnter _ _
        (altInvG_handleRefresh _ _ (altInvG_handleFocusSwitch _ _
          (altInvG_handleTabSwitch _ _ (altInvG_handleQuitAndHelp _ _ h)))))

theorem altInvG_handleMouseWheel (m : Model) (d : Int) (h : AltInvG m) :
    AltInvG (m.handleMouseWheel d).1 := by
  unfold Model.handleMouseWheel
  split_ifs <;> first | exact h | exact altInvG_moveSelection _ _ h

theorem altInvG_handleTabClick (m : Model) (x : Int) (h : AltInvG m) :
    AltInvG (m.handleTabClick x).1 := by
  unfold Model.handleTabClick
  split_ifs <;>
    first
    | exact altInvG_of_pd _ _ rfl h
    | exact altInvG_ensureProvidersLoaded _ (altInvG_of_pd _ _ rfl h)
    | exact altInvG_syncBalancePreferenceIdx _ (altInvG_of_pd _ _ rfl h)

theorem altInvG_handleProvidersClick (m : Model) (x contentY : Int)
    (h : AltInvG m) : AltInvG (m.handleProvidersClick x contentY).1 := by
  simp only [Model.handleProvidersClick, getPS_ensurePS]
  split_ifs <;>
    first
    | exact h
    | exact altInvG_of_pd _ _ rfl h
    | exact altInvG_queueProviderDetailLoad _ _ (altInvG_of_pd _ _ rfl h)
    | exact altInvG_ensurePS _ _ (altInvG_of_pd _ _ rfl h)
    | exact altInvG_switchSelection _ (altInvG_of_pd _ _ rfl
        (altInvG_ensurePS _ _ (altInvG_of_pd _ _ rfl h)))
    | exact altInvG_syncAltIdx _ _
        (altInvG_ensurePS _ _ (altInvG_of_pd _ _ rfl h))

theorem altInvG_handleBalancePreferenceClick (m : Model) (contentY : Int)
    (h : AltInvG m) : AltInvG (m.handleBalancePreferenceClick contentY).1 := by
  unfold Model.handleBalancePreferenceClick
  split_ifs <;>
    first
    | exact h
    | exact altInvG_toggleBalancePreference _ (altInvG_of_pd _ _ rfl h)

theorem altInvG_handleContentClick (m : Model) (x y : Int) (h : AltInvG m) :
    AltInvG (m.handleContentClick x y).1 := by
  unfold Model.handleContentClick
  split_ifs <;>
    first
    | exact h
    | exact altInvG_handleProvidersClick _ _ _ h
    | exact altInvG_handleBalancePreferenceClick _ _ h

theorem altInvG_handleMouseClick (m : Model) (x y : Int) (h : AltInvG m) :
    AltInvG (m.handleMouseClick x y).1 := by
  unfold Model.handleMouseClick
  split_ifs <;>
    first
    | exact h
    | exact altInvG_handleTabClick _ _ h
    | exact altInvG_handleContentClick _ _ _ h

theorem altInvG_update (m : Model) (e : Msg) (h : AltInvG m) :
    AltInvG (update m e).1 := by
  cases e
  case key k => exact altInvG_handleKey _ _ h
  case wheelUp => exact altInvG_handleMouseWheel _ _ h
  case wheelDown => exact altInvG_handleMouseWheel _ _ h
  case leftClick x y => exact altInvG_handleMouseClick _ _ _ h
  case windowSize w hh => exact altInvG_of_pd _ _ rfl h
  case profileLoaded p => exact altInvG_of_pd _ _ rfl h
  case providersLoaded r => exact altInvG_handleProvidersLoaded _ _ h
  case alternativesLoaded pid alts => exact altInvG_handleAlternativesLoaded _ _ _ h
  case selectionLoaded pid sel => exact altInvG_handleSelectionLoaded _ _ _ h
  case switchCompleted pid sel => exact altInvG_handleSwitchCompleted _ _ _ h
  case preferenceUpdated pref => exact altInvG_handlePreferenceUpdated _ _ h
  case preferenceFailed e => exact altInvG_of_pd _ _ rfl h
  case providerLoadFailed pid target e => exact altInvG_handleProviderLoadFailed _ _ _ _ h
  case errMsg e => exact altInvG_handleError _ _ h
  case clearStatus => exact altInvG_of_pd _ _ rfl h
  case profileRefreshTick => exact h

theorem altInvG_initModel : AltInvG initModel := by
  intro id hla
  simp [initModel, Model.getPS, getMap] at hla

theorem altInvG_runSys (msgs : List Msg) (s0 s : Sys) (h0 : AltInvG s0.model)
    (hr : runSys s0 msgs = some s) : AltInvG s.model := by
  induction msgs generalizing s0 with
  | nil =>
    simp only [runSys, Option.some.injEq] at hr
    rwa [← hr]
  | cons e es ih =>
    simp only [runSys] at hr
    cases hstep : stepSys s0 e <;> rw [hstep] at hr
    · simp at hr
    · simp only [Option.some_bind] at hr
      refine ih _ ?_ hr
      rw [stepSys_model s0 e _ hstep]
      exact altInvG_update _ _ h0

/-! ## Switch serialization machinery -/

/-! ### getPS-preserving handlers -/

theorem syncAltIdx_getMap (m : Model) (pid k : Int) :
    getMap (m.syncAltIdx pid).providerData k = getMap m.providerData k :=
  syncAltIdx_getPS m pid k

theorem ensureProvidersLoaded_getPS (m : Model) (k : Int) :
    (m.ensureProvidersLoaded).1.getPS k = m.getPS k := by
  unfold Model.ensureProvidersLoaded
  split_ifs <;> rfl

theorem syncBalancePreferenceIdx_getPS (m : Model) (k : Int) :
    m.syncBalancePreferenceIdx.getPS k = m.getPS k := by
  unfold Model.syncBalancePreferenceIdx
  rcases m.profile with _ | p
  · rfl
  · simp only []
    split_ifs <;> rfl

theorem refreshProfile_getPS (m : Model) (k : Int) :
    (m.refreshProfile).1.getPS k = m.getPS k := rfl

theorem toggleBalancePreference_getPS (m : Model) (k : Int) :
    (m.toggleBalancePreference).1.getPS k = m.getPS k := by
  unfold Model.toggleBalancePreference
  rcases m.profile with _ | p
  · rfl
  · simp only []
    split_ifs <;> rfl

theorem handleQuitAndHelp_getPS (m : Model) (ks : String) (k : Int) :
    (m.handleQuitAndHelp ks).1.getPS k = m.getPS k := by
  unfold Model.handleQuitAndHelp
  split_ifs <;> rfl

theorem handleTabChanged_getPS (m : Model) (k : Int) :
    (m.handleTabChanged).1.getPS k = m.getPS k := by
  unfold Model.handleTabChanged
  split_ifs
  · exact ensureProvidersLoaded_getPS _ _
  · exact syncBalancePreferenceIdx_getPS _ _
  · rfl

theorem switchToNextTab_getPS (m : Model) (k : Int) :
    (m.switchToNextTab).1.getPS k = m.getPS k :=
  handleTabChanged_getPS _ _

theorem switchToPrevTab_getPS (m : Model) (k : Int) :
    (m.switchToPrevTab).1.getPS k = m.getPS k :=
  handleTabChanged_getPS _ _

theorem handleTabSwitch_getPS (m : Model) (ks : String) (k : Int) :
    (m.handleTabSwitch ks).1.getPS k = m.getPS k := by
  unfold Model.handleTabSwitch
  split_ifs <;>
    first
    | rfl
    | exact ensureProvidersLoaded_getPS _ _
    | exact syncBalancePreferenceIdx_getPS _ _
    | exact switchToNextTab_getPS _ _
    | exact switchToPrevTab_getPS _ _

theorem handleFocusSwitch_getPS (m : Model) (ks : String) (k : Int) :
    (m.handleFocusSwitch ks).getPS k = m.getPS k := by
  unfold Model.handleFocusSwitch
  split_ifs <;> first | rfl | exact syncAltIdx_getPS _ _ _

theorem handleTabClick_getPS (m : Model) (x k : Int) :
    (m.handleTabClick x).1.getPS k = m.getPS k := by
  unfold Model.handleTabClick
  split_ifs <;>
    first
    | rfl
    | exact ensureProvidersLoaded_getPS _ _
    | exact syncBalancePreferenceIdx_getPS _ _

theorem handleBalancePreferenceClick_getPS (m : Model) (contentY k : Int) :
    (m.handleBalancePreferenceClick contentY).1.getPS k = m.getPS k := by
  unfold Model.handleBalancePreferenceClick
  split_ifs <;> first | rfl | exact toggleBalancePreference_getPS _ _

theorem handlePreferenceUpdated_getPS (m : Model) (pref : String) (k : Int) :
    (m.handlePreferenceUpdated pref).1.getPS k = m.getPS k := by
  simp only [Model.handlePreferenceUpdated]
  rcases m.profile with _ | p <;> exact syncBalancePreferenceIdx_getPS _ _

theorem handleError_getPS (m : Model) (e : String) (k : Int) :
    (m.handleError e).1.getPS k = m.getPS k := by
  simp only [Model.handleError]
  split_ifs <;> rfl

/-! ### Commands of the pure handlers carry no provider-scoped request -/

theorem ensureProvidersLoaded_cmds (m : Model) :
    ∀ c ∈ (m.ensureProvidersLoaded).2, c = Cmd.loadProviders := by
  unfold Model.ensureProvidersLoaded
  split_ifs <;> simp

theorem toggleBalancePreference_cmds (m : Model) :
    ∀ c ∈ (m.toggleBalancePreference).2, ∃ t, c = Cmd.updatePreference t := by
  unfold Model.toggleBalancePreference
  rcases m.profile with _ | p
  · simp
  · simp only []
    split_ifs <;> simp

theorem handleQuitAndHelp_cmds (m : Model) (ks : String) :
    ∀ c ∈ (m.handleQuitAndHelp ks).2, c = Cmd.quit := by
  unfold Model.handleQuitAndHelp
  split_ifs <;> simp

theorem handleTabChanged_cmds (m : Model) :
    ∀ c ∈ (m.handleTabChanged).2, c = Cmd.loadProviders := by
  unfold Model.handleTabChanged
  split_ifs <;> first | exact ensureProvidersLoaded_cmds _ | simp

theorem handleTabSwitch_cmds (m : Model) (ks : String) :
    ∀ c ∈ (m.handleTabSwitch ks).2, c = Cmd.loadProviders := by
  unfold Model.handleTabSwitch Model.switchToNextTab Model.switchToPrevTab
  split_ifs <;>
    first
    | exact ensureProvidersLoaded_cmds _
    | exact handleTabChanged_cmds _
    | simp

theorem handleTabClick_cmds (m : Model) (x : Int) :
    ∀ c ∈ (m.handleTabClick x).2, c = Cmd.loadProviders := by
  unfold Model.handleTabClick
  split_ifs <;> first | exact ensureProvidersLoaded_cmds _ | simp

theorem queue_cmds (m : Model) (pid : Int) :
    ∀ c ∈ (m.queueProviderDetailLoad pid).2,
      c = Cmd.loadAlternatives pid ∨ c = Cmd.loadSelection pid := by
  simp only [Model.queueProviderDetailLoad]
  split_ifs <;> intro c hc <;> simp at hc <;>
    first
    | (subst hc; simp)
    | (rcases hc with hc | hc <;> subst hc <;> simp)

theorem refreshCurrentProvider_cmds (m : Model) :
    ∀ c ∈ (m.refreshCurrentProvider).2,
      ∃ q, c = Cmd.loadAlternatives q ∨ c = Cmd.loadSelection q := by
  simp only [Model.refreshCurrentProvider]
  split_ifs
  · simp
  · intro c hc
    exact ⟨_, queue_cmds _ _ c hc⟩

/-! ### SwitchStep combinators -/

theorem switchStep_of_frame (m m2 : Model) (cs : List Cmd)
    (hf : ∀ i, ((m2.getPS i)).switching = ((m.getPS i)).switching)
    (hc : ∀ c ∈ cs, ∀ i, swCntP i c = false) : SwitchStep m m2 cs := by
  intro i
  left
  constructor
  · rw [List.countP_eq_zero]
    intro c hcm
    simp [hc c hcm i]
  · exact hf i

theorem switchStep_id (m m2 : Model)
    (hf : ∀ i, ((m2.getPS i)).switching = ((m.getPS i)).switching) :
    SwitchStep m m2 [] :=
  switchStep_of_frame m m2 [] hf (by simp)

theorem switchStep_trans (m0 m1 m2 : Model) (cs1 cs2 : List Cmd)
    (h1 : SwitchStep m0 m1 cs1) (h2 : SwitchStep m1 m2 cs2) :
    SwitchStep m0 m2 (cs1 ++ cs2) := by
  intro i
  rcases h1 i with ⟨a1, b1⟩ | ⟨a1, b1, c1⟩ <;> rcases h2 i with ⟨a2, b2⟩ | ⟨a2, b2, c2⟩
  · exact Or.inl ⟨by simp [List.countP_append, a1, a2], by rw [b2, b1]⟩
  · refine Or.inr ⟨by simp [List.countP_append, a1, a2], ?_, c2⟩
    rw [← b1]; exact b2
  · exact Or.inr ⟨by simp [List.countP_append, a1, a2], b1, by rw [b2, c1]⟩
  · rw [c1] at b2; simp at b2

theorem switchStep_pre (m0 m1 m2 : Model) (cs : List Cmd)
    (hf : ∀ i, ((m1.getPS i)).switching = ((m0.getPS i)).switching)
    (h : SwitchStep m1 m2 cs) : SwitchStep m0 m2 cs := by
  have := switchStep_trans m0 m1 m2 [] cs (switchStep_id _ _ hf) h
  simpa using this

/-! ### Switching-flag frames of the entry-mutating helpers -/

theorem queueProviderDetailLoad_getPS_switching (m : Model) (pid i : Int) :
    (((m.queueProviderDetailLoad pid).1).getPS i).switching =
      ((m.getPS i)).switching := by
  by_cases h0 : pid = 0
  · subst h0
    simp [Model.queueProviderDetailLoad]
  · by_cases hi : i = pid
    · subst hi
      have hm : ∀ s2, getMap (setMap (ensureMap m.providerData i) i s2) i = s2 :=
        fun s2 => getMap_setMap_same _ _ _ h0
      simp only [Model.queueProviderDetailLoad, getPS_ensurePS]
      rw [if_neg h0]
      split_ifs <;> simp [Model.getPS, syncAltIdx_getMap, hm]
    · have hgs : ∀ pd s, getMap (setMap pd pid s) i = getMap pd i :=
        fun pd s => getMap_setMap_ne pd pid i s hi
      simp only [Model.queueProviderDetailLoad, getPS_ensurePS]
      rw [if_neg h0]
      split_ifs <;> simp [Model.getPS, syncAltIdx_getMap, hgs]

theorem refreshCurrentProvider_getPS_switching (m : Model) (i : Int) :
    (((m.refreshCurrentProvider).1).getPS i).switching =
      ((m.getPS i)).switching := by
  simp only [Model.refreshCurrentProvider, getPS_ensurePS]
  split_ifs with hp
  · rfl
  · rw [queueProviderDetailLoad_getPS_switching]
    by_cases h0 : m.currentProviderID = 0
    · rw [h0, setPS_zero_model, ensurePS_zero_model]
    · by_cases hi : i = m.currentProviderID
      · subst hi
        have hm : ∀ s2, getMap (setMap (ensureMap m.providerData m.currentProviderID)
            m.currentProviderID s2) m.currentProviderID = s2 :=
          fun s2 => getMap_setMap_same _ _ _ h0
        simp [Model.getPS, hm]
      · have hgs : ∀ pd s, getMap (setMap pd m.currentProviderID s) i = getMap pd i :=
          fun pd s => getMap_setMap_ne pd _ i s hi
        simp [Model.getPS, hgs]

/-! ### SwitchStep for every input handler -/

theorem sw_queue (m : Model) (pid : Int) :
    SwitchStep m (m.queueProviderDetailLoad pid).1 (m.queueProviderDetailLoad pid).2 := by
  refine switchStep_of_frame _ _ _
    (fun i => queueProviderDetailLoad_getPS_switching m pid i) ?_
  intro c hc i
  rcases queue_cmds m pid c hc with h | h <;> subst h <;> rfl

theorem sw_ensureProvidersLoaded (m : Model) :
    SwitchStep m (m.ensureProvidersLoaded).1 (m.ensureProvidersLoaded).2 := by
  refine switchStep_of_frame _ _ _
    (fun i => congrArg ProviderState.switching (ensureProvidersLoaded_getPS m i)) ?_
  intro c hc i
  rw [ensureProvidersLoaded_cmds m c hc]
  rfl

theorem sw_moveSelection (m : Model) (d : Int) :
    SwitchStep m (m.moveSelection d).1 (m.moveSelection d).2 := by
  simp only [Model.moveSelection]
  split_ifs
  · exact switchStep_id _ _ (fun i => rfl)
  · refine switchStep_pre _ _ _ _ ?_ (sw_queue _ _)
    intro i
    exact congrArg ProviderState.switching (syncAltIdx_getPS _ _ i)
  · exact switchStep_id _ _
      (fun i => congrArg ProviderState.switching (getPS_ensurePS _ _ i))
  · exact switchStep_id _ _
      (fun i => congrArg ProviderState.switching (getPS_ensurePS _ _ i))

theorem sw_switchSelection (m : Model) :
    SwitchStep m (m.switchSelection).1 (m.switchSelection).2 := by
  by_cases hprov : m.providers = []
  · simp only [Model.switchSelection, if_pos hprov]
    exact switchStep_id _ _ (fun i => rfl)
  · simp only [Model.switchSelection, if_neg hprov, getPS_ensurePS]
    split_ifs with h1 h2 h3
    · exact switchStep_id _ _
        (fun i => congrArg ProviderState.switching (getPS_ensurePS _ _ i))
    · exact switchStep_id _ _
        (fun i => congrArg ProviderState.switching (getPS_ensurePS _ _ i))
    · exact switchStep_id _ _
        (fun i => congrArg ProviderState.switching (getPS_ensurePS _ _ i))
    · push_neg at h1
      have halts : (m.getPS m.currentProviderID).alternatives ≠ [] := h1.2.2
      have h0 : m.currentProviderID ≠ 0 := fun hz => by
        rw [hz, getPS_zero] at halts; exact halts rfl
      have hsw : (m.getPS m.currentProviderID).switching = false := by
        simpa using h1.1
      intro i
      by_cases hi : i = m.currentProviderID
      · subst hi
        right
        have hm : ∀ s2, getMap (setMap (ensureMap m.providerData m.currentProviderID)
            m.currentProviderID s2) m.currentProviderID = s2 :=
          fun s2 => getMap_setMap_same _ _ _ h0
        refine ⟨by simp [List.countP_cons, swCntP], hsw, ?_⟩
        simp [Model.getPS, hm]
      · left
        have hgs : ∀ pd s, getMap (setMap pd m.currentProviderID s) i = getMap pd i :=
          fun pd s => getMap_setMap_ne pd _ i s hi
        constructor
        · simp only [List.countP_cons, List.countP_nil, swCntP]
          simp
          exact fun hh => hi hh.symm
        · simp [Model.getPS, hgs]

theorem sw_toggleBalancePreference (m : Model) :
    SwitchStep m (m.toggleBalancePreference).1 (m.toggleBalancePreference).2 := by
  refine switchStep_of_frame _ _ _
    (fun i => congrArg ProviderState.switching (toggleBalancePreference_getPS m i)) ?_
  intro c hc i
  obtain ⟨t, ht⟩ := toggleBalancePreference_cmds m c hc
  subst ht
  rfl

theorem sw_refreshProfile (m : Model) :
    SwitchStep m (m.refreshProfile).1 (m.refreshProfile).2 := by
  refine switchStep_of_frame _ _ _ (fun i => rfl) ?_
  intro c hc i
  simp [Model.refreshProfile] at hc
  subst hc
  rfl

theorem sw_refreshCurrentProvider (m : Model) :
    SwitchStep m (m.refreshCurrentProvider).1 (m.refreshCurrentProvider).2 := by
  refine switchStep_of_frame _ _ _
    (fun i => refreshCurrentProvider_getPS_switching m i) ?_
  intro c hc i
  obtain ⟨q, hq⟩ := refreshCurrentProvider_cmds m c hc
  rcases hq with h | h <;> subst h <;> rfl

theorem sw_handleQuitAndHelp (m : Model) (ks : String) :
    SwitchStep m (m.handleQuitAndHelp ks).1 (m.handleQuitAndHelp ks).2 := by
  refine switchStep_of_frame _ _ _
    (fun i => congrArg ProviderState.switching (handleQuitAndHelp_getPS m ks i)) ?_
  intro c hc i
  rw [handleQuitAndHelp_cmds m ks c hc]
  rfl

theorem sw_handleTabSwitch (m : Model) (ks : String) :
    SwitchStep m (m.handleTabSwitch ks).1 (m.handleTabSwitch ks).2 := by
  refine switchStep_of_frame _ _ _
    (fun i => congrArg ProviderState.switching (handleTabSwitch_getPS m ks i)) ?_
  intro c hc i
  rw [handleTabSwitch_cmds m ks c hc]
  rfl

theorem sw_handleRefresh (m : Model) (ks : String) :
    SwitchStep m (m.handleRefresh ks).1 (m.handleRefresh ks).2 := by
  unfold Model.handleRefresh
  split_ifs
  · exact switchStep_id _ _ (fun i => rfl)
  · exact sw_refreshProfile _
  · exact sw_refreshCurrentProvider _
  · exact switchStep_id _ _ (fun i => rfl)

theorem sw_handleEnter (m : Model) (ks : String) :
    SwitchStep m (m.handleEnter ks).1 (m.handleEnter ks).2 := by
  unfold Model.handleEnter
  split_ifs <;>
    first
    | exact switchStep_id _ _ (fun i => rfl)
    | exact sw_switchSelection _
    | exact sw_toggleBalancePreference _

theorem sw_handleNavigation (m : Model) (ks : String) :
    SwitchStep m (m.handleNavigation ks).1 (m.handleNavigation ks).2 := by
  simp only [Model.handleNavigation]
  split_ifs <;>
    first
    | exact switchStep_id _ _ (fun i => rfl)
    | exact sw_moveSelection _ _

theorem handleRefresh_getPS_switching (m : Model) (ks : String) (i : Int) :
    ((m.handleRefresh ks).1.getPS i).switching = ((m.getPS i)).switching := by
  unfold Model.handleRefresh
  split_ifs <;> first | rfl | exact refreshCurrentProvider_getPS_switching _ _

theorem sw_handleKey (m : Model) (ks : String) :
    SwitchStep m (m.handleKey ks).1 (m.handleKey ks).2 := by
  simp only [Model.handleKey]
  split_ifs with hcc h1 h2 h3 h4
  · exact switchStep_of_frame _ _ _ (fun i => rfl) (by simp [swCntP])
  · exact sw_handleQuitAndHelp _ _
  · refine switchStep_pre _ _ _ _
      (fun i => congrArg ProviderState.switching (handleQuitAndHelp_getPS m ks i)) ?_
    exact sw_handleTabSwitch _ _
  · refine switchStep_pre _ _ _ _
      (fun i => congrArg ProviderState.switching (handleQuitAndHelp_getPS m ks i)) ?_
    refine switchStep_pre _ _ _ _
      (fun i => congrArg ProviderState.switching (handleTabSwitch_getPS _ ks i)) ?_
    refine switchStep_pre _ _ _ _
      (fun i => congrArg ProviderState.switching (handleFocusSwitch_getPS _ ks i)) ?_
    exact sw_handleRefresh _ _
  · refine switchStep_pre _ _ _ _
      (fun i => congrArg ProviderState.switching (handleQuitAndHelp_getPS m ks i)) ?_
    refine switchStep_pre _ _ _ _
      (fun i => congrArg ProviderState.switching (handleTabSwitch_getPS _ ks i)) ?_
    refine switchStep_pre _ _ _ _
      (fun i => congrArg ProviderState.switching (handleFocusSwitch_getPS _ ks i)) ?_
    refine switchStep_pre _ _ _ _
      (fun i => handleRefresh_getPS_switching _ ks i) ?_
    exact sw_handleEnter _ _
  · refine switchStep_pre _ _ _ _
      (fun i => congrArg ProviderState.switching (handleQuitAndHelp_getPS m ks i)) ?_
    refine switchStep_pre _ _ _ _
      (fun i => congrArg ProviderState.switching (handleTabSwitch_getPS _ ks i)) ?_
    refine switchStep_pre _ _ _ _
      (fun i => congrArg ProviderState.switching (handleFocusSwitch_getPS _ ks i)) ?_
    refine switchStep_pre _ _ _ _
      (fun i => handleRefresh_getPS_switching _ ks i) ?_
    simp only [ne_eq, not_not] at h4
    have := switchStep_trans _ _ _ _ _ (sw_handleEnter
      ((((m.handleQuitAndHelp ks).1.handleTabSwitch ks).1.handleFocusSwitch
          ks).handleRefresh ks).1 ks) (sw_handleNavigation _ ks)
    rw [h4] at this
    simpa using this

theorem sw_handleMouseWheel (m : Model) (d : Int) :
    SwitchStep m (m.handleMouseWheel d).1 (m.handleMouseWheel d).2 := by
  unfold Model.handleMouseWheel
  split_ifs <;> first
    | exact switchStep_id _ _ (fun i => rfl)
    | exact sw_moveSelection _ _

theorem sw_handleTabClick (m : Model) (x : Int) :
    SwitchStep m (m.handleTabClick x).1 (m.handleTabClick x).2 := by
  refine switchStep_of_frame _ _ _
    (fun i => congrArg ProviderState.switching (handleTabClick_getPS m x i)) ?_
  intro c hc i
  rw [handleTabClick_cmds m x c hc]
  rfl

theorem sw_handleProvidersClick (m : Model) (x contentY : Int) :
    SwitchStep m (m.handleProvidersClick x contentY).1
      (m.handleProvidersClick x contentY).2 := by
  simp only [Model.handleProvidersClick]
  split_ifs <;>
    first
    | exact switchStep_id _ _ (fun i => rfl)
    | exact switchStep_pre _ _ _ _ (fun i => rfl) (sw_queue _ _)
    | exact switchStep_id _ _
        (fun i => congrArg ProviderState.switching (getPS_ensurePS _ _ i))
    | exact switchStep_pre _ _ _ _
        (fun i => congrArg ProviderState.switching (getPS_ensurePS _ _ i))
        (sw_switchSelection _)
    | exact switchStep_id _ _
        (fun i => congrArg ProviderState.switching
          (Eq.trans (syncAltIdx_getPS _ _ i) (getPS_ensurePS _ _ i)))

theorem sw_handleBalancePreferenceClick (m : Model) (contentY : Int) :
    SwitchStep m (m.handleBalancePreferenceClick contentY).1
      (m.handleBalancePreferenceClick contentY).2 := by
  unfold Model.handleBalancePreferenceClick
  split_ifs <;>
    first
    | exact switchStep_id _ _ (fun i => rfl)
    | exact switchStep_pre _ _ _ _ (fun i => rfl) (sw_toggleBalancePreference _)

theorem sw_handleContentClick (m : Model) (x y : Int) :
    SwitchStep m (m.handleContentClick x y).1 (m.handleContentClick x y).2 := by
  unfold Model.handleContentClick
  split_ifs <;>
    first
    | exact switchStep_id _ _ (fun i => rfl)
    | exact sw_handleProvidersClick _ _ _
    | exact sw_handleBalancePreferenceClick _ _

theorem sw_handleMouseClick (m : Model) (x y : Int) :
    SwitchStep m (m.handleMouseClick x y).1 (m.handleMouseClick x y).2 := by
  unfold Model.handleMouseClick
  split_ifs <;>
    first
    | exact switchStep_id _ _ (fun i => rfl)
    | exact sw_handleTabClick _ _
    | exact sw_handleContentClick _ _ _

theorem sw_handleProvidersLoaded (m : Model) (r : ProvidersResponse) :
    SwitchStep m (m.handleProvidersLoaded r).1 (m.handleProvidersLoaded r).2 := by
  simp only [Model.handleProvidersLoaded]
  split_ifs <;>
    first
    | exact switchStep_id _ _ (fun i => rfl)
    | exact switchStep_pre _ _ _ _ (fun i => rfl) (sw_queue _ _)

/-! ### Switching-flag behaviour of the completion handlers -/

theorem handleAlternativesLoaded_getPS_switching (m : Model) (pid : Int)
    (alts : List AlternativeOption) (i : Int) :
    ((m.handleAlternativesLoaded pid alts).getPS i).switching =
      ((m.getPS i)).switching := by
  by_cases h0 : pid = 0
  · subst h0
    simp only [Model.handleAlternativesLoaded, getPS_ensurePS]
    split_ifs <;>
      simp [Model.getPS, syncAltIdx_getMap, setMap_zero, ensureMap_zero]
  · by_cases hi : i = pid
    · subst hi
      have hm : ∀ s2, getMap (setMap (ensureMap m.providerData i) i s2) i = s2 :=
        fun s2 => getMap_setMap_same _ _ _ h0
      simp only [Model.handleAlternativesLoaded, getPS_ensurePS]
      split_ifs <;> simp [Model.getPS, syncAltIdx_getMap, hm]
    · have hgs : ∀ pd s, getMap (setMap pd pid s) i = getMap pd i :=
        fun pd s => getMap_setMap_ne pd pid i s hi
      simp only [Model.handleAlternativesLoaded, getPS_ensurePS]
      split_ifs <;> simp [Model.getPS, syncAltIdx_getMap, hgs]

theorem handleSelectionLoaded_getPS_switching (m : Model) (pid : Int)
    (sel : ProviderSelection) (i : Int) :
    ((m.handleSelectionLoaded pid sel).getPS i).switching =
      ((m.getPS i)).switching := by
  by_cases h0 : pid = 0
  · subst h0
    simp only [Model.handleSelectionLoaded, getPS_ensurePS]
    split_ifs <;>
      simp [Model.getPS, syncAltIdx_getMap, setMap_zero, ensureMap_zero]
  · by_cases hi : i = pid
    · subst hi
      have hm : ∀ s2, getMap (setMap (ensureMap m.providerData i) i s2) i = s2 :=
        fun s2 => getMap_setMap_same _ _ _ h0
      simp only [Model.handleSelectionLoaded, getPS_ensurePS]
      split_ifs <;> simp [Model.getPS, syncAltIdx_getMap, hm]
    · have hgs : ∀ pd s, getMap (setMap pd pid s) i = getMap pd i :=
        fun pd s => getMap_setMap_ne pd pid i s hi
      simp only [Model.handleSelectionLoaded, getPS_ensurePS]
      split_ifs <;> simp [Model.getPS, syncAltIdx_getMap, hgs]

theorem handleSwitchCompleted_switching_self (m : Model) (pid : Int)
    (sel : ProviderSelection) :
    (((m.handleSwitchCompleted pid sel).1).getPS pid).switching = false := by
  by_cases h0 : pid = 0
  · subst h0
    simp [getPS_zero]
  · have hm : ∀ s2, getMap (setMap (ensureMap m.providerData pid) pid s2) pid = s2 :=
      fun s2 => getMap_setMap_same _ _ _ h0
    simp only [Model.handleSwitchCompleted, getPS_ensurePS]
    simp [Model.getPS, syncAltIdx_getMap, hm]

theorem handleSwitchCompleted_getPS_ne (m : Model) (pid : Int)
    (sel : ProviderSelection) (i : Int) (hi : i ≠ pid) :
    ((m.handleSwitchCompleted pid sel).1).getPS i = m.getPS i := by
  unfold Model.getPS getMap
  rw [handleSwitchCompleted_frame m pid i sel hi]

theorem handleProviderLoadFailed_getPS_switching (m : Model) (pid : Int)
    (target e : String) (ht : target ≠ "switch") (i : Int) :
    (((m.handleProviderLoadFailed pid target e).1).getPS i).switching =
      ((m.getPS i)).switching := by
  by_cases h0 : pid = 0
  · subst h0
    simp only [Model.handleProviderLoadFailed, getPS_ensurePS]
    split_ifs <;>
      simp [Model.getPS, setMap_zero, ensureMap_zero]
  · by_cases hi : i = pid
    · subst hi
      have hm : ∀ s2, getMap (setMap (ensureMap m.providerData i) i s2) i = s2 :=
        fun s2 => getMap_setMap_same _ _ _ h0
      simp only [Model.handleProviderLoadFailed, getPS_ensurePS]
      split_ifs with t1 t2 t3 <;>
        first
        | (exact absurd t3 ht)
        | simp [Model.getPS, hm]
    · have hgs : ∀ pd s, getMap (setMap pd pid s) i = getMap pd i :=
        fun pd s => getMap_setMap_ne pd pid i s hi
      simp only [Model.handleProviderLoadFailed, getPS_ensurePS]
      split_ifs <;> simp [Model.getPS, hgs]

theorem handleProviderLoadFailed_switching_self (m : Model) (pid : Int)
    (e : String) :
    (((m.handleProviderLoadFailed pid "switch" e).1).getPS pid).switching = false := by
  by_cases h0 : pid = 0
  · subst h0
    simp [getPS_zero]
  · have hm : ∀ s2, getMap (setMap (ensureMap m.providerData pid) pid s2) pid = s2 :=
      fun s2 => getMap_setMap_same _ _ _ h0
    simp only [Model.handleProviderLoadFailed, getPS_ensurePS]
    split_ifs with t1 t2
    · exact absurd t1 (by decide)
    · exact absurd t2 (by decide)
    · simp [Model.getPS, hm]

theorem handleProviderLoadFailed_getPS_ne (m : Model) (pid : Int)
    (target e : String) (i : Int) (hi : i ≠ pid) :
    ((m.handleProviderLoadFailed pid target e).1).getPS i = m.getPS i := by
  unfold Model.getPS getMap
  rw [handleProviderLoadFailed_frame m pid i target e hi]

/-! ### Shapes of consumed commands -/

theorem swCntP_shape (pid : Int) (c : Cmd) (h : swCntP pid c = true) :
    ∃ a, c = Cmd.switchProvider pid a := by
  cases c <;> simp [swCntP] at h ⊢
  exact h

/-! ### Cheap command lists of the completion handlers -/

theorem handleSwitchCompleted_cmds (m : Model) (pid : Int) (sel : ProviderSelection) :
    (m.handleSwitchCompleted pid sel).2 = [Cmd.clearStatusAfter statusClearDelay] := rfl

theorem handlePreferenceUpdated_cmds (m : Model) (pref : String) :
    (m.handlePreferenceUpdated pref).2 = [Cmd.clearStatusAfter statusClearDelay] := rfl

theorem handlePreferenceFailed_cmds (m : Model) (e : String) :
    (m.handlePreferenceFailed e).2 = [Cmd.clearStatusAfter errorClearDelay] := rfl

theorem handleProviderLoadFailed_cmds (m : Model) (pid : Int) (target e : String) :
    (m.handleProviderLoadFailed pid target e).2 =
      [Cmd.clearStatusAfter errorClearDelay] := rfl

theorem handleError_cmds (m : Model) (e : String) :
    (m.handleError e).2 = [Cmd.clearStatusAfter errorClearDelay] := rfl

theorem handleProfileRefreshTick_cmds (m : Model) :
    ∀ c ∈ m.handleProfileRefreshTick,
      c = Cmd.loadProfile ∨ c = Cmd.profileRefreshTick := by
  unfold Model.handleProfileRefreshTick
  split_ifs <;> intro c hc <;> simp at hc <;> tauto

/-! ### Per-event switch bookkeeping at the system level -/

theorem stepSys_none (s : Sys) (e : Msg) (hc : msgConsumes e = none) :
    stepSys s e = some ⟨(update s.model e).1, s.pending ++ (update s.model e).2⟩ := by
  unfold stepSys
  rw [hc]

theorem stepSys_some_inv (s : Sys) (e : Msg) (s2 : Sys) (p : Cmd → Bool)
    (hc : msgConsumes e = some p) (hs : stepSys s e = some s2) :
    ∃ rest, consume1 p s.pending = some rest ∧
      s2 = ⟨(update s.model e).1, rest ++ (update s.model e).2⟩ := by
  unfold stepSys at hs
  simp only [hc] at hs
  rcases hcons : consume1 p s.pending with _ | rest <;> rw [hcons] at hs
  · simp at hs
  · simp only [Option.map_some', Option.some.injEq] at hs
    exact ⟨rest, rfl, hs.symm⟩

theorem switchInvS_append (m : Model) (l : List Cmd) (m2 : Model) (cs : List Cmd)
    (h : SwitchInvS ⟨m, l⟩) (hstep : SwitchStep m m2 cs) :
    SwitchInvS ⟨m2, l ++ cs⟩ := by
  intro i
  obtain ⟨hle, hz⟩ := h i
  rcases hstep i with ⟨a, b⟩ | ⟨a, b, c⟩
  · constructor
    · simp only [pendSwitch, List.countP_append] at *
      omega
    · intro hf
      rw [b] at hf
      have := hz hf
      simp only [pendSwitch, List.countP_append] at *
      omega
  · constructor
    · have := hz b
      simp only [pendSwitch, List.countP_append] at *
      omega
    · intro hf
      rw [hf] at c
      simp at c

theorem switchInvS_pendEq (m : Model) (l l2 : List Cmd)
    (h : SwitchInvS ⟨m, l⟩)
    (hc : ∀ i, List.countP (swCntP i) l2 = List.countP (swCntP i) l) :
    SwitchInvS ⟨m, l2⟩ := by
  intro i
  obtain ⟨hle, hz⟩ := h i
  constructor
  · simp only [pendSwitch] at *
    rw [hc i]
    exact hle
  · intro hf
    simp only [pendSwitch] at *
    rw [hc i]
    exact hz hf

theorem switchInvS_consume_other (m : Model) (l rest : List Cmd) (p : Cmd → Bool)
    (m2 : Model) (cs : List Cmd) (h : SwitchInvS ⟨m, l⟩)
    (hcons : consume1 p l = some rest)
    (hp : ∀ c, p c = true → ∀ i, swCntP i c = false)
    (hstep : SwitchStep m m2 cs) : SwitchInvS ⟨m2, rest ++ cs⟩ := by
  refine switchInvS_append m rest m2 cs ?_ hstep
  refine switchInvS_pendEq m l rest h ?_
  intro i
  exact consume1_countP_drop p (swCntP i) l rest hcons (fun c hpc => hp c hpc i)

theorem switchInvS_stepSys (s s2 : Sys) (e : Msg) (h : SwitchInvS s)
    (hs : stepSys s e = some s2) : SwitchInvS s2 := by
  cases e with
  | key k =>
    rw [stepSys_none s (Msg.key k) rfl] at hs
    injection hs with hs
    subst hs
    exact switchInvS_append _ _ _ _ h (sw_handleKey _ _)
  | wheelUp =>
    rw [stepSys_none s Msg.wheelUp rfl] at hs
    injection hs with hs
    subst hs
    exact switchInvS_append _ _ _ _ h (sw_handleMouseWheel _ _)
  | wheelDown =>
    rw [stepSys_none s Msg.wheelDown rfl] at hs
    injection hs with hs
    subst hs
    exact switchInvS_append _ _ _ _ h (sw_handleMouseWheel _ _)
  | leftClick x y =>
    rw [stepSys_none s (Msg.leftClick x y) rfl] at hs
    injection hs with hs
    subst hs
    exact switchInvS_append _ _ _ _ h (sw_handleMouseClick _ _ _)
  | windowSize w hh =>
    rw [stepSys_none s (Msg.windowSize w hh) rfl] at hs
    injection hs with hs
    subst hs
    exact switchInvS_append _ _ _ _ h (switchStep_id _ _ (fun i => rfl))
  | profileLoaded p =>
    obtain ⟨rest, hcons, hrw⟩ := stepSys_some_inv s (Msg.profileLoaded p) s2 _ rfl hs
    subst hrw
    refine switchInvS_consume_other _ _ _ _ _ _ h hcons ?_
      (switchStep_id _ _ (fun i => rfl))
    intro c hpc i
    cases c <;> simp_all [swCntP]
  | providersLoaded r =>
    obtain ⟨rest, hcons, hrw⟩ := stepSys_some_inv s (Msg.providersLoaded r) s2 _ rfl hs
    subst hrw
    refine switchInvS_consume_other _ _ _ _ _ _ h hcons ?_
      (sw_handleProvidersLoaded _ _)
    intro c hpc i
    cases c <;> simp_all [swCntP]
  | alternativesLoaded pid alts =>
    obtain ⟨rest, hcons, hrw⟩ := stepSys_some_inv s (Msg.alternativesLoaded pid alts) s2 _ rfl hs
    subst hrw
    refine switchInvS_consume_other _ _ _ _ _ _ h hcons ?_
      (switchStep_id _ _
        (fun i => handleAlternativesLoaded_getPS_switching _ pid alts i))
    intro c hpc i
    cases c <;> simp_all [swCntP]
  | selectionLoaded pid sel =>
    obtain ⟨rest, hcons, hrw⟩ := stepSys_some_inv s (Msg.selectionLoaded pid sel) s2 _ rfl hs
    subst hrw
    refine switchInvS_consume_other _ _ _ _ _ _ h hcons ?_
      (switchStep_id _ _
        (fun i => handleSelectionLoaded_getPS_switching _ pid sel i))
    intro c hpc i
    cases c <;> simp_all [swCntP]
  | preferenceUpdated pref =>
    obtain ⟨rest, hcons, hrw⟩ := stepSys_some_inv s (Msg.preferenceUpdated pref) s2 _ rfl hs
    subst hrw
    refine switchInvS_consume_other _ _ _ _ _ _ h hcons ?_ ?_
    · intro c hpc i
      cases c <;> simp_all [swCntP]
    · refine switchStep_of_frame _ _ _
        (fun i => congrArg ProviderState.switching
          (handlePreferenceUpdated_getPS _ pref i)) ?_
      intro c hcc i
      have hcr : (update s.model (Msg.preferenceUpdated pref)).2 =
          [Cmd.clearStatusAfter statusClearDelay] := rfl
      rw [hcr] at hcc
      simp at hcc
      subst hcc
      rfl
  | preferenceFailed e =>
    obtain ⟨rest, hcons, hrw⟩ := stepSys_some_inv s (Msg.preferenceFailed e) s2 _ rfl hs
    subst hrw
    refine switchInvS_consume_other _ _ _ _ _ _ h hcons ?_ ?_
    · intro c hpc i
      cases c <;> simp_all [swCntP]
    · refine switchStep_of_frame _ _ _ (fun i => rfl) ?_
      intro c hcc i
      have hcr : (update s.model (Msg.preferenceFailed e)).2 =
          [Cmd.clearStatusAfter errorClearDelay] := rfl
      rw [hcr] at hcc
      simp at hcc
      subst hcc
      rfl
  | errMsg e =>
    obtain ⟨rest, hcons, hrw⟩ := stepSys_some_inv s (Msg.errMsg e) s2 _ rfl hs
    subst hrw
    refine switchInvS_consume_other _ _ _ _ _ _ h hcons ?_ ?_
    · intro c hpc i
      cases c <;> simp_all [swCntP]
    · refine switchStep_of_frame _ _ _
        (fun i => congrArg ProviderState.switching (handleError_getPS _ e i)) ?_
      intro c hcc i
      have hcr : (update s.model (Msg.errMsg e)).2 =
          [Cmd.clearStatusAfter errorClearDelay] := rfl
      rw [hcr] at hcc
      simp at hcc
      subst hcc
      rfl
  | clearStatus =>
    obtain ⟨rest, hcons, hrw⟩ := stepSys_some_inv s Msg.clearStatus s2 _ rfl hs
    subst hrw
    refine switchInvS_consume_other _ _ _ _ _ _ h hcons ?_
      (switchStep_id _ _ (fun i => rfl))
    intro c hpc i
    cases c <;> simp_all [swCntP]
  | profileRefreshTick =>
    obtain ⟨rest, hcons, hrw⟩ := stepSys_some_inv s Msg.profileRefreshTick s2 _ rfl hs
    subst hrw
    refine switchInvS_consume_other _ _ _ _ _ _ h hcons ?_ ?_
    · intro c hpc i
      cases c <;> simp_all [swCntP]
    · refine switchStep_of_frame _ _ _ (fun i => rfl) ?_
      intro c hcc i
      rcases handleProfileRefreshTick_cmds _ c hcc with hq | hq <;> subst hq <;> rfl
  | switchCompleted pid sel =>
    obtain ⟨rest, hcons, hrw⟩ := stepSys_some_inv s (Msg.switchCompleted pid sel) s2 _ rfl hs
    subst hrw
    intro i
    obtain ⟨hle, hz⟩ := h i
    have hcr : List.countP (swCntP i)
        (update s.model (Msg.switchCompleted pid sel)).2 = 0 := rfl
    by_cases hi : i = pid
    · subst hi
      have hpick : List.countP (swCntP i) s.pending =
          List.countP (swCntP i) rest + 1 := by
        refine consume1_countP_pick _ _ _ _ hcons ?_
        intro c hpc
        cases c <;> simp_all [swCntP]
      constructor
      · simp only [pendSwitch, List.countP_append, hcr]
        simp only [pendSwitch] at hle
        omega
      · intro _
        simp only [pendSwitch, List.countP_append, hcr]
        simp only [pendSwitch] at hle
        omega
    · have hdrop : List.countP (swCntP i) rest = List.countP (swCntP i) s.pending := by
        refine consume1_countP_drop _ _ _ _ hcons ?_
        intro c hpc
        cases c <;> simp_all [swCntP]
        omega
      have hflag : (((update s.model
          (Msg.switchCompleted pid sel)).1).getPS i).switching =
          ((s.model.getPS i)).switching :=
        congrArg ProviderState.switching
          (handleSwitchCompleted_getPS_ne _ _ _ _ hi)
      constructor
      · simp only [pendSwitch, List.countP_append, hcr, hdrop]
        simpa [pendSwitch] using hle
      · intro hf
        rw [hflag] at hf
        have := hz hf
        simp only [pendSwitch, List.countP_append, hcr, hdrop]
        simpa [pendSwitch] using this
  | providerLoadFailed pid target e =>
    obtain ⟨rest, hcons, hrw⟩ := stepSys_some_inv s (Msg.providerLoadFailed pid target e) s2 _ rfl hs
    subst hrw
    by_cases t1 : target = "alternatives"
    · subst t1
      refine switchInvS_consume_other _ _ _ _ _ _ h hcons ?_ ?_
      · intro c hpc i
        simp at hpc
        subst hpc
        rfl
      · refine switchStep_of_frame _ _ _
          (fun i => handleProviderLoadFailed_getPS_switching _ pid _ e
            (by decide) i) ?_
        intro c hcc i
        have hcr : (update s.model (Msg.providerLoadFailed pid "alternatives" e)).2 =
            [Cmd.clearStatusAfter errorClearDelay] := rfl
        rw [hcr] at hcc
        simp at hcc
        subst hcc
        rfl
    by_cases t2 : target = "selection"
    · subst t2
      refine switchInvS_consume_other _ _ _ _ _ _ h hcons ?_ ?_
      · intro c hpc i
        simp [t1] at hpc
        subst hpc
        rfl
      · refine switchStep_of_frame _ _ _
          (fun i => handleProviderLoadFailed_getPS_switching _ pid _ e
            (by decide) i) ?_
        intro c hcc i
        have hcr : (update s.model (Msg.providerLoadFailed pid "selection" e)).2 =
            [Cmd.clearStatusAfter errorClearDelay] := rfl
        rw [hcr] at hcc
        simp at hcc
        subst hcc
        rfl
    by_cases t3 : target = "switch"
    · subst t3
      intro i
      obtain ⟨hle, hz⟩ := h i
      have hcr : List.countP (swCntP i)
          (update s.model (Msg.providerLoadFailed pid "switch" e)).2 = 0 := rfl
      by_cases hi : i = pid
      · subst hi
        have hpick : List.countP (swCntP i) s.pending =
            List.countP (swCntP i) rest + 1 := by
          refine consume1_countP_pick _ _ _ _ hcons ?_
          intro c hpc
          simp [t1, t2] at hpc
          cases c <;> simp_all [swCntP]
        constructor
        · simp only [pendSwitch, List.countP_append, hcr]
          simp only [pendSwitch] at hle
          omega
        · intro _
          simp only [pendSwitch, List.countP_append, hcr]
          simp only [pendSwitch] at hle
          omega
      · have hdrop : List.countP (swCntP i) rest =
            List.countP (swCntP i) s.pending := by
          refine consume1_countP_drop _ _ _ _ hcons ?_
          intro c hpc
          simp [t1, t2] at hpc
          cases c <;> simp_all [swCntP]
          omega
        have hflag : (((update s.model
            (Msg.providerLoadFailed pid "switch" e)).1).getPS i).switching =
            ((s.model.getPS i)).switching :=
          congrArg ProviderState.switching
            (handleProviderLoadFailed_getPS_ne _ _ _ _ _ hi)
        constructor
        · simp only [pendSwitch, List.countP_append, hcr, hdrop]
          simpa [pendSwitch] using hle
        · intro hf
          rw [hflag] at hf
          have := hz hf
          simp only [pendSwitch, List.countP_append, hcr, hdrop]
          simpa [pendSwitch] using this
    · obtain ⟨c, hpc, _⟩ := consume1_exists_true _ _ _ hcons
      rw [if_neg t1, if_neg t2, if_neg t3] at hpc
      simp at hpc

theorem switchInvS_init : SwitchInvS initSys := by
  intro i
  constructor
  · simp [pendSwitch, initSys, List.countP_cons, swCntP]
  · intro _
    simp [pendSwitch, initSys, List.countP_cons, swCntP]

theorem switchInvS_runSys (msgs : List Msg) (s0 s : Sys) (h0 : SwitchInvS s0)
    (hr : runSys s0 msgs = some s) : SwitchInvS s := by
  induction msgs generalizing s0 with
  | nil =>
    simp only [runSys, Option.some.injEq] at hr
    rwa [← hr]
  | cons e es ih =>
    simp only [runSys] at hr
    cases hstep : stepSys s0 e <;> rw [hstep] at hr
    · simp at hr
    · simp only [Option.some_bind] at hr
      exact ih _ (switchInvS_stepSys s0 _ e h0 hstep) hr

/-! ## C1: loading/loaded flags and switch serialization -/

/-- C1 (amended): along every honest trace, the loading and loaded flags of
the alternatives sub-resource are never simultaneously true, and at most
one switch is in flight per provider group, gated by that group's
switching flag.  The unamended claim also asserts the flag exclusion for
the selection sub-resource, which fails when a switch-completed event
arrives while the selection re-fetch of a manual refresh is still in
flight (see the counterexample). -/
theorem c1_flags_and_switch_serialization_amended (msgs : List Msg) (s : Sys)
    (hr : runSys initSys msgs = some s) :
    ∀ id, ((s.model.getPS id).loadingAlternatives = true →
        (s.model.getPS id).alternativesLoaded = false) ∧
      pendSwitch id s.pending ≤ 1 ∧
      ((s.model.getPS id).switching = false → pendSwitch id s.pending = 0) := by
  have ha := altInvG_runSys msgs initSys s altInvG_initModel hr
  have hsw := switchInvS_runSys msgs initSys s switchInvS_init hr
  exact fun id => ⟨ha id, (hsw id).1, (hsw id).2⟩

set_option maxHeartbeats 1000000 in
/-- Witness for the amended C1 on a concrete trace. -/
theorem c1_flags_and_switch_serialization_amended_witness :
    (((sysAfter c1Trace).model.getPS 3).loadingAlternatives = true →
      ((sysAfter c1Trace).model.getPS 3).alternativesLoaded = false) ∧
    pendSwitch 3 (sysAfter c1Trace).pending ≤ 1 ∧
    (((sysAfter c1Trace).model.getPS 3).switching = false →
      pendSwitch 3 (sysAfter c1Trace).pending = 0) :=
  c1_flags_and_switch_serialization_amended c1Trace (sysAfter c1Trace) rfl 3

set_option maxHeartbeats 1000000 in
/-- C1 counterexample: after a manual refresh re-issues the selection fetch
and the in-flight switch then completes, the selection entry reads both
loading-selection and selection-loaded. -/
theorem c1_selection_flags_counterexample :
    (runSys initSys c1Trace).isSome = true ∧
    ((sysAfter c1Trace).model.getPS 3).loadingSelection = true ∧
    ((sysAfter c1Trace).model.getPS 3).selectionLoaded = true := by
  refine ⟨?_, ?_, ?_⟩ <;> decide

/-! ## Single-flight fetch machinery -/

/-! ### FetchStep combinators -/

theorem fetchStep_of_frame (m m2 : Model) (cs : List Cmd)
    (hfa : ∀ i, ((m2.getPS i)).loadingAlternatives = ((m.getPS i)).loadingAlternatives)
    (hfs : ∀ i, ((m2.getPS i)).loadingSelection = ((m.getPS i)).loadingSelection)
    (hc : ∀ c ∈ cs, ∀ i, altCntP i c = false ∧ selCntP i c = false) :
    FetchStep m m2 cs := by
  intro i
  constructor
  · left
    constructor
    · rw [List.countP_eq_zero]
      intro c hcm
      simp [(hc c hcm i).1]
    · exact hfa i
  · left
    constructor
    · rw [List.countP_eq_zero]
      intro c hcm
      simp [(hc c hcm i).2]
    · exact hfs i

theorem fetchStep_id (m m2 : Model)
    (hfa : ∀ i, ((m2.getPS i)).loadingAlternatives = ((m.getPS i)).loadingAlternatives)
    (hfs : ∀ i, ((m2.getPS i)).loadingSelection = ((m.getPS i)).loadingSelection) :
    FetchStep m m2 [] :=
  fetchStep_of_frame m m2 [] hfa hfs (by simp)

theorem fetchStep_ofPS (m m2 : Model)
    (hf : ∀ i, m2.getPS i = m.getPS i) : FetchStep m m2 [] :=
  fetchStep_id m m2 (fun i => by rw [hf i]) (fun i => by rw [hf i])

theorem fetchStep_trans (m0 m1 m2 : Model) (cs1 cs2 : List Cmd)
    (h1 : FetchStep m0 m1 cs1) (h2 : FetchStep m1 m2 cs2) :
    FetchStep m0 m2 (cs1 ++ cs2) := by
  intro i
  obtain ⟨ha1, hb1⟩ := h1 i
  obtain ⟨ha2, hb2⟩ := h2 i
  constructor
  · rcases ha1 with ⟨a1, b1⟩ | ⟨a1, b1, c1⟩ <;> rcases ha2 with ⟨a2, b2⟩ | ⟨a2, b2, c2⟩
    · exact Or.inl ⟨by simp [List.countP_append, a1, a2], by rw [b2, b1]⟩
    · refine Or.inr ⟨by simp [List.countP_append, a1, a2], ?_, c2⟩
      rw [← b1]; exact b2
    · exact Or.inr ⟨by simp [List.countP_append, a1, a2], b1, by rw [b2, c1]⟩
    · rw [c1] at b2; simp at b2
  · rcases hb1 with ⟨a1, b1⟩ | ⟨a1, b1, c1⟩ <;> rcases hb2 with ⟨a2, b2⟩ | ⟨a2, b2, c2⟩
    · exact Or.inl ⟨by simp [List.countP_append, a1, a2], by rw [b2, b1]⟩
    · refine Or.inr ⟨by simp [List.countP_append, a1, a2], ?_, c2⟩
      rw [← b1]; exact b2
    · exact Or.inr ⟨by simp [List.countP_append, a1, a2], b1, by rw [b2, c1]⟩
    · rw [c1] at b2; simp at b2

theorem fetchStep_pre (m0 m1 m2 : Model) (cs : List Cmd)
    (hf : ∀ i, m1.getPS i = m0.getPS i)
    (h : FetchStep m1 m2 cs) : FetchStep m0 m2 cs := by
  have := fetchStep_trans m0 m1 m2 [] cs (fetchStep_ofPS _ _ hf) h
  simpa using this

/-! ### The queue: precise request gating -/

theorem queue_getPS_self (m : Model) (pid : Int) (h0 : pid ≠ 0) :
    ((m.queueProviderDetailLoad pid).1.getPS pid).loadingAlternatives =
      (((m.getPS pid)).loadingAlternatives || !((m.getPS pid)).alternativesLoaded) ∧
    ((m.queueProviderDetailLoad pid).1.getPS pid).loadingSelection =
      (((m.getPS pid)).loadingSelection || !((m.getPS pid)).selectionLoaded) ∧
    ((m.queueProviderDetailLoad pid).1.getPS pid).alternativesLoaded =
      ((m.getPS pid)).alternativesLoaded ∧
    ((m.queueProviderDetailLoad pid).1.getPS pid).selectionLoaded =
      ((m.getPS pid)).selectionLoaded := by
  have hm : ∀ s2, getMap (setMap (ensureMap m.providerData pid) pid s2) pid = s2 :=
    fun s2 => getMap_setMap_same _ _ _ h0
  rcases hal : ((m.getPS pid)).alternativesLoaded <;>
    rcases hla : ((m.getPS pid)).loadingAlternatives <;>
    rcases hsl : ((m.getPS pid)).selectionLoaded <;>
    rcases hls : ((m.getPS pid)).loadingSelection <;>
    simp_all [Model.queueProviderDetailLoad, Model.getPS, syncAltIdx_getMap,
      hm, if_neg h0]

theorem queue_getPS_ne (m : Model) (pid i : Int) (hi : i ≠ pid) :
    (m.queueProviderDetailLoad pid).1.getPS i = m.getPS i := by
  by_cases h0 : pid = 0
  · subst h0
    simp [Model.queueProviderDetailLoad]
  · have hgs : ∀ pd s, getMap (setMap pd pid s) i = getMap pd i :=
      fun pd s => getMap_setMap_ne pd pid i s hi
    simp only [Model.queueProviderDetailLoad, getPS_ensurePS]
    rw [if_neg h0]
    split_ifs <;> simp [Model.getPS, syncAltIdx_getMap, hgs]

theorem queue_cs (m : Model) (pid : Int) (h0 : pid ≠ 0) :
    (m.queueProviderDetailLoad pid).2 =
      (if ((m.getPS pid)).alternativesLoaded = false ∧
          ((m.getPS pid)).loadingAlternatives = false
        then [Cmd.loadAlternatives pid] else []) ++
      (if ((m.getPS pid)).selectionLoaded = false ∧
          ((m.getPS pid)).loadingSelection = false
        then [Cmd.loadSelection pid] else []) := by
  rcases hal : ((m.getPS pid)).alternativesLoaded <;>
    rcases hla : ((m.getPS pid)).loadingAlternatives <;>
    rcases hsl : ((m.getPS pid)).selectionLoaded <;>
    rcases hls : ((m.getPS pid)).loadingSelection <;>
    simp_all [Model.queueProviderDetailLoad, Model.getPS, if_neg h0]

theorem queue_altCnt (m : Model) (pid : Int) (h0 : pid ≠ 0) (i : Int) :
    List.countP (altCntP i) (m.queueProviderDetailLoad pid).2 =
      (if i = pid ∧ ((m.getPS pid)).alternativesLoaded = false ∧
          ((m.getPS pid)).loadingAlternatives = false then 1 else 0) := by
  rw [queue_cs m pid h0]
  by_cases hi : i = pid
  · subst hi
    split_ifs <;>
      simp_all [altCntP, List.countP_append, List.countP_cons]
  · split_ifs <;>
      simp_all [altCntP, List.countP_append, List.countP_cons] <;>
      omega

theorem queue_selCnt (m : Model) (pid : Int) (h0 : pid ≠ 0) (i : Int) :
    List.countP (selCntP i) (m.queueProviderDetailLoad pid).2 =
      (if i = pid ∧ ((m.getPS pid)).selectionLoaded = false ∧
          ((m.getPS pid)).loadingSelection = false then 1 else 0) := by
  rw [queue_cs m pid h0]
  by_cases hi : i = pid
  · subst hi
    split_ifs <;>
      simp_all [selCntP, List.countP_append, List.countP_cons]
  · split_ifs <;>
      simp_all [selCntP, List.countP_append, List.countP_cons] <;>
      omega

theorem fq_queue (m : Model) (pid : Int) :
    FetchStep m (m.queueProviderDetailLoad pid).1 (m.queueProviderDetailLoad pid).2 := by
  by_cases h0 : pid = 0
  · have he : m.queueProviderDetailLoad pid = (m, []) := by
      subst h0
      simp [Model.queueProviderDetailLoad]
    rw [he]
    exact fetchStep_ofPS _ _ (fun i => rfl)
  · obtain ⟨q1, q2, q3, q4⟩ := queue_getPS_self m pid h0
    intro i
    constructor
    · by_cases hi : i = pid
      · subst hi
        rw [queue_altCnt m i h0 i]
        rcases hal : ((m.getPS i)).alternativesLoaded <;>
          rcases hla : ((m.getPS i)).loadingAlternatives
        · exact Or.inr ⟨by simp [hal, hla], rfl, by rw [q1]; simp [hal, hla]⟩
        · exact Or.inl ⟨by simp [hla], by rw [q1]; simp [hal, hla]⟩
        · exact Or.inl ⟨by simp [hal], by rw [q1]; simp [hal, hla]⟩
        · exact Or.inl ⟨by simp [hla], by rw [q1]; simp [hal, hla]⟩
      · rw [queue_altCnt m pid h0 i]
        refine Or.inl ⟨by simp [hi], ?_⟩
        rw [queue_getPS_ne m pid i hi]
    · by_cases hi : i = pid
      · subst hi
        rw [queue_selCnt m i h0 i]
        rcases hsl : ((m.getPS i)).selectionLoaded <;>
          rcases hls : ((m.getPS i)).loadingSelection
        · exact Or.inr ⟨by simp [hsl, hls], rfl, by rw [q2]; simp [hsl, hls]⟩
        · exact Or.inl ⟨by simp [hls], by rw [q2]; simp [hsl, hls]⟩
        · exact Or.inl ⟨by simp [hsl], by rw [q2]; simp [hsl, hls]⟩
        · exact Or.inl ⟨by simp [hls], by rw [q2]; simp [hsl, hls]⟩
      · rw [queue_selCnt m pid h0 i]
        refine Or.inl ⟨by simp [hi], ?_⟩
        rw [queue_getPS_ne m pid i hi]

/-! ### FetchStep for the remaining input handlers -/

theorem switchSelection_cs_shape (m : Model) :
    (m.switchSelection).2 = [] ∨
      ∃ p a, (m.switchSelection).2 = [Cmd.switchProvider p a] := by
  simp only [Model.switchSelection]
  split_ifs <;> first | exact Or.inl rfl | exact Or.inr ⟨_, _, rfl⟩

theorem switchSelection_cmds (m : Model) :
    ∀ c ∈ (m.switchSelection).2, ∃ p a, c = Cmd.switchProvider p a := by
  intro c hc
  rcases switchSelection_cs_shape m with h | ⟨p, a, h⟩ <;> rw [h] at hc
  · simp at hc
  · simp at hc
    exact ⟨p, a, hc⟩

theorem switchSelection_getPS_fetch (m : Model) (i : Int) :
    ((m.switchSelection.1).getPS i).loadingAlternatives =
      ((m.getPS i)).loadingAlternatives ∧
    ((m.switchSelection.1).getPS i).loadingSelection =
      ((m.getPS i)).loadingSelection := by
  by_cases hprov : m.providers = []
  · simp [Model.switchSelection, hprov]
  · simp only [Model.switchSelection, if_neg hprov, getPS_ensurePS]
    split_ifs with h1 h2 h3
    · constructor <;>
        exact congrArg _ (getPS_ensurePS _ _ i)
    · constructor <;>
        exact congrArg _ (getPS_ensurePS _ _ i)
    · constructor <;>
        exact congrArg _ (getPS_ensurePS _ _ i)
    · push_neg at h1
      have halts : (m.getPS m.currentProviderID).alternatives ≠ [] := h1.2.2
      have h0 : m.currentProviderID ≠ 0 := fun hz => by
        rw [hz, getPS_zero] at halts; exact halts rfl
      by_cases hi : i = m.currentProviderID
      · subst hi
        have hm : ∀ s2, getMap (setMap (ensureMap m.providerData m.currentProviderID)
            m.currentProviderID s2) m.currentProviderID = s2 :=
          fun s2 => getMap_setMap_same _ _ _ h0
        constructor <;> simp [Model.getPS, hm]
      · have hgs : ∀ pd s, getMap (setMap pd m.currentProviderID s) i = getMap pd i :=
          fun pd s => getMap_setMap_ne pd _ i s hi
        constructor <;> simp [Model.getPS, hgs]

theorem fq_switchSelection (m : Model) :
    FetchStep m (m.switchSelection).1 (m.switchSelection).2 := by
  refine fetchStep_of_frame _ _ _
    (fun i => (switchSelection_getPS_fetch m i).1)
    (fun i => (switchSelection_getPS_fetch m i).2) ?_
  intro c hc i
  obtain ⟨p, a, hp⟩ := switchSelection_cmds m c hc
  subst hp
  exact ⟨rfl, rfl⟩

theorem fq_ensureProvidersLoaded (m : Model) :
    FetchStep m (m.ensureProvidersLoaded).1 (m.ensureProvidersLoaded).2 := by
  refine fetchStep_of_frame _ _ _
    (fun i => congrArg _ (ensureProvidersLoaded_getPS m i))
    (fun i => congrArg _ (ensureProvidersLoaded_getPS m i)) ?_
  intro c hc i
  rw [ensureProvidersLoaded_cmds m c hc]
  exact ⟨rfl, rfl⟩

theorem fq_toggleBalancePreference (m : Model) :
    FetchStep m (m.toggleBalancePreference).1 (m.toggleBalancePreference).2 := by
  refine fetchStep_of_frame _ _ _
    (fun i => congrArg _ (toggleBalancePreference_getPS m i))
    (fun i => congrArg _ (toggleBalancePreference_getPS m i)) ?_
  intro c hc i
  obtain ⟨t, ht⟩ := toggleBalancePreference_cmds m c hc
  subst ht
  exact ⟨rfl, rfl⟩

theorem fq_refreshProfile (m : Model) :
    FetchStep m (m.refreshProfile).1 (m.refreshProfile).2 := by
  refine fetchStep_of_frame _ _ _ (fun i => rfl) (fun i => rfl) ?_
  intro c hc i
  simp [Model.refreshProfile] at hc
  subst hc
  exact ⟨rfl, rfl⟩

theorem fq_moveSelection (m : Model) (d : Int) :
    FetchStep m (m.moveSelection d).1 (m.moveSelection d).2 := by
  simp only [Model.moveSelection]
  split_ifs
  · exact fetchStep_ofPS _ _ (fun i => rfl)
  · refine fetchStep_pre _ _ _ _ ?_ (fq_queue _ _)
    intro i
    exact syncAltIdx_getPS _ _ i
  · exact fetchStep_ofPS _ _ (fun i => getPS_ensurePS _ _ i)
  · exact fetchStep_ofPS _ _ (fun i => getPS_ensurePS _ _ i)

theorem fq_handleQuitAndHelp (m : Model) (ks : String) :
    FetchStep m (m.handleQuitAndHelp ks).1 (m.handleQuitAndHelp ks).2 := by
  refine fetchStep_of_frame _ _ _
    (fun i => congrArg _ (handleQuitAndHelp_getPS m ks i))
    (fun i => congrArg _ (handleQuitAndHelp_getPS m ks i)) ?_
  intro c hc i
  rw [handleQuitAndHelp_cmds m ks c hc]
  exact ⟨rfl, rfl⟩

theorem fq_handleTabSwitch (m : Model) (ks : String) :
    FetchStep m (m.handleTabSwitch ks).1 (m.handleTabSwitch ks).2 := by
  refine fetchStep_of_frame _ _ _
    (fun i => congrArg _ (handleTabSwitch_getPS m ks i))
    (fun i => congrArg _ (handleTabSwitch_getPS m ks i)) ?_
  intro c hc i
  rw [handleTabSwitch_cmds m ks c hc]
  exact ⟨rfl, rfl⟩

theorem fq_handleEnter (m : Model) (ks : String) :
    FetchStep m (m.handleEnter ks).1 (m.handleEnter ks).2 := by
  unfold Model.handleEnter
  split_ifs <;>
    first
    | exact fetchStep_ofPS _ _ (fun i => rfl)
    | exact fq_switchSelection _
    | exact fq_toggleBalancePreference _

theorem fq_handleNavigation (m : Model) (ks : String) :
    FetchStep m (m.handleNavigation ks).1 (m.handleNavigation ks).2 := by
  simp only [Model.handleNavigation]
  split_ifs <;>
    first
    | exact fetchStep_ofPS _ _ (fun i => rfl)
    | exact fq_moveSelection _ _

theorem handleRefresh_eq_of_ne_r (ks : String) (hk : ks ≠ "r") (m : Model) :
    m.handleRefresh ks = (m, []) := by
  unfold Model.handleRefresh
  rw [if_pos hk]

theorem fq_handleKey (m : Model) (ks : String) (hk : ks ≠ "r") :
    FetchStep m (m.handleKey ks).1 (m.handleKey ks).2 := by
  simp only [Model.handleKey, handleRefresh_eq_of_ne_r ks hk]
  split_ifs
  · refine fetchStep_of_frame _ _ _ (fun i => rfl) (fun i => rfl) ?_
    intro c hc i
    simp at hc
    subst hc
    exact ⟨rfl, rfl⟩
  · exact fq_handleQuitAndHelp _ _
  · refine fetchStep_pre _ _ _ _
      (fun i => handleQuitAndHelp_getPS m ks i) ?_
    exact fq_handleTabSwitch _ _
  · refine fetchStep_pre _ _ _ _
      (fun i => handleQuitAndHelp_getPS m ks i) ?_
    refine fetchStep_pre _ _ _ _
      (fun i => handleTabSwitch_getPS _ ks i) ?_
    refine fetchStep_pre _ _ _ _
      (fun i => handleFocusSwitch_getPS _ ks i) ?_
    exact fetchStep_ofPS _ _ (fun i => rfl)
  · refine fetchStep_pre _ _ _ _
      (fun i => handleQuitAndHelp_getPS m ks i) ?_
    refine fetchStep_pre _ _ _ _
      (fun i => handleTabSwitch_getPS _ ks i) ?_
    refine fetchStep_pre _ _ _ _
      (fun i => handleFocusSwitch_getPS _ ks i) ?_
    exact fq_handleEnter _ _
  · refine fetchStep_pre _ _ _ _
      (fun i => handleQuitAndHelp_getPS m ks i) ?_
    refine fetchStep_pre _ _ _ _
      (fun i => handleTabSwitch_getPS _ ks i) ?_
    refine fetchStep_pre _ _ _ _
      (fun i => handleFocusSwitch_getPS _ ks i) ?_
    have := fetchStep_trans _ _ _ _ _ (fq_handleEnter
      (((m.handleQuitAndHelp ks).1.handleTabSwitch ks).1.handleFocusSwitch ks) ks)
      (fq_handleNavigation _ ks)
    simp only [ne_eq, not_not] at *
    rw [(by assumption :
      ((((m.handleQuitAndHelp ks).1.handleTabSwitch ks).1.handleFocusSwitch
        ks).handleEnter ks).2 = [])] at this
    simpa using this

theorem fq_handleMouseWheel (m : Model) (d : Int) :
    FetchStep m (m.handleMouseWheel d).1 (m.handleMouseWheel d).2 := by
  unfold Model.handleMouseWheel
  split_ifs <;>
    first
    | exact fetchStep_ofPS _ _ (fun i => rfl)
    | exact fq_moveSelection _ _

theorem fq_handleTabClick (m : Model) (x : Int) :
    FetchStep m (m.handleTabClick x).1 (m.handleTabClick x).2 := by
  refine fetchStep_of_frame _ _ _
    (fun i => congrArg _ (handleTabClick_getPS m x i))
    (fun i => congrArg _ (handleTabClick_getPS m x i)) ?_
  intro c hc i
  rw [handleTabClick_cmds m x c hc]
  exact ⟨rfl, rfl⟩

theorem fq_handleProvidersClick (m : Model) (x contentY : Int) :
    FetchStep m (m.handleProvidersClick x contentY).1
      (m.handleProvidersClick x contentY).2 := by
  simp only [Model.handleProvidersClick]
  split_ifs <;>
    first
    | exact fetchStep_ofPS _ _ (fun i => rfl)
    | exact fetchStep_pre _ _ _ _ (fun i => rfl) (fq_queue _ _)
    | exact fetchStep_ofPS _ _ (fun i => getPS_ensurePS _ _ i)
    | exact fetchStep_pre _ _ _ _ (fun i => getPS_ensurePS _ _ i)
        (fq_switchSelection _)
    | exact fetchStep_ofPS _ _
        (fun i => Eq.trans (syncAltIdx_getPS _ _ i) (getPS_ensurePS _ _ i))

theorem fq_handleBalancePreferenceClick (m : Model) (contentY : Int) :
    FetchStep m (m.handleBalancePreferenceClick contentY).1
      (m.handleBalancePreferenceClick contentY).2 := by
  unfold Model.handleBalancePreferenceClick
  split_ifs <;>
    first
    | exact fetchStep_ofPS _ _ (fun i => rfl)
    | exact fetchStep_pre _ _ _ _ (fun i => rfl) (fq_toggleBalancePreference _)

theorem fq_handleContentClick (m : Model) (x y : Int) :
    FetchStep m (m.handleContentClick x y).1 (m.handleContentClick x y).2 := by
  unfold Model.handleContentClick
  split_ifs <;>
    first
    | exact fetchStep_ofPS _ _ (fun i => rfl)
    | exact fq_handleProvidersClick _ _ _
    | exact fq_handleBalancePreferenceClick _ _

theorem fq_handleMouseClick (m : Model) (x y : Int) :
    FetchStep m (m.handleMouseClick x y).1 (m.handleMouseClick x y).2 := by
  unfold Model.handleMouseClick
  split_ifs <;>
    first
    | exact fetchStep_ofPS _ _ (fun i => rfl)
    | exact fq_handleTabClick _ _
    | exact fq_handleContentClick _ _ _

theorem fq_handleProvidersLoaded (m : Model) (r : ProvidersResponse) :
    FetchStep m (m.handleProvidersLoaded r).1 (m.handleProvidersLoaded r).2 := by
  simp only [Model.handleProvidersLoaded]
  split_ifs <;>
    first
    | exact fetchStep_ofPS _ _ (fun i => rfl)
    | exact fetchStep_pre _ _ _ _ (fun i => rfl) (fq_queue _ _)

/-! ### Fetch flags at the completion handlers -/

theorem handleSwitchCompleted_getPS_fetch (m : Model) (pid : Int)
    (sel : ProviderSelection) (i : Int) :
    ((m.handleSwitchCompleted pid sel).1.getPS i).loadingAlternatives =
      ((m.getPS i)).loadingAlternatives ∧
    ((m.handleSwitchCompleted pid sel).1.getPS i).loadingSelection =
      ((m.getPS i)).loadingSelection := by
  by_cases h0 : pid = 0
  · subst h0
    constructor <;>
      · simp only [Model.handleSwitchCompleted, getPS_ensurePS]
        simp [Model.getPS, syncAltIdx_getMap, setMap_zero, ensureMap_zero]
  · by_cases hi : i = pid
    · subst hi
      have hm : ∀ s2, getMap (setMap (ensureMap m.providerData i) i s2) i = s2 :=
        fun s2 => getMap_setMap_same _ _ _ h0
      constructor <;>
        · simp only [Model.handleSwitchCompleted, getPS_ensurePS]
          simp [Model.getPS, syncAltIdx_getMap, hm]
    · constructor <;>
        exact congrArg _ (handleSwitchCompleted_getPS_ne m pid sel i hi)

theorem handleAlternativesLoaded_la_self (m : Model) (pid : Int)
    (alts : List AlternativeOption) :
    ((m.handleAlternativesLoaded pid alts).getPS pid).loadingAlternatives = false := by
  by_cases h0 : pid = 0
  · subst h0
    simp [getPS_zero]
  · have hm : ∀ s2, getMap (setMap (ensureMap m.providerData pid) pid s2) pid = s2 :=
      fun s2 => getMap_setMap_same _ _ _ h0
    simp only [Model.handleAlternativesLoaded, getPS_ensurePS]
    split_ifs <;> simp [Model.getPS, syncAltIdx_getMap, hm]

theorem handleAlternativesLoaded_ls_frame (m : Model) (pid : Int)
    (alts : List AlternativeOption) (i : Int) :
    ((m.handleAlternativesLoaded pid alts).getPS i).loadingSelection =
      ((m.getPS i)).loadingSelection := by
  by_cases h0 : pid = 0
  · subst h0
    simp only [Model.handleAlternativesLoaded, getPS_ensurePS]
    split_ifs <;>
      simp [Model.getPS, syncAltIdx_getMap, setMap_zero, ensureMap_zero]
  · by_cases hi : i = pid
    · subst hi
      have hm : ∀ s2, getMap (setMap (ensureMap m.providerData i) i s2) i = s2 :=
        fun s2 => getMap_setMap_same _ _ _ h0
      simp only [Model.handleAlternativesLoaded, getPS_ensurePS]
      split_ifs <;> simp [Model.getPS, syncAltIdx_getMap, hm]
    · have hgs : ∀ pd s, getMap (setMap pd pid s) i = getMap pd i :=
        fun pd s => getMap_setMap_ne pd pid i s hi
      simp only [Model.handleAlternativesLoaded, getPS_ensurePS]
      split_ifs <;> simp [Model.getPS, syncAltIdx_getMap, hgs]

theorem handleAlternativesLoaded_getPS_ne (m : Model) (pid : Int)
    (alts : List AlternativeOption) (i : Int) (hi : i ≠ pid) :
    (m.handleAlternativesLoaded pid alts).getPS i = m.getPS i := by
  unfold Model.getPS getMap
  rw [handleAlternativesLoaded_frame m pid i alts hi]

theorem handleSelectionLoaded_ls_self (m : Model) (pid : Int)
    (sel : ProviderSelection) :
    ((m.handleSelectionLoaded pid sel).getPS pid).loadingSelection = false := by
  by_cases h0 : pid = 0
  · subst h0
    simp [getPS_zero]
  · have hm : ∀ s2, getMap (setMap (ensureMap m.providerData pid) pid s2) pid = s2 :=
      fun s2 => getMap_setMap_same _ _ _ h0
    simp only [Model.handleSelectionLoaded, getPS_ensurePS]
    split_ifs <;> simp [Model.getPS, syncAltIdx_getMap, hm]

theorem handleSelectionLoaded_la_frame (m : Model) (pid : Int)
    (sel : ProviderSelection) (i : Int) :
    ((m.handleSelectionLoaded pid sel).getPS i).loadingAlternatives =
      ((m.getPS i)).loadingAlternatives := by
  by_cases h0 : pid = 0
  · subst h0
    simp only [Model.handleSelectionLoaded, getPS_ensurePS]
    split_ifs <;>
      simp [Model.getPS, syncAltIdx_getMap, setMap_zero, ensureMap_zero]
  · by_cases hi : i = pid
    · subst hi
      have hm : ∀ s2, getMap (setMap (ensureMap m.providerData i) i s2) i = s2 :=
        fun s2 => getMap_setMap_same _ _ _ h0
      simp only [Model.handleSelectionLoaded, getPS_ensurePS]
      split_ifs <;> simp [Model.getPS, syncAltIdx_getMap, hm]
    · have hgs : ∀ pd s, getMap (setMap pd pid s) i = getMap pd i :=
        fun pd s => getMap_setMap_ne pd pid i s hi
      simp only [Model.handleSelectionLoaded, getPS_ensurePS]
      split_ifs <;> simp [Model.getPS, syncAltIdx_getMap, hgs]

theorem handleSelectionLoaded_getPS_ne (m : Model) (pid : Int)
    (sel : ProviderSelection) (i : Int) (hi : i ≠ pid) :
    (m.handleSelectionLoaded pid sel).getPS i = m.getPS i := by
  unfold Model.getPS getMap
  rw [handleSelectionLoaded_frame m pid i sel hi]

theorem handleProviderLoadFailed_alt_la_self (m : Model) (pid : Int) (e : String) :
    (((m.handleProviderLoadFailed pid "alternatives" e).1).getPS
      pid).loadingAlternatives = false := by
  by_cases h0 : pid = 0
  · subst h0
    simp [getPS_zero]
  · have hm : ∀ s2, getMap (setMap (ensureMap m.providerData pid) pid s2) pid = s2 :=
      fun s2 => getMap_setMap_same _ _ _ h0
    simp only [Model.handleProviderLoadFailed, getPS_ensurePS]
    split_ifs <;> simp_all [Model.getPS, hm]

theorem handleProviderLoadFailed_alt_ls_frame (m : Model) (pid : Int)
    (e : String) (i : Int) :
    (((m.handleProviderLoadFailed pid "alternatives" e).1).getPS
      i).loadingSelection = ((m.getPS i)).loadingSelection := by
  by_cases h0 : pid = 0
  · subst h0
    simp only [Model.handleProviderLoadFailed, getPS_ensurePS]
    split_ifs <;> simp_all [Model.getPS, setMap_zero, ensureMap_zero]
  · by_cases hi : i = pid
    · subst hi
      have hm : ∀ s2, getMap (setMap (ensureMap m.providerData i) i s2) i = s2 :=
        fun s2 => getMap_setMap_same _ _ _ h0
      simp only [Model.handleProviderLoadFailed, getPS_ensurePS]
      split_ifs <;> simp_all [Model.getPS, hm]
    · exact congrArg _ (handleProviderLoadFailed_getPS_ne m pid _ e i hi)

theorem handleProviderLoadFailed_sel_ls_self (m : Model) (pid : Int) (e : String) :
    (((m.handleProviderLoadFailed pid "selection" e).1).getPS
      pid).loadingSelection = false := by
  by_cases h0 : pid = 0
  · subst h0
    simp [getPS_zero]
  · have hm : ∀ s2, getMap (setMap (ensureMap m.providerData pid) pid s2) pid = s2 :=
      fun s2 => getMap_setMap_same _ _ _ h0
    simp only [Model.handleProviderLoadFailed, getPS_ensurePS]
    split_ifs <;> simp_all [Model.getPS, hm]

theorem handleProviderLoadFailed_sel_la_frame (m : Model) (pid : Int)
    (e : String) (i : Int) :
    (((m.handleProviderLoadFailed pid "selection" e).1).getPS
      i).loadingAlternatives = ((m.getPS i)).loadingAlternatives := by
  by_cases h0 : pid = 0
  · subst h0
    simp only [Model.handleProviderLoadFailed, getPS_ensurePS]
    split_ifs <;> simp_all [Model.getPS, setMap_zero, ensureMap_zero]
  · by_cases hi : i = pid
    · subst hi
      have hm : ∀ s2, getMap (setMap (ensureMap m.providerData i) i s2) i = s2 :=
        fun s2 => getMap_setMap_same _ _ _ h0
      simp only [Model.handleProviderLoadFailed, getPS_ensurePS]
      split_ifs <;> simp_all [Model.getPS, hm]
    · exact congrArg _ (handleProviderLoadFailed_getPS_ne m pid _ e i hi)

theorem handleProviderLoadFailed_switch_fetch (m : Model) (pid : Int)
    (e : String) (i : Int) :
    (((m.handleProviderLoadFailed pid "switch" e).1).getPS
      i).loadingAlternatives = ((m.getPS i)).loadingAlternatives ∧
    (((m.handleProviderLoadFailed pid "switch" e).1).getPS
      i).loadingSelection = ((m.getPS i)).loadingSelection := by
  by_cases h0 : pid = 0
  · subst h0
    constructor <;>
      · simp only [Model.handleProviderLoadFailed, getPS_ensurePS]
        split_ifs <;> simp_all [Model.getPS, setMap_zero, ensureMap_zero]
  · by_cases hi : i = pid
    · subst hi
      have hm : ∀ s2, getMap (setMap (ensureMap m.providerData i) i s2) i = s2 :=
        fun s2 => getMap_setMap_same _ _ _ h0
      constructor <;>
        · simp only [Model.handleProviderLoadFailed, getPS_ensurePS]
          split_ifs <;> simp_all [Model.getPS, hm]
    · constructor <;>
        exact congrArg _ (handleProviderLoadFailed_getPS_ne m pid _ e i hi)

/-! ### Per-event fetch bookkeeping at the system level -/

theorem fetchInvS_append (m : Model) (l : List Cmd) (m2 : Model) (cs : List Cmd)
    (h : FetchInvS ⟨m, l⟩) (hstep : FetchStep m m2 cs) :
    FetchInvS ⟨m2, l ++ cs⟩ := by
  intro i
  obtain ⟨hA, hS⟩ := h i
  obtain ⟨ha, hb⟩ := hstep i
  constructor
  · rcases ha with ⟨a, b⟩ | ⟨a, b, c⟩ <;>
      rcases hold : ((m.getPS i)).loadingAlternatives <;>
      simp_all [pendAlt, pendSel, List.countP_append] <;>
      omega
  · rcases hb with ⟨a, b⟩ | ⟨a, b, c⟩ <;>
      rcases hold : ((m.getPS i)).loadingSelection <;>
      simp_all [pendAlt, pendSel, List.countP_append] <;>
      omega

theorem fetchInvS_pendEq (m : Model) (l l2 : List Cmd)
    (h : FetchInvS ⟨m, l⟩)
    (hca : ∀ i, List.countP (altCntP i) l2 = List.countP (altCntP i) l)
    (hcs : ∀ i, List.countP (selCntP i) l2 = List.countP (selCntP i) l) :
    FetchInvS ⟨m, l2⟩ := by
  intro i
  obtain ⟨hA, hS⟩ := h i
  constructor
  · simp only [pendAlt] at *
    rw [hca i]
    exact hA
  · simp only [pendSel] at *
    rw [hcs i]
    exact hS

theorem fetchInvS_consume_other (m : Model) (l rest : List Cmd) (p : Cmd → Bool)
    (m2 : Model) (cs : List Cmd) (h : FetchInvS ⟨m, l⟩)
    (hcons : consume1 p l = some rest)
    (hp : ∀ c, p c = true → ∀ i, altCntP i c = false ∧ selCntP i c = false)
    (hstep : FetchStep m m2 cs) : FetchInvS ⟨m2, rest ++ cs⟩ := by
  refine fetchInvS_append m rest m2 cs ?_ hstep
  refine fetchInvS_pendEq m l rest h ?_ ?_
  · intro i
    exact consume1_countP_drop p (altCntP i) l rest hcons (fun c hpc => (hp c hpc i).1)
  · intro i
    exact consume1_countP_drop p (selCntP i) l rest hcons (fun c hpc => (hp c hpc i).2)

theorem fetchInvS_stepSys (s s2 : Sys) (e : Msg) (h : FetchInvS s)
    (hre : e ≠ Msg.key "r") (hs : stepSys s e = some s2) : FetchInvS s2 := by
  cases e with
  | key k =>
    have hk : k ≠ "r" := fun hh => hre (by rw [hh])
    rw [stepSys_none s (Msg.key k) rfl] at hs
    injection hs with hs
    subst hs
    exact fetchInvS_append _ _ _ _ h (fq_handleKey _ _ hk)
  | wheelUp =>
    rw [stepSys_none s Msg.wheelUp rfl] at hs
    injection hs with hs
    subst hs
    exact fetchInvS_append _ _ _ _ h (fq_handleMouseWheel _ _)
  | wheelDown =>
    rw [stepSys_none s Msg.wheelDown rfl] at hs
    injection hs with hs
    subst hs
    exact fetchInvS_append _ _ _ _ h (fq_handleMouseWheel _ _)
  | leftClick x y =>
    rw [stepSys_none s (Msg.leftClick x y) rfl] at hs
    injection hs with hs
    subst hs
    exact fetchInvS_append _ _ _ _ h (fq_handleMouseClick _ _ _)
  | windowSize w hh =>
    rw [stepSys_none s (Msg.windowSize w hh) rfl] at hs
    injection hs with hs
    subst hs
    exact fetchInvS_append _ _ _ _ h (fetchStep_ofPS _ _ (fun i => rfl))
  | profileLoaded p =>
    obtain ⟨rest, hcons, hrw⟩ := stepSys_some_inv s (Msg.profileLoaded p) s2 _ rfl hs
    subst hrw
    refine fetchInvS_consume_other _ _ _ _ _ _ h hcons ?_
      (fetchStep_ofPS _ _ (fun i => rfl))
    intro c hpc i
    cases c <;> simp_all [altCntP, selCntP]
  | providersLoaded r =>
    obtain ⟨rest, hcons, hrw⟩ := stepSys_some_inv s (Msg.providersLoaded r) s2 _ rfl hs
    subst hrw
    refine fetchInvS_consume_other _ _ _ _ _ _ h hcons ?_
      (fq_handleProvidersLoaded _ _)
    intro c hpc i
    cases c <;> simp_all [altCntP, selCntP]
  | preferenceUpdated pref =>
    obtain ⟨rest, hcons, hrw⟩ :=
      stepSys_some_inv s (Msg.preferenceUpdated pref) s2 _ rfl hs
    subst hrw
    refine fetchInvS_consume_other _ _ _ _ _ _ h hcons ?_ ?_
    · intro c hpc i
      cases c <;> simp_all [altCntP, selCntP]
    · refine fetchStep_of_frame _ _ _
        (fun i => congrArg _ (handlePreferenceUpdated_getPS _ pref i))
        (fun i => congrArg _ (handlePreferenceUpdated_getPS _ pref i)) ?_
      intro c hcc i
      have hcr : (update s.model (Msg.preferenceUpdated pref)).2 =
          [Cmd.clearStatusAfter statusClearDelay] := rfl
      rw [hcr] at hcc
      simp at hcc
      subst hcc
      exact ⟨rfl, rfl⟩
  | preferenceFailed e =>
    obtain ⟨rest, hcons, hrw⟩ :=
      stepSys_some_inv s (Msg.preferenceFailed e) s2 _ rfl hs
    subst hrw
    refine fetchInvS_consume_other _ _ _ _ _ _ h hcons ?_ ?_
    · intro c hpc i
      cases c <;> simp_all [altCntP, selCntP]
    · refine fetchStep_of_frame _ _ _ (fun i => rfl) (fun i => rfl) ?_
      intro c hcc i
      have hcr : (update s.model (Msg.preferenceFailed e)).2 =
          [Cmd.clearStatusAfter errorClearDelay] := rfl
      rw [hcr] at hcc
      simp at hcc
      subst hcc
      exact ⟨rfl, rfl⟩
  | errMsg e =>
    obtain ⟨rest, hcons, hrw⟩ := stepSys_some_inv s (Msg.errMsg e) s2 _ rfl hs
    subst hrw
    refine fetchInvS_consume_other _ _ _ _ _ _ h hcons ?_ ?_
    · intro c hpc i
      cases c <;> simp_all [altCntP, selCntP]
    · refine fetchStep_of_frame _ _ _
        (fun i => congrArg _ (handleError_getPS _ e i))
        (fun i => congrArg _ (handleError_getPS _ e i)) ?_
      intro c hcc i
      have hcr : (update s.model (Msg.errMsg e)).2 =
          [Cmd.clearStatusAfter errorClearDelay] := rfl
      rw [hcr] at hcc
      simp at hcc
      subst hcc
      exact ⟨rfl, rfl⟩
  | clearStatus =>
    obtain ⟨rest, hcons, hrw⟩ := stepSys_some_inv s Msg.clearStatus s2 _ rfl hs
    subst hrw
    refine fetchInvS_consume_other _ _ _ _ _ _ h hcons ?_
      (fetchStep_ofPS _ _ (fun i => rfl))
    intro c hpc i
    cases c <;> simp_all [altCntP, selCntP]
  | profileRefreshTick =>
    obtain ⟨rest, hcons, hrw⟩ := stepSys_some_inv s Msg.profileRefreshTick s2 _ rfl hs
    subst hrw
    refine fetchInvS_consume_other _ _ _ _ _ _ h hcons ?_ ?_
    · intro c hpc i
      cases c <;> simp_all [altCntP, selCntP]
    · refine fetchStep_of_frame _ _ _ (fun i => rfl) (fun i => rfl) ?_
      intro c hcc i
      rcases handleProfileRefreshTick_cmds _ c hcc with hq | hq <;> subst hq <;>
        exact ⟨rfl, rfl⟩
  | switchCompleted pid sel =>
    obtain ⟨rest, hcons, hrw⟩ :=
      stepSys_some_inv s (Msg.switchCompleted pid sel) s2 _ rfl hs
    subst hrw
    refine fetchInvS_consume_other _ _ _ _ _ _ h hcons ?_ ?_
    · intro c hpc i
      cases c <;> simp_all [altCntP, selCntP]
    · refine fetchStep_of_frame _ _ _
        (fun i => (handleSwitchCompleted_getPS_fetch _ pid sel i).1)
        (fun i => (handleSwitchCompleted_getPS_fetch _ pid sel i).2) ?_
      intro c hcc i
      have hcr : (update s.model (Msg.switchCompleted pid sel)).2 =
          [Cmd.clearStatusAfter statusClearDelay] := rfl
      rw [hcr] at hcc
      simp at hcc
      subst hcc
      exact ⟨rfl, rfl⟩
  | alternativesLoaded pid alts =>
    obtain ⟨rest, hcons, hrw⟩ :=
      stepSys_some_inv s (Msg.alternativesLoaded pid alts) s2 _ rfl hs
    subst hrw
    have hcs0 : (update s.model (Msg.alternativesLoaded pid alts)).2 = [] := rfl
    intro i
    obtain ⟨hA, hS⟩ := h i
    have hdropS : List.countP (selCntP i) rest =
        List.countP (selCntP i) s.pending := by
      refine consume1_countP_drop _ _ _ _ hcons ?_
      intro c hpc
      simp at hpc
      subst hpc
      rfl
    constructor
    · by_cases hi : i = pid
      · subst hi
        have hpick : List.countP (altCntP i) s.pending =
            List.countP (altCntP i) rest + 1 := by
          refine consume1_countP_pick _ _ _ _ hcons ?_
          intro c hpc
          simp at hpc
          subst hpc
          simp [altCntP]
        have hlold : ((s.model.getPS i)).loadingAlternatives = true := by
          rcases hold : ((s.model.getPS i)).loadingAlternatives
          · simp only [pendAlt, hold] at hA
            have hzero : List.countP (altCntP i) s.pending = 0 := by simpa using hA
            exfalso
            omega
          · rfl
        have hnew : (((update s.model
            (Msg.alternativesLoaded i alts)).1).getPS i).loadingAlternatives =
            false := handleAlternativesLoaded_la_self _ _ _
        have hone : List.countP (altCntP i) s.pending = 1 := by
          simp only [pendAlt, hlold] at hA
          simpa using hA
        simp only [pendAlt, List.countP_append, hcs0, hnew, List.countP_nil,
          Bool.false_eq_true, if_false]
        omega
      · have hdropA : List.countP (altCntP i) rest =
            List.countP (altCntP i) s.pending := by
          refine consume1_countP_drop _ _ _ _ hcons ?_
          intro c hpc
          simp at hpc
          subst hpc
          simp [altCntP]
          omega
        have hfr : (((update s.model
            (Msg.alternativesLoaded pid alts)).1).getPS i) = s.model.getPS i :=
          handleAlternativesLoaded_getPS_ne _ _ _ _ hi
        simp only [pendAlt, List.countP_append, hcs0, hdropA, hfr]
        simpa [pendAlt] using hA
    · have hfS : (((update s.model
          (Msg.alternativesLoaded pid alts)).1).getPS i).loadingSelection =
          ((s.model.getPS i)).loadingSelection :=
        handleAlternativesLoaded_ls_frame _ _ _ _
      simp only [pendSel, List.countP_append, hcs0, hdropS, hfS]
      simpa [pendSel] using hS
  | selectionLoaded pid sel =>
    obtain ⟨rest, hcons, hrw⟩ :=
      stepSys_some_inv s (Msg.selectionLoaded pid sel) s2 _ rfl hs
    subst hrw
    have hcs0 : (update s.model (Msg.selectionLoaded pid sel)).2 = [] := rfl
    intro i
    obtain ⟨hA, hS⟩ := h i
    have hdropA : List.countP (altCntP i) rest =
        List.countP (altCntP i) s.pending := by
      refine consume1_countP_drop _ _ _ _ hcons ?_
      intro c hpc
      simp at hpc
      subst hpc
      rfl
    constructor
    · have hfA : (((update s.model
          (Msg.selectionLoaded pid sel)).1).getPS i).loadingAlternatives =
          ((s.model.getPS i)).loadingAlternatives :=
        handleSelectionLoaded_la_frame _ _ _ _
      simp only [pendAlt, List.countP_append, hcs0, hdropA, hfA]
      simpa [pendAlt] using hA
    · by_cases hi : i = pid
      · subst hi
        have hpick : List.countP (selCntP i) s.pending =
            List.countP (selCntP i) rest + 1 := by
          refine consume1_countP_pick _ _ _ _ hcons ?_
          intro c hpc
          simp at hpc
          subst hpc
          simp [selCntP]
        have hlold : ((s.model.getPS i)).loadingSelection = true := by
          rcases hold : ((s.model.getPS i)).loadingSelection
          · simp only [pendSel, hold] at hS
            have hzero : List.countP (selCntP i) s.pending = 0 := by simpa using hS
            exfalso
            omega
          · rfl
        have hnew : (((update s.model
            (Msg.selectionLoaded i sel)).1).getPS i).loadingSelection =
            false := handleSelectionLoaded_ls_self _ _ _
        have hone : List.countP (selCntP i) s.pending = 1 := by
          simp only [pendSel, hlold] at hS
          simpa using hS
        simp only [pendSel, List.countP_append, hcs0, hnew, List.countP_nil,
          Bool.false_eq_true, if_false]
        omega
      · have hdropSne : List.countP (selCntP i) rest =
            List.countP (selCntP i) s.pending := by
          refine consume1_countP_drop _ _ _ _ hcons ?_
          intro c hpc
          simp at hpc
          subst hpc
          simp [selCntP]
          omega
        have hfr : (((update s.model
            (Msg.selectionLoaded pid sel)).1).getPS i) = s.model.getPS i :=
          handleSelectionLoaded_getPS_ne _ _ _ _ hi
        simp only [pendSel, List.countP_append, hcs0, hdropSne, hfr]
        simpa [pendSel] using hS
  | providerLoadFailed pid target e =>
    obtain ⟨rest, hcons, hrw⟩ :=
      stepSys_some_inv s (Msg.providerLoadFailed pid target e) s2 _ rfl hs
    subst hrw
    have hcr : (update s.model (Msg.providerLoadFailed pid target e)).2 =
        [Cmd.clearStatusAfter errorClearDelay] := rfl
    have hcnt0 : ∀ i, List.countP (altCntP i)
          (update s.model (Msg.providerLoadFailed pid target e)).2 = 0 ∧
        List.countP (selCntP i)
          (update s.model (Msg.providerLoadFailed pid target e)).2 = 0 := by
      intro i
      rw [hcr]
      exact ⟨rfl, rfl⟩
    by_cases t1 : target = "alternatives"
    · subst t1
      intro i
      obtain ⟨hA, hS⟩ := h i
      have hdropS : List.countP (selCntP i) rest =
          List.countP (selCntP i) s.pending := by
        refine consume1_countP_drop _ _ _ _ hcons ?_
        intro c hpc
        simp at hpc
        subst hpc
        rfl
      constructor
      · by_cases hi : i = pid
        · subst hi
          have hpick : List.countP (altCntP i) s.pending =
              List.countP (altCntP i) rest + 1 := by
            refine consume1_countP_pick _ _ _ _ hcons ?_
            intro c hpc
            simp at hpc
            subst hpc
            simp [altCntP]
          have hlold : ((s.model.getPS i)).loadingAlternatives = true := by
            rcases hold : ((s.model.getPS i)).loadingAlternatives
            · simp only [pendAlt, hold] at hA
              have hzero : List.countP (altCntP i) s.pending = 0 := by simpa using hA
              exfalso
              omega
            · rfl
          have hnew : (((update s.model
              (Msg.providerLoadFailed i "alternatives" e)).1).getPS
                i).loadingAlternatives = false :=
            handleProviderLoadFailed_alt_la_self _ _ _
          have hone : List.countP (altCntP i) s.pending = 1 := by
            simp only [pendAlt, hlold] at hA
            simpa using hA
          simp only [pendAlt, List.countP_append, (hcnt0 i).1, hnew,
            Bool.false_eq_true, if_false]
          omega
        · have hdropA : List.countP (altCntP i) rest =
              List.countP (altCntP i) s.pending := by
            refine consume1_countP_drop _ _ _ _ hcons ?_
            intro c hpc
            simp at hpc
            subst hpc
            simp [altCntP]
            omega
          have hfr : (((update s.model
              (Msg.providerLoadFailed pid "alternatives" e)).1).getPS i) =
              s.model.getPS i :=
            handleProviderLoadFailed_getPS_ne _ _ _ _ _ hi
          simp only [pendAlt, List.countP_append, (hcnt0 i).1, hdropA, hfr]
          simpa [pendAlt] using hA
      · have hfS : (((update s.model
            (Msg.providerLoadFailed pid "alternatives" e)).1).getPS
              i).loadingSelection = ((s.model.getPS i)).loadingSelection :=
          handleProviderLoadFailed_alt_ls_frame _ _ _ _
        simp only [pendSel, List.countP_append, (hcnt0 i).2, hdropS, hfS]
        simpa [pendSel] using hS
    by_cases t2 : target = "selection"
    · subst t2
      intro i
      obtain ⟨hA, hS⟩ := h i
      have hdropA : List.countP (altCntP i) rest =
          List.countP (altCntP i) s.pending := by
        refine consume1_countP_drop _ _ _ _ hcons ?_
        intro c hpc
        simp [t1] at hpc
        subst hpc
        rfl
      constructor
      · have hfA : (((update s.model
            (Msg.providerLoadFailed pid "selection" e)).1).getPS
              i).loadingAlternatives = ((s.model.getPS i)).loadingAlternatives :=
          handleProviderLoadFailed_sel_la_frame _ _ _ _
        simp only [pendAlt, List.countP_append, (hcnt0 i).1, hdropA, hfA]
        simpa [pendAlt] using hA
      · by_cases hi : i = pid
        · subst hi
          have hpick : List.countP (selCntP i) s.pending =
              List.countP (selCntP i) rest + 1 := by
            refine consume1_countP_pick _ _ _ _ hcons ?_
            intro c hpc
            simp [t1] at hpc
            subst hpc
            simp [selCntP]
          have hlold : ((s.model.getPS i)).loadingSelection = true := by
            rcases hold : ((s.model.getPS i)).loadingSelection
            · simp only [pendSel, hold] at hS
              have hzero : List.countP (selCntP i) s.pending = 0 := by simpa using hS
              exfalso
              omega
            · rfl
          have hnew : (((update s.model
              (Msg.providerLoadFailed i "selection" e)).1).getPS
                i).loadingSelection = false :=
            handleProviderLoadFailed_sel_ls_self _ _ _
          have hone : List.countP (selCntP i) s.pending = 1 := by
            simp only [pendSel, hlold] at hS
            simpa using hS
          simp only [pendSel, List.countP_append, (hcnt0 i).2, hnew,
            Bool.false_eq_true, if_false]
          omega
        · have hdropSne : List.countP (selCntP i) rest =
              List.countP (selCntP i) s.pending := by
            refine consume1_countP_drop _ _ _ _ hcons ?_
            intro c hpc
            simp [t1] at hpc
            subst hpc
            simp [selCntP]
            omega
          have hfr : (((update s.model
              (Msg.providerLoadFailed pid "selection" e)).1).getPS i) =
              s.model.getPS i :=
            handleProviderLoadFailed_getPS_ne _ _ _ _ _ hi
          simp only [pendSel, List.countP_append, (hcnt0 i).2, hdropSne, hfr]
          simpa [pendSel] using hS
    by_cases t3 : target = "switch"
    · subst t3
      refine fetchInvS_consume_other _ _ _ _ _ _ h hcons ?_ ?_
      · intro c hpc i
        simp [t1, t2] at hpc
        cases c <;> simp_all [altCntP, selCntP]
      · refine fetchStep_of_frame _ _ _
          (fun i => (handleProviderLoadFailed_switch_fetch _ pid e i).1)
          (fun i => (handleProviderLoadFailed_switch_fetch _ pid e i).2) ?_
        intro c hcc i
        rw [hcr] at hcc
        simp at hcc
        subst hcc
        exact ⟨rfl, rfl⟩
    · obtain ⟨c, hpc, _⟩ := consume1_exists_true _ _ _ hcons
      rw [if_neg t1, if_neg t2, if_neg t3] at hpc
      simp at hpc

theorem fetchInvS_init : FetchInvS initSys := by
  intro i
  constructor
  · simp [pendAlt, initSys, List.countP_cons, altCntP, initModel, Model.getPS, getMap]
  · simp [pendSel, initSys, List.countP_cons, selCntP, initModel, Model.getPS, getMap]

theorem fetchInvS_runSys (msgs : List Msg) (s0 s : Sys) (h0 : FetchInvS s0)
    (hnr : ∀ e ∈ msgs, e ≠ Msg.key "r")
    (hr : runSys s0 msgs = some s) : FetchInvS s := by
  induction msgs generalizing s0 with
  | nil =>
    simp only [runSys, Option.some.injEq] at hr
    rwa [← hr]
  | cons e es ih =>
    simp only [runSys] at hr
    cases hstep : stepSys s0 e <;> rw [hstep] at hr
    · simp at hr
    · simp only [Option.some_bind] at hr
      refine ih _ ?_ (fun e2 he2 => hnr e2 (List.mem_cons_of_mem _ he2)) hr
      exact fetchInvS_stepSys s0 _ e h0 (hnr e (List.mem_cons_self _ _)) hstep

/-! ## C2: at most one fetch in flight; the ensure operations are idempotent -/

/-- C2 (amended): along every honest trace that contains no manual refresh,
at most one alternatives fetch and at most one selection fetch is in flight
per provider group; and the ensure operations are idempotent: a detail load
queued while the corresponding loaded or loading flag is set issues no new
request for that sub-resource, and ensuring the provider list while it is
loaded or loading issues nothing.  The unamended per-trace bound fails for
traces with a manual refresh (see the counterexample). -/
theorem c2_single_flight_fetch_amended :
    (∀ (msgs : List Msg) (s : Sys), (∀ e ∈ msgs, e ≠ Msg.key "r") →
       runSys initSys msgs = some s →
       ∀ id, pendAlt id s.pending ≤ 1 ∧ pendSel id s.pending ≤ 1) ∧
    (∀ (m : Model) (pid : Int),
       ((m.getPS pid)).alternativesLoaded = true ∨
         ((m.getPS pid)).loadingAlternatives = true →
       ∀ c ∈ (m.queueProviderDetailLoad pid).2, c ≠ Cmd.loadAlternatives pid) ∧
    (∀ (m : Model) (pid : Int),
       ((m.getPS pid)).selectionLoaded = true ∨
         ((m.getPS pid)).loadingSelection = true →
       ∀ c ∈ (m.queueProviderDetailLoad pid).2, c ≠ Cmd.loadSelection pid) ∧
    (∀ m : Model, m.providersLoaded = true ∨ m.loadingProviders = true →
       m.ensureProvidersLoaded = (m, [])) := by
  refine ⟨?_, ?_, ?_, ?_⟩
  · intro msgs s hnr hr id
    obtain ⟨hA, hS⟩ := fetchInvS_runSys msgs initSys s fetchInvS_init hnr hr id
    constructor
    · rw [hA]
      split_ifs <;> omega
    · rw [hS]
      split_ifs <;> omega
  · intro m pid hflag c hc
    by_cases h0 : pid = 0
    · subst h0
      have he : m.queueProviderDetailLoad 0 = (m, []) := by
        simp [Model.queueProviderDetailLoad]
      rw [he] at hc
      simp at hc
    · rw [queue_cs m pid h0] at hc
      intro hceq
      subst hceq
      have hcond : ¬(((m.getPS pid)).alternativesLoaded = false ∧
          ((m.getPS pid)).loadingAlternatives = false) := by
        rcases hflag with hf | hf <;> simp [hf]
      rw [if_neg hcond] at hc
      simp at hc
  · intro m pid hflag c hc
    by_cases h0 : pid = 0
    · subst h0
      have he : m.queueProviderDetailLoad 0 = (m, []) := by
        simp [Model.queueProviderDetailLoad]
      rw [he] at hc
      simp at hc
    · rw [queue_cs m pid h0] at hc
      intro hceq
      subst hceq
      have hcond : ¬(((m.getPS pid)).selectionLoaded = false ∧
          ((m.getPS pid)).loadingSelection = false) := by
        rcases hflag with hf | hf <;> simp [hf]
      rw [if_neg hcond] at hc
      simp at hc
  · intro m hflag
    unfold Model.ensureProvidersLoaded
    rw [if_pos hflag]

set_option maxHeartbeats 1000000 in
/-- Witness for the amended C2: the refresh-free trace keeps both pending
counts at most 1; a queue with the alternatives (resp. selection) already
loaded issues no new fetch for that sub-resource; a loaded provider list
is not re-requested. -/
theorem c2_single_flight_fetch_amended_witness :
    (pendAlt 3 (sysAfter c2SafeTrace).pending ≤ 1 ∧
     pendSel 3 (sysAfter c2SafeTrace).pending ≤ 1) ∧
    Cmd.loadSelection 3 ≠ Cmd.loadAlternatives 3 ∧
    Cmd.loadAlternatives 3 ≠ Cmd.loadSelection 3 ∧
    sampleModel.ensureProvidersLoaded = (sampleModel, []) :=
  ⟨c2_single_flight_fetch_amended.1 c2SafeTrace (sysAfter c2SafeTrace)
      (by decide) rfl 3,
   c2_single_flight_fetch_amended.2.1 altOnlyModel 3 (Or.inl (by decide))
      (Cmd.loadSelection 3) (by decide),
   c2_single_flight_fetch_amended.2.2.1 selOnlyModel 3 (Or.inl (by decide))
      (Cmd.loadAlternatives 3) (by decide),
   c2_single_flight_fetch_amended.2.2.2 sampleModel (Or.inl rfl)⟩

set_option maxHeartbeats 1000000 in
/-- C2 counterexample: a manual refresh while the alternatives fetch is
still in flight clears the loading flag and re-issues the request, leaving
two alternatives fetches for group 3 in flight at once. -/
theorem c2_double_fetch_counterexample :
    (runSys initSys c2Trace).isSome = true ∧
    pendAlt 3 (sysAfter c2Trace).pending = 2 := by
  constructor <;> decide

/-! ### C10: empty provider list, detached id 0, and cache-map domain -/

/-! ### Map-domain basics -/

theorem ensureMap_dom (pd : Int → Option ProviderState) (pid k : Int)
    (h : ensureMap pd pid k ≠ none) :
    pd k ≠ none ∨ (k = pid ∧ k ≠ 0) := by
  unfold ensureMap updMap at h
  split_ifs at h with h1 h2
  · exact Or.inl h
  · exact Or.inl h
  · by_cases hk : k = pid
    · subst hk
      exact Or.inr ⟨rfl, h1⟩
    · exact Or.inl (by simpa [hk] using h)

theorem setMap_dom (pd : Int → Option ProviderState) (pid : Int)
    (st : ProviderState) (k : Int) (h : setMap pd pid st k ≠ none) :
    pd k ≠ none ∨ (k = pid ∧ k ≠ 0) := by
  unfold setMap updMap at h
  split_ifs at h with h1
  · exact Or.inl h
  · by_cases hk : k = pid
    · subst hk
      exact Or.inr ⟨rfl, h1⟩
    · exact Or.inl (by simpa [hk] using h)

theorem syncAltIdx_pd (m : Model) (pid : Int) :
    (m.syncAltIdx pid).providerData = m.providerData ∨
      (m.syncAltIdx pid).providerData = ensureMap m.providerData pid := by
  simp only [Model.syncAltIdx, Model.syncAltIdxTail]
  split_ifs
  · exact Or.inl rfl
  all_goals
    rcases ((m.ensurePS pid).getPS pid).selection with _ | sel <;>
      simp only [] <;> (try split_ifs) <;> exact Or.inr rfl

theorem syncAltIdx_dom (m : Model) (pid k : Int)
    (h : (m.syncAltIdx pid).providerData k ≠ none) :
    m.providerData k ≠ none ∨ (k = pid ∧ k ≠ 0) := by
  rcases syncAltIdx_pd m pid with hp | hp <;> rw [hp] at h
  · exact Or.inl h
  · exact ensureMap_dom _ _ _ h

theorem listGetI_mem {α : Type} [Inhabited α] (l : List α) (i : Int)
    (h0 : 0 ≤ i) (h1 : i < (l.length : Int)) : listGetI l i ∈ l := by
  unfold listGetI
  have hn : i.toNat < l.length := by omega
  rw [List.getD_eq_getElem l default hn]
  exact List.getElem_mem hn

theorem currentProviderID_nil (m : Model) (h : m.providers = []) :
    m.currentProviderID = 0 := by
  unfold Model.currentProviderID
  rw [if_pos (by simp [h])]

theorem currentProviderID_mem (m : Model) (hne : m.providers ≠ []) :
    m.currentProviderID ∈ providerIds m.providers := by
  unfold Model.currentProviderID
  have hlen : 0 < (m.providers.length : Int) := by
    have := List.length_pos.mpr hne
    omega
  rw [if_neg (by omega)]
  exact List.mem_map_of_mem _
    (listGetI_mem _ _ (clampIndex_nonneg _ _ hlen) (clampIndex_lt _ _ hlen))

/-! ### DomStep combinators -/

theorem domStep_id (m m2 : Model) (h1 : m2.providerData = m.providerData)
    (h2 : m2.providers = m.providers) : DomStep m m2 [] := by
  refine ⟨?_, ?_, h2⟩
  · intro k hk
    rw [h1] at hk
    exact Or.inl hk
  · intro c hc
    simp at hc

theorem domStep_trans (m m1 m2 : Model) (cs1 cs2 : List Cmd)
    (h1 : DomStep m m1 cs1) (h2 : DomStep m1 m2 cs2) :
    DomStep m m2 (cs1 ++ cs2) := by
  obtain ⟨a1, b1, c1⟩ := h1
  obtain ⟨a2, b2, c2⟩ := h2
  refine ⟨?_, ?_, c2.trans c1⟩
  · intro k hk
    rcases a2 k hk with hh | ⟨hz, hmem⟩
    · exact a1 k hh
    · rw [c1] at hmem
      exact Or.inr ⟨hz, hmem⟩
  · intro c hc id hid
    rcases List.mem_append.mp hc with hh | hh
    · exact b1 c hh id hid
    · have := b2 c hh id hid
      rw [c1] at this
      exact this

theorem domStep_shift (m m1 m2 : Model) (cs : List Cmd)
    (h1 : m1.providerData = m.providerData) (h2 : m1.providers = m.providers)
    (h : DomStep m1 m2 cs) : DomStep m m2 cs := by
  have := domStep_trans m m1 m2 [] cs (domStep_id m m1 h1 h2) h
  simpa using this

/-! ### DomStep for the entry-touching helpers -/

theorem queue_pd_dom (m : Model) (pid k : Int)
    (hk : (m.queueProviderDetailLoad pid).1.providerData k ≠ none) :
    m.providerData k ≠ none ∨ (k = pid ∧ k ≠ 0) := by
  have comp : ∀ s2, setMap (ensureMap m.providerData pid) pid s2 k ≠ none →
      m.providerData k ≠ none ∨ (k = pid ∧ k ≠ 0) := by
    intro s2 hh
    rcases setMap_dom _ _ _ _ hh with h2 | h2
    · exact ensureMap_dom _ _ _ h2
    · exact Or.inr h2
  simp only [Model.queueProviderDetailLoad, getPS_ensurePS] at hk
  split_ifs at hk
  all_goals
    first
    | exact Or.inl hk
    | exact comp _ hk
    | (rcases syncAltIdx_dom _ pid k hk with h | h
       · exact comp _ h
       · exact Or.inr h)

theorem queue_providers (m : Model) (pid : Int) :
    (m.queueProviderDetailLoad pid).1.providers = m.providers := by
  simp only [Model.queueProviderDetailLoad]
  split_ifs <;>
    first
    | rfl
    | exact (syncAltIdx_nav _ _).1

theorem domStep_queue_cpid (m : Model) :
    DomStep m (m.queueProviderDetailLoad m.currentProviderID).1
      (m.queueProviderDetailLoad m.currentProviderID).2 := by
  by_cases hc0 : m.currentProviderID = 0
  · have he : m.queueProviderDetailLoad m.currentProviderID = (m, []) := by
      rw [hc0]
      simp [Model.queueProviderDetailLoad]
    rw [he]
    exact domStep_id m m rfl rfl
  · have hne : m.providers ≠ [] := fun hp => hc0 (currentProviderID_nil m hp)
    have hmem := currentProviderID_mem m hne
    refine ⟨?_, ?_, ?_⟩
    · intro k hk
      rcases queue_pd_dom m _ k hk with h | ⟨he, hz⟩
      · exact Or.inl h
      · subst he
        exact Or.inr ⟨hz, hmem⟩
    · intro c hc id hid
      rcases queue_cmds m _ c hc with h | h <;> subst h <;>
        · simp only [cmdProviderID, Option.some.injEq] at hid
          subst hid
          exact ⟨hc0, hmem⟩
    · exact queue_providers m _

theorem domStep_syncAltIdx_cpid (m : Model) :
    DomStep m (m.syncAltIdx m.currentProviderID) [] := by
  by_cases hc0 : m.currentProviderID = 0
  · have hz : m.syncAltIdx 0 = m := by
      unfold Model.syncAltIdx
      rw [if_pos (Or.inl rfl)]
    rw [hc0, hz]
    exact domStep_id m m rfl rfl
  · have hne : m.providers ≠ [] := fun hp => hc0 (currentProviderID_nil m hp)
    have hmem := currentProviderID_mem m hne
    refine ⟨?_, ?_, (syncAltIdx_nav m _).1⟩
    · intro k hk
      rcases syncAltIdx_dom m _ k hk with h | ⟨he, hz⟩
      · exact Or.inl h
      · subst he
        exact Or.inr ⟨hz, hmem⟩
    · intro c hc
      simp at hc

theorem domStep_ensurePS_cpid (m : Model) :
    DomStep m (m.ensurePS m.currentProviderID) [] := by
  by_cases hc0 : m.currentProviderID = 0
  · rw [hc0, ensurePS_zero_model]
    exact domStep_id m m rfl rfl
  · have hne : m.providers ≠ [] := fun hp => hc0 (currentProviderID_nil m hp)
    have hmem := currentProviderID_mem m hne
    refine ⟨?_, ?_, rfl⟩
    · intro k hk
      rcases ensureMap_dom _ _ _ hk with h | ⟨he, hz⟩
      · exact Or.inl h
      · subst he
        exact Or.inr ⟨hz, hmem⟩
    · intro c hc
      simp at hc

theorem domStep_switchSelection (m : Model) :
    DomStep m (m.switchSelection).1 (m.switchSelection).2 := by
  by_cases hprov : m.providers = []
  · simp only [Model.switchSelection, if_pos hprov]
    exact domStep_id m m rfl rfl
  · have hmem := currentProviderID_mem m hprov
    simp only [Model.switchSelection, if_neg hprov, getPS_ensurePS]
    split_ifs with h1 h2 h3
    · exact domStep_ensurePS_cpid m
    · exact domStep_ensurePS_cpid m
    · exact domStep_ensurePS_cpid m
    · push_neg at h1
      have halts : (m.getPS m.currentProviderID).alternatives ≠ [] := h1.2.2
      have h0 : m.currentProviderID ≠ 0 := fun hz => by
        rw [hz, getPS_zero] at halts
        exact halts rfl
      refine ⟨?_, ?_, rfl⟩
      · intro k hk
        rcases setMap_dom _ _ _ _ hk with hh | hh
        · rcases ensureMap_dom _ _ _ hh with hg | hg
          · exact Or.inl hg
          · obtain ⟨he, hz⟩ := hg
            subst he
            exact Or.inr ⟨hz, hmem⟩
        · obtain ⟨he, hz⟩ := hh
          subst he
          exact Or.inr ⟨hz, hmem⟩
      · intro c hc id hid
        simp at hc
        subst hc
        simp only [cmdProviderID, Option.some.injEq] at hid
        subst hid
        exact ⟨h0, hmem⟩

theorem domStep_ensureProvidersLoaded (m : Model) :
    DomStep m (m.ensureProvidersLoaded).1 (m.ensureProvidersLoaded).2 := by
  refine ⟨?_, ?_, ?_⟩
  · intro k hk
    unfold Model.ensureProvidersLoaded at hk
    split_ifs at hk <;> exact Or.inl hk
  · intro c hc id hid
    rw [ensureProvidersLoaded_cmds m c hc] at hid
    simp [cmdProviderID] at hid
  · unfold Model.ensureProvidersLoaded
    split_ifs <;> rfl

theorem toggleBalancePreference_pd (m : Model) :
    (m.toggleBalancePreference).1.providerData = m.providerData := by
  unfold Model.toggleBalancePreference
  rcases m.profile with _ | p
  · rfl
  · simp only []
    split_ifs <;> rfl

theorem toggleBalancePreference_providers (m : Model) :
    (m.toggleBalancePreference).1.providers = m.providers := by
  unfold Model.toggleBalancePreference
  rcases m.profile with _ | p
  · rfl
  · simp only []
    split_ifs <;> rfl

theorem domStep_toggleBalancePreference (m : Model) :
    DomStep m (m.toggleBalancePreference).1 (m.toggleBalancePreference).2 := by
  refine ⟨?_, ?_, toggleBalancePreference_providers m⟩
  · intro k hk
    rw [toggleBalancePreference_pd m] at hk
    exact Or.inl hk
  · intro c hc id hid
    obtain ⟨t, ht⟩ := toggleBalancePreference_cmds m c hc
    subst ht
    simp [cmdProviderID] at hid

theorem domStep_refreshProfile (m : Model) :
    DomStep m (m.refreshProfile).1 (m.refreshProfile).2 := by
  refine ⟨fun k hk => Or.inl hk, ?_, rfl⟩
  intro c hc id hid
  simp [Model.refreshProfile] at hc
  subst hc
  simp [cmdProviderID] at hid

theorem domStep_refreshCurrentProvider (m : Model) :
    DomStep m (m.refreshCurrentProvider).1 (m.refreshCurrentProvider).2 := by
  simp only [Model.refreshCurrentProvider, getPS_ensurePS]
  split_ifs with hprov
  · exact domStep_id m m rfl rfl
  · have hmem := currentProviderID_mem m hprov
    have hpre : DomStep m
        ((m.ensurePS m.currentProviderID).setPS m.currentProviderID
          { m.getPS m.currentProviderID with
              alternativesLoaded := false, loadingAlternatives := false,
              selectionLoaded := false, loadingSelection := false }) [] := by
      refine ⟨?_, by intro c hc; simp at hc, rfl⟩
      intro k hk
      rcases setMap_dom _ _ _ _ hk with hh | hh
      · rcases ensureMap_dom _ _ _ hh with hg | hg
        · exact Or.inl hg
        · obtain ⟨he, hz⟩ := hg
          subst he
          exact Or.inr ⟨hz, hmem⟩
      · obtain ⟨he, hz⟩ := hh
        subst he
        exact Or.inr ⟨hz, hmem⟩
    have := domStep_trans _ _ _ [] _ hpre (domStep_queue_cpid _)
    simpa using this

theorem syncBalancePreferenceIdx_pd (m : Model) :
    (m.syncBalancePreferenceIdx).providerData = m.providerData := by
  unfold Model.syncBalancePreferenceIdx
  rcases m.profile with _ | p
  · rfl
  · simp only []
    split_ifs <;> rfl

theorem syncBalancePreferenceIdx_providers (m : Model) :
    (m.syncBalancePreferenceIdx).providers = m.providers := by
  unfold Model.syncBalancePreferenceIdx
  rcases m.profile with _ | p
  · rfl
  · simp only []
    split_ifs <;> rfl

theorem domStep_moveSelection (m : Model) (d : Int) :
    DomStep m (m.moveSelection d).1 (m.moveSelection d).2 := by
  simp only [Model.moveSelection]
  split_ifs with hprov hfoc halt
  · exact domStep_id m m rfl rfl
  · have hs1 := domStep_shift m _ _ [] rfl rfl
      (domStep_syncAltIdx_cpid
        { m with providerIdx := clampIndex (m.providerIdx + d) m.providers.length })
    have := domStep_trans _ _ _ [] _ hs1 (domStep_queue_cpid _)
    simpa using this
  · exact domStep_ensurePS_cpid m
  · have hmem := currentProviderID_mem m hprov
    refine ⟨?_, by intro c hc; simp at hc, rfl⟩
    intro k hk
    rcases ensureMap_dom m.providerData m.currentProviderID k hk with h | ⟨he, hz⟩
    · exact Or.inl h
    · subst he
      exact Or.inr ⟨hz, hmem⟩

theorem domStep_handleQuitAndHelp (m : Model) (ks : String) :
    DomStep m (m.handleQuitAndHelp ks).1 (m.handleQuitAndHelp ks).2 := by
  refine ⟨?_, ?_, ?_⟩
  · intro k hk
    unfold Model.handleQuitAndHelp at hk
    split_ifs at hk <;> exact Or.inl hk
  · intro c hc id hid
    rw [handleQuitAndHelp_cmds m ks c hc] at hid
    simp [cmdProviderID] at hid
  · unfold Model.handleQuitAndHelp
    split_ifs <;> rfl

theorem domStep_handleTabChanged (m : Model) :
    DomStep m (m.handleTabChanged).1 (m.handleTabChanged).2 := by
  unfold Model.handleTabChanged
  split_ifs
  · exact domStep_shift m _ _ _ rfl rfl (domStep_ensureProvidersLoaded _)
  · exact domStep_id _ _ (syncBalancePreferenceIdx_pd _)
      (syncBalancePreferenceIdx_providers _)
  · exact domStep_id m m rfl rfl

theorem domStep_handleTabSwitch (m : Model) (ks : String) :
    DomStep m (m.handleTabSwitch ks).1 (m.handleTabSwitch ks).2 := by
  unfold Model.handleTabSwitch Model.switchToNextTab Model.switchToPrevTab
  split_ifs <;>
    first
    | exact domStep_id _ _ rfl rfl
    | exact domStep_shift m _ _ _ rfl rfl (domStep_ensureProvidersLoaded _)
    | exact domStep_id _ _ (syncBalancePreferenceIdx_pd _)
        (syncBalancePreferenceIdx_providers _)
    | exact domStep_shift m _ _ _ rfl rfl (domStep_handleTabChanged _)

theorem domStep_handleFocusSwitch (m : Model) (ks : String) :
    DomStep m (m.handleFocusSwitch ks) [] := by
  unfold Model.handleFocusSwitch
  split_ifs <;>
    first
    | exact domStep_id _ _ rfl rfl
    | exact domStep_shift m _ _ [] rfl rfl (domStep_syncAltIdx_cpid _)

theorem domStep_handleRefresh (m : Model) (ks : String) :
    DomStep m (m.handleRefresh ks).1 (m.handleRefresh ks).2 := by
  unfold Model.handleRefresh
  split_ifs <;>
    first
    | exact domStep_id _ _ rfl rfl
    | exact domStep_refreshProfile _
    | exact domStep_refreshCurrentProvider _

theorem domStep_handleEnter (m : Model) (ks : String) :
    DomStep m (m.handleEnter ks).1 (m.handleEnter ks).2 := by
  unfold Model.handleEnter
  split_ifs <;>
    first
    | exact domStep_id _ _ rfl rfl
    | exact domStep_switchSelection _
    | exact domStep_toggleBalancePreference _

theorem domStep_handleNavigation (m : Model) (ks : String) :
    DomStep m (m.handleNavigation ks).1 (m.handleNavigation ks).2 := by
  simp only [Model.handleNavigation]
  split_ifs <;>
    first
    | exact domStep_id _ _ rfl rfl
    | exact domStep_moveSelection _ _

theorem domStep_handleKey (m : Model) (ks : String) :
    DomStep m (m.handleKey ks).1 (m.handleKey ks).2 := by
  simp only [Model.handleKey]
  split_ifs with hcc h1 h2 h3 h4
  · refine ⟨fun k hk => Or.inl hk, ?_, rfl⟩
    intro c hc id hid
    simp at hc
    subst hc
    simp [cmdProviderID] at hid
  · exact domStep_handleQuitAndHelp _ _
  · simp only [ne_eq, not_not] at h1
    have := domStep_trans _ _ _ _ _ (domStep_handleQuitAndHelp m ks)
      (domStep_handleTabSwitch _ ks)
    rw [h1] at this
    simpa using this
  · simp only [ne_eq, not_not] at h1 h2
    have := domStep_trans _ _ _ _ _ (domStep_trans _ _ _ _ _
      (domStep_trans _ _ _ _ _ (domStep_handleQuitAndHelp m ks)
        (domStep_handleTabSwitch _ ks))
      (domStep_handleFocusSwitch _ ks))
      (domStep_handleRefresh _ ks)
    rw [h1, h2] at this
    simpa using this
  · simp only [ne_eq, not_not] at h1 h2 h3
    have := domStep_trans _ _ _ _ _ (domStep_trans _ _ _ _ _
      (domStep_trans _ _ _ _ _ (domStep_trans _ _ _ _ _
        (domStep_handleQuitAndHelp m ks) (domStep_handleTabSwitch _ ks))
      (domStep_handleFocusSwitch _ ks))
      (domStep_handleRefresh _ ks))
      (domStep_handleEnter _ ks)
    rw [h1, h2, h3] at this
    simpa using this
  · simp only [ne_eq, not_not] at h1 h2 h3 h4
    have := domStep_trans _ _ _ _ _ (domStep_trans _ _ _ _ _
      (domStep_trans _ _ _ _ _ (domStep_trans _ _ _ _ _
        (domStep_trans _ _ _ _ _ (domStep_handleQuitAndHelp m ks)
          (domStep_handleTabSwitch _ ks))
        (domStep_handleFocusSwitch _ ks))
      (domStep_handleRefresh _ ks))
      (domStep_handleEnter _ ks))
      (domStep_handleNavigation _ ks)
    rw [h1, h2, h3, h4] at this
    simpa using this

theorem domStep_handleMouseWheel (m : Model) (d : Int) :
    DomStep m (m.handleMouseWheel d).1 (m.handleMouseWheel d).2 := by
  unfold Model.handleMouseWheel
  split_ifs <;>
    first
    | exact domStep_id _ _ rfl rfl
    | exact domStep_moveSelection _ _

theorem domStep_handleTabClick (m : Model) (x : Int) :
    DomStep m (m.handleTabClick x).1 (m.handleTabClick x).2 := by
  unfold Model.handleTabClick
  split_ifs <;>
    first
    | exact domStep_id _ _ rfl rfl
    | exact domStep_shift m _ _ _ rfl rfl (domStep_ensureProvidersLoaded _)
    | exact domStep_id _ _ (syncBalancePreferenceIdx_pd _)
        (syncBalancePreferenceIdx_providers _)

theorem domStep_congr (m m2 m2' : Model) (cs : List Cmd)
    (hpd : m2'.providerData = m2.providerData)
    (hpr : m2'.providers = m2.providers)
    (h : DomStep m m2 cs) : DomStep m m2' cs := by
  obtain ⟨a, b, c⟩ := h
  exact ⟨fun k hk => a k (hpd ▸ hk), b, hpr.trans c⟩

theorem domStep_handleProvidersClick (m : Model) (x contentY : Int) :
    DomStep m (m.handleProvidersClick x contentY).1
      (m.handleProvidersClick x contentY).2 := by
  simp only [Model.handleProvidersClick]
  split_ifs with h1 h2 h3 h4 h5
  · exact domStep_id m m rfl rfl
  · exact domStep_shift m _ _ _ rfl rfl (domStep_queue_cpid _)
  · exact domStep_id _ _ rfl rfl
  · have h0 : DomStep m ({ ({ m with focus := FocusArea.focusAlternatives } : Model).ensurePS
        ({ m with focus := FocusArea.focusAlternatives } : Model).currentProviderID with
          altIdx := contentY - panelInnerOffsetY } : Model) [] :=
      domStep_congr _ _ _ _ rfl rfl
        (domStep_shift m _ _ [] rfl rfl
          (domStep_ensurePS_cpid { m with focus := FocusArea.focusAlternatives }))
    have := domStep_trans _ _ _ [] _ h0 (domStep_switchSelection _)
    simpa using this
  · have h0 : DomStep m (({ m with focus := FocusArea.focusAlternatives } : Model).ensurePS
        ({ m with focus := FocusArea.focusAlternatives } : Model).currentProviderID) [] :=
      domStep_shift m _ _ [] rfl rfl
        (domStep_ensurePS_cpid { m with focus := FocusArea.focusAlternatives })
    have := domStep_trans _ _ _ [] [] h0 (domStep_syncAltIdx_cpid _)
    simpa using this
  · exact domStep_shift m _ _ [] rfl rfl
      (domStep_ensurePS_cpid { m with focus := FocusArea.focusAlternatives })

theorem domStep_handleBalancePreferenceClick (m : Model) (contentY : Int) :
    DomStep m (m.handleBalancePreferenceClick contentY).1
      (m.handleBalancePreferenceClick contentY).2 := by
  unfold Model.handleBalancePreferenceClick
  split_ifs <;>
    first
    | exact domStep_id _ _ rfl rfl
    | exact domStep_shift m _ _ _ rfl rfl (domStep_toggleBalancePreference _)

theorem domStep_handleContentClick (m : Model) (x y : Int) :
    DomStep m (m.handleContentClick x y).1 (m.handleContentClick x y).2 := by
  unfold Model.handleContentClick
  split_ifs <;>
    first
    | exact domStep_id _ _ rfl rfl
    | exact domStep_handleProvidersClick _ _ _
    | exact domStep_handleBalancePreferenceClick _ _

theorem domStep_handleMouseClick (m : Model) (x y : Int) :
    DomStep m (m.handleMouseClick x y).1 (m.handleMouseClick x y).2 := by
  unfold Model.handleMouseClick
  split_ifs <;>
    first
    | exact domStep_id _ _ rfl rfl
    | exact domStep_handleTabClick _ _
    | exact domStep_handleContentClick _ _ _

theorem ensurePS_dom (m : Model) (pid k : Int)
    (h : (m.ensurePS pid).providerData k ≠ none) :
    m.providerData k ≠ none ∨ (k = pid ∧ k ≠ 0) :=
  ensureMap_dom _ _ _ h

theorem setPS_dom (m : Model) (pid : Int) (st : ProviderState) (k : Int)
    (h : (m.setPS pid st).providerData k ≠ none) :
    m.providerData k ≠ none ∨ (k = pid ∧ k ≠ 0) :=
  setMap_dom _ _ _ _ h

theorem handleAlternativesLoaded_pd_dom (m : Model) (pid : Int)
    (alts : List AlternativeOption) (k : Int)
    (h : (m.handleAlternativesLoaded pid alts).providerData k ≠ none) :
    m.providerData k ≠ none ∨ (k = pid ∧ k ≠ 0) := by
  simp only [Model.handleAlternativesLoaded] at h
  split_ifs at h
  all_goals
    rcases syncAltIdx_dom _ pid k h with h2 | h2
  all_goals try exact Or.inr h2
  all_goals
    rcases setPS_dom _ pid _ k h2 with h3 | h3
  all_goals try exact Or.inr h3
  all_goals exact ensurePS_dom _ _ _ h3

theorem handleAlternativesLoaded_providers (m : Model) (pid : Int)
    (alts : List AlternativeOption) :
    (m.handleAlternativesLoaded pid alts).providers = m.providers := by
  simp only [Model.handleAlternativesLoaded]
  split_ifs <;> exact (syncAltIdx_nav _ _).1

theorem handleSelectionLoaded_pd_dom (m : Model) (pid : Int)
    (sel : ProviderSelection) (k : Int)
    (h : (m.handleSelectionLoaded pid sel).providerData k ≠ none) :
    m.providerData k ≠ none ∨ (k = pid ∧ k ≠ 0) := by
  simp only [Model.handleSelectionLoaded] at h
  split_ifs at h
  all_goals
    rcases syncAltIdx_dom _ pid k h with h2 | h2
  all_goals try exact Or.inr h2
  all_goals
    rcases setPS_dom _ pid _ k h2 with h3 | h3
  all_goals try exact Or.inr h3
  all_goals exact ensurePS_dom _ _ _ h3

theorem handleSelectionLoaded_providers (m : Model) (pid : Int)
    (sel : ProviderSelection) :
    (m.handleSelectionLoaded pid sel).providers = m.providers := by
  simp only [Model.handleSelectionLoaded]
  split_ifs <;> exact (syncAltIdx_nav _ _).1

theorem handleSwitchCompleted_pd_dom (m : Model) (pid : Int)
    (sel : ProviderSelection) (k : Int)
    (h : (m.handleSwitchCompleted pid sel).1.providerData k ≠ none) :
    m.providerData k ≠ none ∨ (k = pid ∧ k ≠ 0) := by
  simp only [Model.handleSwitchCompleted] at h
  rcases syncAltIdx_dom _ pid k h with h2 | h2
  · rcases setPS_dom _ pid _ k h2 with h3 | h3
    · exact ensurePS_dom _ _ _ h3
    · exact Or.inr h3
  · exact Or.inr h2

theorem handleSwitchCompleted_providers_eq (m : Model) (pid : Int)
    (sel : ProviderSelection) :
    (m.handleSwitchCompleted pid sel).1.providers = m.providers := by
  simp only [Model.handleSwitchCompleted]
  exact (syncAltIdx_nav _ _).1

theorem handleProviderLoadFailed_pd_dom (m : Model) (pid : Int) (target e : String)
    (k : Int) (h : (m.handleProviderLoadFailed pid target e).1.providerData k ≠ none) :
    m.providerData k ≠ none ∨ (k = pid ∧ k ≠ 0) := by
  simp only [Model.handleProviderLoadFailed] at h
  rcases setPS_dom _ pid _ k h with h2 | h2
  · exact ensurePS_dom _ _ _ h2
  · exact Or.inr h2

theorem handleProviderLoadFailed_providers_eq (m : Model) (pid : Int)
    (target e : String) :
    (m.handleProviderLoadFailed pid target e).1.providers = m.providers := rfl

theorem handlePreferenceUpdated_pd (m : Model) (pref : String) :
    (m.handlePreferenceUpdated pref).1.providerData = m.providerData := by
  simp only [Model.handlePreferenceUpdated]
  cases hp : m.profile <;> simp only [hp] <;> exact syncBalancePreferenceIdx_pd _

theorem handlePreferenceUpdated_providers (m : Model) (pref : String) :
    (m.handlePreferenceUpdated pref).1.providers = m.providers := by
  simp only [Model.handlePreferenceUpdated]
  cases hp : m.profile <;> simp only [hp] <;>
    exact syncBalancePreferenceIdx_providers _

theorem domStep_handlePreferenceUpdated (m : Model) (pref : String) :
    DomStep m (m.handlePreferenceUpdated pref).1 (m.handlePreferenceUpdated pref).2 := by
  refine ⟨?_, ?_, handlePreferenceUpdated_providers m pref⟩
  · intro k hk
    rw [handlePreferenceUpdated_pd] at hk
    exact Or.inl hk
  · intro c hc id hid
    have hc1 : c ∈ [Cmd.clearStatusAfter statusClearDelay] := hc
    have hc2 : c = Cmd.clearStatusAfter statusClearDelay := by simpa using hc1
    subst hc2
    simp [cmdProviderID] at hid

theorem domStep_handlePreferenceFailed (m : Model) (e : String) :
    DomStep m (m.handlePreferenceFailed e).1 (m.handlePreferenceFailed e).2 := by
  refine ⟨fun k hk => Or.inl hk, ?_, rfl⟩
  intro c hc id hid
  have hc1 : c ∈ [Cmd.clearStatusAfter errorClearDelay] := hc
  have hc2 : c = Cmd.clearStatusAfter errorClearDelay := by simpa using hc1
  subst hc2
  simp [cmdProviderID] at hid

theorem handleError_pd (m : Model) (e : String) :
    (m.handleError e).1.providerData = m.providerData := by
  simp only [Model.handleError]
  split_ifs <;> rfl

theorem handleError_providers (m : Model) (e : String) :
    (m.handleError e).1.providers = m.providers := by
  simp only [Model.handleError]
  split_ifs <;> rfl

theorem domStep_handleError (m : Model) (e : String) :
    DomStep m (m.handleError e).1 (m.handleError e).2 := by
  refine ⟨?_, ?_, handleError_providers m e⟩
  · intro k hk
    rw [handleError_pd] at hk
    exact Or.inl hk
  · intro c hc id hid
    rw [handleError_cmds] at hc
    have hc2 : c = Cmd.clearStatusAfter errorClearDelay := by simpa using hc
    subst hc2
    simp [cmdProviderID] at hid

theorem domStep_profileRefreshTick (m : Model) :
    DomStep m m (m.handleProfileRefreshTick) := by
  refine ⟨fun k hk => Or.inl hk, ?_, rfl⟩
  intro c hc id hid
  unfold Model.handleProfileRefreshTick at hc
  split_ifs at hc <;> simp at hc
  · rcases hc with h | h <;> subst h <;> simp [cmdProviderID] at hid
  · subst hc
    simp [cmdProviderID] at hid

theorem handleProvidersLoaded_dom (m : Model) (r : ProvidersResponse) :
    (∀ k, (m.handleProvidersLoaded r).1.providerData k ≠ none →
       m.providerData k ≠ none ∨ (k ≠ 0 ∧ k ∈ providerIds r.providers)) ∧
    (∀ c ∈ (m.handleProvidersLoaded r).2, ∀ id, cmdProviderID c = some id →
       id ≠ 0 ∧ id ∈ providerIds r.providers) ∧
    (m.handleProvidersLoaded r).1.providers = r.providers := by
  have hD : DomStep
      { m with providers := r.providers, providersLoaded := true,
               loadingProviders := false }
      (m.handleProvidersLoaded r).1 (m.handleProvidersLoaded r).2 := by
    simp only [Model.handleProvidersLoaded]
    split_ifs <;>
      first
      | exact domStep_id _ _ rfl rfl
      | exact domStep_shift _ _ _ _ rfl rfl (domStep_queue_cpid _)
  obtain ⟨a, b, c⟩ := hD
  exact ⟨a, b, c⟩

theorem domInvS_mono (s : Sys) (E E2 : List Int) (h : DomInvS s E)
    (hsub : ∀ x ∈ E, x ∈ E2) : DomInvS s E2 := by
  obtain ⟨hmap, hpend, hlist⟩ := h
  exact ⟨fun k hk => ⟨(hmap k hk).1, hsub _ (hmap k hk).2⟩,
         fun c hc id hid => ⟨(hpend c hc id hid).1, hsub _ (hpend c hc id hid).2⟩,
         fun id hid => hsub _ (hlist id hid)⟩

theorem domInvS_append (m : Model) (l : List Cmd) (m2 : Model) (cs : List Cmd)
    (E : List Int) (h : DomInvS ⟨m, l⟩ E) (hstep : DomStep m m2 cs) :
    DomInvS ⟨m2, l ++ cs⟩ E := by
  obtain ⟨hmap, hpend, hlist⟩ := h
  obtain ⟨a, b, c⟩ := hstep
  refine ⟨?_, ?_, ?_⟩
  · intro k hk
    rcases a k hk with h1 | ⟨h1, h2⟩
    · exact hmap k h1
    · exact ⟨h1, hlist _ h2⟩
  · intro c2 hc id hid
    rcases List.mem_append.mp hc with h1 | h1
    · exact hpend c2 h1 id hid
    · obtain ⟨hz, hm2⟩ := b c2 h1 id hid
      exact ⟨hz, hlist _ hm2⟩
  · intro id hid
    have hid2 : id ∈ providerIds m2.providers := hid
    rw [c] at hid2
    exact hlist id hid2

theorem domInvS_consume (m : Model) (l rest : List Cmd) (p : Cmd → Bool)
    (E : List Int) (m2 : Model) (cs : List Cmd)
    (h : DomInvS ⟨m, l⟩ E) (hcons : consume1 p l = some rest)
    (hstep : DomStep m m2 cs) : DomInvS ⟨m2, rest ++ cs⟩ E := by
  obtain ⟨hmap, hpend, hlist⟩ := h
  refine domInvS_append m rest m2 cs E ⟨hmap, ?_, hlist⟩ hstep
  intro c hc id hid
  exact hpend c (consume1_sub p l rest hcons c hc) id hid

theorem domInvS_consumeScoped (m : Model) (l rest : List Cmd) (p : Cmd → Bool)
    (E : List Int) (pid : Int) (m2 : Model) (cs : List Cmd)
    (h : DomInvS ⟨m, l⟩ E) (hcons : consume1 p l = some rest)
    (hpidE : pid ∈ E)
    (hpd : ∀ k, m2.providerData k ≠ none →
       m.providerData k ≠ none ∨ (k = pid ∧ k ≠ 0))
    (hpr : m2.providers = m.providers)
    (hcs : ∀ c ∈ cs, cmdProviderID c = none) :
    DomInvS ⟨m2, rest ++ cs⟩ E := by
  obtain ⟨hmap, hpend, hlist⟩ := h
  refine ⟨?_, ?_, ?_⟩
  · intro k hk
    rcases hpd k hk with h1 | ⟨he, hz⟩
    · exact hmap k h1
    · subst he
      exact ⟨hz, hpidE⟩
  · intro c hc id hid
    rcases List.mem_append.mp hc with h1 | h1
    · exact hpend c (consume1_sub p l rest hcons c h1) id hid
    · rw [hcs c h1] at hid
      simp at hid
  · intro id hid
    have hid2 : id ∈ providerIds m2.providers := hid
    rw [hpr] at hid2
    exact hlist id hid2

theorem everIds_cons (e : Msg) (es : List Msg) :
    everIds (e :: es) = everIds [e] ++ everIds es := by
  cases e <;> simp [everIds]

theorem domInvS_stepSys (s s2 : Sys) (e : Msg) (E : List Int)
    (h : DomInvS s E) (hs : stepSys s e = some s2) :
    DomInvS s2 (E ++ everIds [e]) := by
  cases e with
  | key k =>
    rw [stepSys_none s (Msg.key k) rfl] at hs
    simp only [Option.some.injEq] at hs
    subst hs
    exact domInvS_mono _ _ _
      (domInvS_append _ _ _ _ _ h (domStep_handleKey s.model k))
      (fun x hx => List.mem_append.mpr (Or.inl hx))
  | wheelUp =>
    rw [stepSys_none s Msg.wheelUp rfl] at hs
    simp only [Option.some.injEq] at hs
    subst hs
    exact domInvS_mono _ _ _
      (domInvS_append _ _ _ _ _ h (domStep_handleMouseWheel s.model (-1)))
      (fun x hx => List.mem_append.mpr (Or.inl hx))
  | wheelDown =>
    rw [stepSys_none s Msg.wheelDown rfl] at hs
    simp only [Option.some.injEq] at hs
    subst hs
    exact domInvS_mono _ _ _
      (domInvS_append _ _ _ _ _ h (domStep_handleMouseWheel s.model 1))
      (fun x hx => List.mem_append.mpr (Or.inl hx))
  | leftClick x y =>
    rw [stepSys_none s (Msg.leftClick x y) rfl] at hs
    simp only [Option.some.injEq] at hs
    subst hs
    exact domInvS_mono _ _ _
      (domInvS_append _ _ _ _ _ h (domStep_handleMouseClick s.model x y))
      (fun x hx => List.mem_append.mpr (Or.inl hx))
  | windowSize w hh =>
    rw [stepSys_none s (Msg.windowSize w hh) rfl] at hs
    simp only [Option.some.injEq] at hs
    subst hs
    exact domInvS_mono _ _ _
      (domInvS_append _ _ _ _ _ h (domStep_id _ _ rfl rfl))
      (fun x hx => List.mem_append.mpr (Or.inl hx))
  | profileLoaded p =>
    obtain ⟨rest, hcons, hs2⟩ :=
      stepSys_some_inv s (Msg.profileLoaded p) s2 _ rfl hs
    subst hs2
    exact domInvS_mono _ _ _
      (domInvS_consume _ _ _ _ _ _ _ h hcons (domStep_id _ _ rfl rfl))
      (fun x hx => List.mem_append.mpr (Or.inl hx))
  | providersLoaded r =>
    obtain ⟨rest, hcons, hs2⟩ :=
      stepSys_some_inv s (Msg.providersLoaded r) s2 _ rfl hs
    subst hs2
    obtain ⟨hmap, hpend, hlist⟩ := h
    obtain ⟨a, b, c⟩ := handleProvidersLoaded_dom s.model r
    refine ⟨?_, ?_, ?_⟩
    · intro k hk
      rcases a k hk with h1 | ⟨h1, h2⟩
      · obtain ⟨hz, hE⟩ := hmap k h1
        exact ⟨hz, List.mem_append.mpr (Or.inl hE)⟩
      · refine ⟨h1, List.mem_append.mpr (Or.inr ?_)⟩
        simp only [everIds, List.append_nil]
        exact h2
    · intro c2 hc id hid
      rcases List.mem_append.mp hc with h1 | h1
      · obtain ⟨hz, hE⟩ := hpend c2 (consume1_sub _ _ _ hcons c2 h1) id hid
        exact ⟨hz, List.mem_append.mpr (Or.inl hE)⟩
      · obtain ⟨hz, hE⟩ := b c2 h1 id hid
        refine ⟨hz, List.mem_append.mpr (Or.inr ?_)⟩
        simp only [everIds, List.append_nil]
        exact hE
    · intro id hid
      have hupd : (update s.model (Msg.providersLoaded r)).1.providers
          = r.providers := c
      have hid2 : id ∈ providerIds
          ((update s.model (Msg.providersLoaded r)).1.providers) := hid
      rw [hupd] at hid2
      refine List.mem_append.mpr (Or.inr ?_)
      simp only [everIds, List.append_nil]
      exact hid2
  | alternativesLoaded pid alts =>
    obtain ⟨rest, hcons, hs2⟩ :=
      stepSys_some_inv s (Msg.alternativesLoaded pid alts) s2 _ rfl hs
    subst hs2
    obtain ⟨hmap, hpend, hlist⟩ := h
    obtain ⟨c0, hpc0, hc0⟩ := consume1_exists_true _ _ _ hcons
    simp at hpc0
    subst hpc0
    have hpidE := (hpend _ hc0 pid rfl).2
    refine domInvS_mono _ _ _
      (domInvS_consumeScoped _ _ _ _ E pid _ _ ⟨hmap, hpend, hlist⟩ hcons hpidE
        (handleAlternativesLoaded_pd_dom s.model pid alts)
        (handleAlternativesLoaded_providers s.model pid alts) ?_)
      (fun x hx => List.mem_append.mpr (Or.inl hx))
    intro c hc
    exact absurd hc (List.not_mem_nil c)
  | selectionLoaded pid sel =>
    obtain ⟨rest, hcons, hs2⟩ :=
      stepSys_some_inv s (Msg.selectionLoaded pid sel) s2 _ rfl hs
    subst hs2
    obtain ⟨hmap, hpend, hlist⟩ := h
    obtain ⟨c0, hpc0, hc0⟩ := consume1_exists_true _ _ _ hcons
    simp at hpc0
    subst hpc0
    have hpidE := (hpend _ hc0 pid rfl).2
    refine domInvS_mono _ _ _
      (domInvS_consumeScoped _ _ _ _ E pid _ _ ⟨hmap, hpend, hlist⟩ hcons hpidE
        (handleSelectionLoaded_pd_dom s.model pid sel)
        (handleSelectionLoaded_providers s.model pid sel) ?_)
      (fun x hx => List.mem_append.mpr (Or.inl hx))
    intro c hc
    exact absurd hc (List.not_mem_nil c)
  | switchCompleted pid sel =>
    obtain ⟨rest, hcons, hs2⟩ :=
      stepSys_some_inv s (Msg.switchCompleted pid sel) s2 _ rfl hs
    subst hs2
    obtain ⟨hmap, hpend, hlist⟩ := h
    obtain ⟨c0, hpc0, hc0⟩ := consume1_exists_true _ _ _ hcons
    cases c0 <;> simp at hpc0
    rw [hpc0] at hc0
    have hpidE := (hpend _ hc0 pid rfl).2
    refine domInvS_mono _ _ _
      (domInvS_consumeScoped _ _ _ _ E pid _ _ ⟨hmap, hpend, hlist⟩ hcons hpidE
        (handleSwitchCompleted_pd_dom s.model pid sel)
        (handleSwitchCompleted_providers_eq s.model pid sel) ?_)
      (fun x hx => List.mem_append.mpr (Or.inl hx))
    intro c hc
    have hc1 : c ∈ [Cmd.clearStatusAfter statusClearDelay] := hc
    have hc2 : c = Cmd.clearStatusAfter statusClearDelay := by simpa using hc1
    subst hc2
    rfl
  | preferenceUpdated pref =>
    obtain ⟨rest, hcons, hs2⟩ :=
      stepSys_some_inv s (Msg.preferenceUpdated pref) s2 _ rfl hs
    subst hs2
    exact domInvS_mono _ _ _
      (domInvS_consume _ _ _ _ _ _ _ h hcons
        (domStep_handlePreferenceUpdated s.model pref))
      (fun x hx => List.mem_append.mpr (Or.inl hx))
  | preferenceFailed e =>
    obtain ⟨rest, hcons, hs2⟩ :=
      stepSys_some_inv s (Msg.preferenceFailed e) s2 _ rfl hs
    subst hs2
    exact domInvS_mono _ _ _
      (domInvS_consume _ _ _ _ _ _ _ h hcons
        (domStep_handlePreferenceFailed s.model e))
      (fun x hx => List.mem_append.mpr (Or.inl hx))
  | providerLoadFailed pid target e =>
    obtain ⟨rest, hcons, hs2⟩ :=
      stepSys_some_inv s (Msg.providerLoadFailed pid target e) s2 _ rfl hs
    subst hs2
    obtain ⟨hmap, hpend, hlist⟩ := h
    obtain ⟨c0, hpc0, hc0⟩ := consume1_exists_true _ _ _ hcons
    have hpidE : pid ∈ E := by
      split_ifs at hpc0 with t1 t2 t3
      · simp at hpc0
        subst hpc0
        exact (hpend _ hc0 pid rfl).2
      · simp at hpc0
        subst hpc0
        exact (hpend _ hc0 pid rfl).2
      · cases c0 <;> simp at hpc0
        rw [hpc0] at hc0
        exact (hpend _ hc0 pid rfl).2
    refine domInvS_mono _ _ _
      (domInvS_consumeScoped _ _ _ _ E pid _ _ ⟨hmap, hpend, hlist⟩ hcons hpidE
        (handleProviderLoadFailed_pd_dom s.model pid target e)
        (handleProviderLoadFailed_providers_eq s.model pid target e) ?_)
      (fun x hx => List.mem_append.mpr (Or.inl hx))
    intro c hc
    have hc1 : c ∈ [Cmd.clearStatusAfter errorClearDelay] := hc
    have hc2 : c = Cmd.clearStatusAfter errorClearDelay := by simpa using hc1
    subst hc2
    rfl
  | errMsg e =>
    obtain ⟨rest, hcons, hs2⟩ :=
      stepSys_some_inv s (Msg.errMsg e) s2 _ rfl hs
    subst hs2
    exact domInvS_mono _ _ _
      (domInvS_consume _ _ _ _ _ _ _ h hcons (domStep_handleError s.model e))
      (fun x hx => List.mem_append.mpr (Or.inl hx))
  | clearStatus =>
    obtain ⟨rest, hcons, hs2⟩ :=
      stepSys_some_inv s Msg.clearStatus s2 _ rfl hs
    subst hs2
    exact domInvS_mono _ _ _
      (domInvS_consume _ _ _ _ _ _ _ h hcons (domStep_id _ _ rfl rfl))
      (fun x hx => List.mem_append.mpr (Or.inl hx))
  | profileRefreshTick =>
    obtain ⟨rest, hcons, hs2⟩ :=
      stepSys_some_inv s Msg.profileRefreshTick s2 _ rfl hs
    subst hs2
    exact domInvS_mono _ _ _
      (domInvS_consume _ _ _ _ _ _ _ h hcons
        (domStep_profileRefreshTick s.model))
      (fun x hx => List.mem_append.mpr (Or.inl hx))

theorem domInvS_init : DomInvS initSys [] := by
  refine ⟨?_, ?_, ?_⟩
  · intro k hk
    exact absurd rfl hk
  · intro c hc id hid
    have hc1 : c ∈ [Cmd.loadProfile, Cmd.profileRefreshTick] := hc
    have hc2 : c = Cmd.loadProfile ∨ c = Cmd.profileRefreshTick := by
      simpa using hc1
    rcases hc2 with h | h <;> subst h <;> simp [cmdProviderID] at hid
  · intro id hid
    have hid2 : id ∈ providerIds ([] : List ProviderBucket) := hid
    simp [providerIds] at hid2

theorem domInvS_runSys (msgs : List Msg) : ∀ (s0 s : Sys) (E : List Int),
    DomInvS s0 E → runSys s0 msgs = some s →
    DomInvS s (E ++ everIds msgs) := by
  induction msgs with
  | nil =>
    intro s0 s E h0 hr
    simp only [runSys, Option.some.injEq] at hr
    subst hr
    exact domInvS_mono _ _ _ h0 (fun x hx => List.mem_append.mpr (Or.inl hx))
  | cons e es ih =>
    intro s0 s E h0 hr
    simp only [runSys] at hr
    rcases hstep : stepSys s0 e with _ | s1 <;> rw [hstep] at hr
    · simp at hr
    · simp only [Option.some_bind] at hr
      have h1 := domInvS_stepSys s0 s1 e E h0 hstep
      have h2 := ih s1 s (E ++ everIds [e]) h1 hr
      refine domInvS_mono _ _ _ h2 ?_
      intro x hx
      rw [everIds_cons]
      rcases List.mem_append.mp hx with hl | hl
      · rcases List.mem_append.mp hl with h3 | h3
        · exact List.mem_append.mpr (Or.inl h3)
        · exact List.mem_append.mpr (Or.inr (List.mem_append.mpr (Or.inl h3)))
      · exact List.mem_append.mpr (Or.inr (List.mem_append.mpr (Or.inr hl)))

/-- C10: with an empty provider list the current-provider id resolves to 0
and `moveSelection`, `refreshCurrentProvider` and `switchSelection` are
no-ops issuing no command; a detail load for id 0 is a no-op; provider-state
reads for id 0 yield the fresh detached entry, and inserts/writes for id 0
never touch the cache map; consequently, along any run from the initial
state, every cache-map key is a non-zero id delivered by some provider-list
fetch of the trace. -/
theorem c10_empty_list_and_cache_domain :
    (∀ m : Model, m.providers = [] → m.currentProviderID = 0) ∧
    (∀ (m : Model) (d : Int), m.providers = [] → m.moveSelection d = (m, [])) ∧
    (∀ m : Model, m.providers = [] → m.refreshCurrentProvider = (m, [])) ∧
    (∀ m : Model, m.providers = [] → m.switchSelection = (m, [])) ∧
    (∀ m : Model, m.queueProviderDetailLoad 0 = (m, [])) ∧
    (∀ m : Model, m.getPS 0 = {}) ∧
    (∀ m : Model, m.ensurePS 0 = m) ∧
    (∀ (m : Model) (st : ProviderState), m.setPS 0 st = m) ∧
    (∀ (msgs : List Msg) (s : Sys), runSys initSys msgs = some s →
       ∀ k, s.model.providerData k ≠ none → k ≠ 0 ∧ k ∈ everIds msgs) := by
  refine ⟨currentProviderID_nil, ?_, ?_, ?_, ?_, getPS_zero,
    ensurePS_zero_model, setPS_zero_model, ?_⟩
  · intro m d h
    unfold Model.moveSelection
    rw [if_pos h]
  · intro m h
    unfold Model.refreshCurrentProvider
    rw [if_pos h]
  · intro m h
    unfold Model.switchSelection
    rw [if_pos h]
  · intro m
    unfold Model.queueProviderDetailLoad
    rw [if_pos rfl]
  · intro msgs s hr k hk
    obtain ⟨hmap, _, _⟩ := domInvS_runSys msgs initSys s [] domInvS_init hr
    obtain ⟨hz, hE⟩ := hmap k hk
    refine ⟨hz, ?_⟩
    simpa using hE

set_option maxHeartbeats 1000000 in
/-- Witness for `c10_empty_list_and_cache_domain` at the initial model, a
sample populated model, and a concrete two-event trace. -/
theorem c10_empty_list_and_cache_domain_witness :
    initModel.currentProviderID = 0 ∧
    initModel.moveSelection 1 = (initModel, []) ∧
    initModel.refreshCurrentProvider = (initModel, []) ∧
    initModel.switchSelection = (initModel, []) ∧
    sampleModel.queueProviderDetailLoad 0 = (sampleModel, []) ∧
    sampleModel.getPS 0 = {} ∧
    sampleModel.ensurePS 0 = sampleModel ∧
    sampleModel.setPS 0 sampleDetail = sampleModel ∧
    ((3 : Int) ≠ 0 ∧ (3 : Int) ∈ everIds c2SafeTrace) :=
  ⟨c10_empty_list_and_cache_domain.1 initModel rfl,
   c10_empty_list_and_cache_domain.2.1 initModel 1 rfl,
   c10_empty_list_and_cache_domain.2.2.1 initModel rfl,
   c10_empty_list_and_cache_domain.2.2.2.1 initModel rfl,
   c10_empty_list_and_cache_domain.2.2.2.2.1 sampleModel,
   c10_empty_list_and_cache_domain.2.2.2.2.2.1 sampleModel,
   c10_empty_list_and_cache_domain.2.2.2.2.2.2.1 sampleModel,
   c10_empty_list_and_cache_domain.2.2.2.2.2.2.2.1 sampleModel sampleDetail,
   c10_empty_list_and_cache_domain.2.2.2.2.2.2.2.2 c2SafeTrace
     (sysAfter c2SafeTrace) rfl 3 (Option.ne_none_iff_isSome.mpr rfl)⟩

end YC
